import Mathlib

/-!
# Scene editor (`src/App.jsx`): element store, drag / resize handlers, import / export

A shallow embedding of the state and handlers of the `App` component.

Modelling conventions
* A JavaScript object is its list of own properties in insertion order (`Obj`);
  a property read that finds nothing is `none` (JavaScript `undefined`).
* JavaScript numbers are IEEE 754 doubles, carried as the rationals they
  denote.  Every `+`, `-`, `*`, `/` of the source is the exact operation followed
  by rounding to the nearest double, ties to even (`toDouble`); comparisons,
  `Math.min`, `Math.max` and `Math.abs` are exact.  The exponent range is not
  bounded in the model: `NaN`, the infinities, gradual underflow and the sign of
  zero are outside it.  Where a handler does arithmetic on a property that is
  not a number the model answers `none` (JavaScript would coerce).
* React state is passed explicitly (`State`); every handler is one atomic step,
  and a handler called by an event closes over the state of the latest render.
  The callbacks of an image replacement run when the image has loaded and close
  over the `selectedElement` of the render in which the file was picked.
* `Date.now()` and `Math.random().toString(36)` are inputs of the handlers that
  call `generateId`.
* The text of an uploaded file is represented by what `JSON.parse` makes of it,
  and an exported document by the value handed to `JSON.stringify`.
* Strict equality of two objects or arrays (reference identity) is not modelled:
  the handlers compare ids and type tags, which are strings.
* Cursor feedback is the `cursor` field; alerts are returned as their text.
* The position of a drag target is read where the source calls `position()`:
  a `DragSession` holds the target as of the last drag event.
* A session of the editor is a run of `Event`s from `State.init`; an event on a
  rendered shape names it by its index in `elements`.
-/

namespace App

/-! ## Numbers -/

/-- The number of halvings that take `n` down to 1, at most `fuel` of them. -/
def log2Aux : ℕ → ℕ → ℕ
  | 0, _ => 0
  | fuel + 1, n => if n < 2 then 0 else log2Aux fuel (n / 2) + 1

/-- The position of the leading binary digit of `n`. -/
def binaryLog (n : ℕ) : ℕ :=
  log2Aux n n

/-- The double nearest to `n / d`, for positive `n` and `d`: with `e` the binary
exponent of `n / d`, the quotient is scaled to a significand of 53 bits, rounded
to the nearest integer with ties to even, and scaled back. -/
def roundMagnitude (n d : ℕ) : ℚ :=
  let e0 : ℤ := (binaryLog n : ℤ) - (binaryLog d : ℤ)
  let below : Bool :=
    if 0 ≤ e0 then decide (n < 2 ^ e0.toNat * d) else decide (n * 2 ^ (-e0).toNat < d)
  let e : ℤ := if below then e0 - 1 else e0
  let s : ℤ := 52 - e
  let num : ℕ := if 0 ≤ s then n * 2 ^ s.toNat else n
  let den : ℕ := if 0 ≤ s then d else d * 2 ^ (-s).toNat
  let f := num / den
  let r := num % den
  let m : ℕ :=
    if 2 * r < den then f else if den < 2 * r then f + 1 else if f % 2 = 0 then f else f + 1
  if 0 ≤ s then (m : ℚ) / ((2 ^ s.toNat : ℕ) : ℚ) else (m : ℚ) * ((2 ^ (-s).toNat : ℕ) : ℚ)

/-- Rounding to the nearest double, ties to even: the value of an arithmetic
operation of JavaScript whose exact result is `q`, and of a decimal literal. -/
def toDouble (q : ℚ) : ℚ :=
  if q = 0 then 0
  else if 0 < q then roundMagnitude q.num.natAbs q.den
  else - roundMagnitude q.num.natAbs q.den

/-- JavaScript `a + b` on numbers. -/
def jsAdd (a b : ℚ) : ℚ :=
  toDouble (a + b)

/-- JavaScript `a - b` on numbers. -/
def jsSub (a b : ℚ) : ℚ :=
  toDouble (a - b)

/-- JavaScript `a * b` on numbers. -/
def jsMul (a b : ℚ) : ℚ :=
  toDouble (a * b)

/-- JavaScript `a / b` on numbers, for `b` other than zero. -/
def jsDiv (a b : ℚ) : ℚ :=
  toDouble (a / b)

/-! ## JavaScript values and objects -/

/-- The JSON-representable JavaScript values. -/
inductive JSValue where
  | null
  | bool (b : Bool)
  | num (q : ℚ)
  | str (s : String)
  | arr (items : List JSValue)
  | obj (props : List (String × JSValue))

/-- An object: own properties, in insertion order. -/
abbrev Obj := List (String × JSValue)

/-- Property read `o.k`; `none` is `undefined`. -/
def getProp : Obj → String → Option JSValue
  | [], _ => none
  | (k', v) :: rest, k => if k' = k then some v else getProp rest k

/-- Property write `o.k = v` on a copy: an existing key keeps its place. -/
def setProp : Obj → String → JSValue → Obj
  | [], k, v => [(k, v)]
  | (k', v') :: rest, k, v =>
    if k' = k then (k, v) :: rest else (k', v') :: setProp rest k v

/-- The rest of an object without key `k` (`const { k, ...rest } = o`). -/
def delProp : Obj → String → Obj
  | [], _ => []
  | (k', v') :: rest, k =>
    if k' = k then delProp rest k else (k', v') :: delProp rest k

/-- Object spread with overrides: `{ ...o, ...updates }`. -/
def assign (o : Obj) (updates : Obj) : Obj :=
  updates.foldl (fun acc kv => setProp acc kv.1 kv.2) o

/-- Strict equality `a === b` on property reads.  Primitives compare by value;
objects and arrays compare by reference in JavaScript and are never equal to a
primitive: the model treats two compound values as different. -/
def strictEq : Option JSValue → Option JSValue → Bool
  | none, none => true
  | some .null, some .null => true
  | some (.bool a), some (.bool b) => a == b
  | some (.num a), some (.num b) => a == b
  | some (.str a), some (.str b) => a == b
  | _, _ => false

/-- JavaScript truthiness of a property read (`!v` is its negation). -/
def truthy : Option JSValue → Bool
  | none => false
  | some .null => false
  | some (.bool b) => b
  | some (.num q) => q != 0
  | some (.str s) => s != ""
  | some (.arr _) => true
  | some (.obj _) => true

/-- A property read used as a number by `+`, `-`, `/`, `>`; `none` when the
property is not a number. -/
def numProp (o : Obj) (k : String) : Option ℚ :=
  match getProp o k with
  | some (.num q) => some q
  | _ => none

/-- Property read `v.k` on an arbitrary value: `none` inside `some` is
`undefined`, the outer `none` is the `TypeError` of reading a property of
`null`. -/
def readProp (v : JSValue) (k : String) : Option (Option JSValue) :=
  match v with
  | .null => none
  | .obj props => some (getProp props k)
  | _ => some none

/-- The own enumerable properties copied by `{ ...v }`.  A string is spread by
character; JavaScript spreads it by UTF-16 code unit, which differs for
characters outside the basic plane. -/
def spreadValue : JSValue → Obj
  | .obj props => props
  | .arr items => items.enum.map fun p => (toString p.1, p.2)
  | .str s => s.toList.enum.map fun p => (toString p.1, JSValue.str (String.singleton p.2))
  | _ => []

/-! ## State -/

/-- A position `{ x, y }` as reported by Konva. -/
structure Pos where
  x : ℚ
  y : ℚ

/-- The Konva node of an event (`e.target`): only its position is read or set. -/
structure KonvaNode where
  position : Pos

/-- The value of `draggedElement`: `{ element, target }`. -/
structure DragSession where
  element : Obj
  target : KonvaNode

/-- The value of `imageUpload`. -/
structure ImageUpload where
  src : String
  width : ℕ
  height : ℕ
  filename : String
  filepath : String

/-- The `useState` cells of `App`, the cursor style of the stage container, and
`pendingReplacement`: the `selectedElement` kept by the callbacks of an image
replacement whose image has not loaded yet (a closure, not a `useState` cell). -/
structure State where
  elements : List Obj
  selectedElement : Option Obj
  hoveredElement : Option Obj
  draggedElement : Option DragSession
  tool : Option String
  imageUpload : Option ImageUpload
  cursor : String
  pendingReplacement : Option Obj

/-- The state of a freshly mounted component. -/
def State.init : State :=
  { elements := [], selectedElement := none, hoveredElement := none,
    draggedElement := none, tool := none, imageUpload := none, cursor := "default",
    pendingReplacement := none }

/-! ## Identifiers -/

/-- `substr(2, 9)` of the base-36 rendering of a random draw: the nine
characters after the leading `0.` (fewer when the rendering is shorter). -/
def randomSuffix (rnd : String) : String :=
  String.mk ((rnd.toList.drop 2).take 9)

/-- `generateId`: `element_` + `Date.now()` + `_` + `Math.random().toString(36).substr(2, 9)`.
`now` is the clock reading and `rnd` the base-36 rendering of the random draw. -/
def generateId (now : ℕ) (rnd : String) : String :=
  "element_" ++ toString now ++ "_" ++ randomSuffix rnd

/-! ## Scene store -/

/-- `updateElement(elementId, updates)`.  `selectedElement` is the value the
callback closes over (its `useCallback` dependency): the selection of the render
that created the callback.  The two functional updates run on the current state
`st`; spreading a selection that is `null` copies no property. -/
def updateElement (selectedElement : Option Obj) (elementId : Option JSValue) (updates : Obj)
    (st : State) : State :=
  { st with
    elements := st.elements.map fun el =>
      if strictEq (getProp el "id") elementId then assign el updates else el
    selectedElement :=
      match selectedElement with
      | some captured =>
        if strictEq (getProp captured "id") elementId then
          match st.selectedElement with
          | some prev => some (assign prev updates)
          | none => some (assign [] updates)
        else st.selectedElement
      | none => st.selectedElement }

/-- `deleteElement(elementId)`. -/
def deleteElement (elementId : Option JSValue) (st : State) : State :=
  { st with
    elements := st.elements.filter fun el => !strictEq (getProp el "id") elementId
    selectedElement := none }

/-- `handleImageReplacement(event)` with a file picked: when an image is
selected the file is read, and the callbacks of the read close over the
`selectedElement` and the `updateElement` of this render. -/
def handleImageReplacement (st : State) : State :=
  match st.selectedElement with
  | some sel =>
    if strictEq (getProp sel "type") (some (.str "image")) then
      { st with pendingReplacement := some sel }
    else st
  | none => st

/-- The `img.onload` callback of `handleImageReplacement`: it calls the
`updateElement` of the render in which the file was picked, with the id of the
selection of that render, on the state current when the image has loaded. -/
def imageReplacementLoaded (upload : ImageUpload) (st : State) : State :=
  match st.pendingReplacement with
  | some captured =>
    { updateElement (some captured) (getProp captured "id")
        [("src", .str upload.src), ("width", .num upload.width),
          ("height", .num upload.height), ("filename", .str upload.filename),
          ("filepath", .str upload.filepath)] st with
      pendingReplacement := none }
  | none => st

/-- The image-load callback of `handleImageUpload`: stages the upload and
selects the image tool. -/
def handleImageUpload (upload : ImageUpload) (st : State) : State :=
  { st with imageUpload := some upload, tool := some "image" }

/-- The element built by `handleStageClick` for the active tool, if any. -/
def newElementFor (tool : String) (id : String) (pos : Pos) (imageUpload : Option ImageUpload) :
    Option Obj :=
  if tool = "text" then
    some [("id", .str id), ("type", .str "text"), ("text", .str "Sample Text"),
      ("x", .num pos.x), ("y", .num pos.y), ("alignment", .str "left"),
      ("startTime", .num 0), ("endTime", .num 10)]
  else if tool = "rectangle" then
    some [("id", .str id), ("type", .str "rectangle"), ("x", .num pos.x), ("y", .num pos.y),
      ("width", .num 100), ("height", .num 50), ("cornerRadius", .num 0),
      ("borderWidth", .num 1), ("startTime", .num 0), ("endTime", .num 10)]
  else if tool = "line" then
    some [("id", .str id), ("type", .str "line"), ("x1", .num pos.x), ("y1", .num pos.y),
      ("x2", .num (jsAdd pos.x 50)), ("y2", .num (jsAdd pos.y 50)), ("width", .num 2),
      ("startTime", .num 0), ("endTime", .num 10)]
  else if tool = "image" then
    match imageUpload with
    | some up =>
      some [("id", .str id), ("type", .str "image"), ("x", .num pos.x), ("y", .num pos.y),
        ("src", .str up.src), ("width", .num up.width), ("height", .num up.height),
        ("filename", .str up.filename), ("filepath", .str up.filepath),
        ("startTime", .num 0), ("endTime", .num 10)]
    | none => none
  else none

/-- `handleStageClick`: `pos` is `getPointerPosition()` (`none` for `null`),
`now` and `rnd` feed the one call of `generateId`.  The staged upload is read
from the current state; the callback of the source (dependencies `[tool]`) reads
the one of the render in which the tool last changed, which differs only when a
second image is uploaded while the image tool is active, and then only in the
`src`, size and names of the image placed. -/
def handleStageClick (now : ℕ) (rnd : String) (pos : Option Pos) (st : State) : State :=
  match st.tool, pos with
  | some tool, some p =>
    if tool = "" then { st with selectedElement := none }
    else
      match newElementFor tool (generateId now rnd) p st.imageUpload with
      | some newElement =>
        { st with
          elements := st.elements ++ [newElement]
          selectedElement := some newElement
          tool := none
          imageUpload := if tool = "image" then none else st.imageUpload }
      | none => st
  | _, _ => { st with selectedElement := none }

/-! ## Selection and hover -/

/-- `handleElementClick(element, e)`. -/
def handleElementClick (element : Obj) (st : State) : State :=
  { st with selectedElement := some element }

/-- `handleElementMouseEnter(element)`. -/
def handleElementMouseEnter (element : Obj) (st : State) : State :=
  { st with hoveredElement := some element }

/-- `handleElementMouseLeave()`. -/
def handleElementMouseLeave (st : State) : State :=
  { st with hoveredElement := none }

/-! ## Body drag -/

/-- `handleElementDragStart(element, e)`. -/
def handleElementDragStart (element : Obj) (target : KonvaNode) (st : State) : State :=
  { st with
    draggedElement := some { element := element, target := target }
    hoveredElement := none
    cursor := "grabbing" }

/-- `handleElementDragMove(element, e)`. -/
def handleElementDragMove (element : Obj) (target : KonvaNode) (st : State) : State :=
  match st.draggedElement with
  | some d =>
    if strictEq (getProp d.element "id") (getProp element "id") then
      { st with draggedElement := some { element := element, target := target } }
    else st
  | none => st

/-- The `updates` that `handleElementDragEnd` hands to `updateElement`; `none`
when an endpoint of a line is not a number. -/
def dragEndUpdates (element : Obj) (newPos : Pos) : Option Obj :=
  if strictEq (getProp element "type") (some (.str "line")) then do
    let x1 ← numProp element "x1"
    let y1 ← numProp element "y1"
    let x2 ← numProp element "x2"
    let y2 ← numProp element "y2"
    pure [("x1", .num (jsAdd x1 newPos.x)), ("y1", .num (jsAdd y1 newPos.y)),
      ("x2", .num (jsAdd x2 newPos.x)), ("y2", .num (jsAdd y2 newPos.y))]
  else
    some [("x", .num newPos.x), ("y", .num newPos.y)]

/-- `handleElementDragEnd(element, e)`: the new state and the drag target as the
handler leaves it. -/
def handleElementDragEnd (element : Obj) (target : KonvaNode) (st : State) :
    Option (State × KonvaNode) := do
  let updates ← dragEndUpdates element target.position
  let st1 := updateElement st.selectedElement (getProp element "id") updates st
  let target1 : KonvaNode :=
    if strictEq (getProp element "type") (some (.str "line")) then
      { position := { x := 0, y := 0 } }
    else target
  pure ({ st1 with draggedElement := none, cursor := "default" }, target1)

/-! ## Line endpoint handles -/

/-- `handleLineEndpointDrag(element, isStart, e)`. -/
def handleLineEndpointDrag (element : Obj) (isStart : Bool) (target : KonvaNode)
    (st : State) : State :=
  if isStart then
    updateElement st.selectedElement (getProp element "id")
      [("x1", .num target.position.x), ("y1", .num target.position.y)] st
  else
    updateElement st.selectedElement (getProp element "id")
      [("x2", .num target.position.x), ("y2", .num target.position.y)] st

/-! ## Rectangle edge handles -/

/-- The `edge` argument of `handleRectangleEdgeDrag`: the four literals the
handles pass. -/
inductive Edge where
  | top
  | bottom
  | left
  | right
  deriving DecidableEq

/-- What one call of `handleRectangleEdgeDrag` decides: the `updates` it hands
to `updateElement` (`none` when it does not call it) and the position it assigns
to the handle. -/
structure EdgeDrag where
  updates : Option Obj
  handle : Pos

/-- The body of the `switch (edge)` of `handleRectangleEdgeDrag`; `none` when a
property used in the arithmetic is not a number. -/
def rectangleEdgeDrag (element : Obj) (edge : Edge) (newPos : Pos) : Option EdgeDrag :=
  match edge with
  | .top => do
    let height ← numProp element "height"
    let y ← numProp element "y"
    let x ← numProp element "x"
    let width ← numProp element "width"
    let newHeight := jsAdd height (jsSub y newPos.y)
    let constrainedY := if newHeight > 5 then newPos.y else jsSub y (jsSub 5 height)
    pure
      { updates :=
          if newHeight > 5 then some [("y", .num newPos.y), ("height", .num newHeight)]
          else none
        handle := { x := jsAdd x (jsDiv width 2), y := constrainedY } }
  | .bottom => do
    let y ← numProp element "y"
    let x ← numProp element "x"
    let width ← numProp element "width"
    let bottomHeight := jsSub newPos.y y
    let constrainedBottomY := if bottomHeight > 5 then newPos.y else jsAdd y 5
    pure
      { updates := if bottomHeight > 5 then some [("height", .num bottomHeight)] else none
        handle := { x := jsAdd x (jsDiv width 2), y := constrainedBottomY } }
  | .left => do
    let width ← numProp element "width"
    let x ← numProp element "x"
    let y ← numProp element "y"
    let height ← numProp element "height"
    let newWidth := jsAdd width (jsSub x newPos.x)
    let constrainedX := if newWidth > 5 then newPos.x else jsSub x (jsSub 5 width)
    pure
      { updates :=
          if newWidth > 5 then some [("x", .num newPos.x), ("width", .num newWidth)]
          else none
        handle := { x := constrainedX, y := jsAdd y (jsDiv height 2) } }
  | .right => do
    let x ← numProp element "x"
    let y ← numProp element "y"
    let height ← numProp element "height"
    let rightWidth := jsSub newPos.x x
    let constrainedRightX := if rightWidth > 5 then newPos.x else jsAdd x 5
    pure
      { updates := if rightWidth > 5 then some [("width", .num rightWidth)] else none
        handle := { x := constrainedRightX, y := jsAdd y (jsDiv height 2) } }

/-- `handleRectangleEdgeDrag(element, edge, e)`: the new state and the handle
node as the handler leaves it. -/
def handleRectangleEdgeDrag (element : Obj) (edge : Edge) (target : KonvaNode)
    (st : State) : Option (State × KonvaNode) := do
  let d ← rectangleEdgeDrag element edge target.position
  let st1 :=
    match d.updates with
    | some updates => updateElement st.selectedElement (getProp element "id") updates st
    | none => st
  pure (st1, { position := d.handle })

/-- The `onDragMove` of the edge handles as rendered: handles exist only while
a rectangle is selected, and they pass `selectedElement`. -/
def edgeHandleDragMove (edge : Edge) (target : KonvaNode) (st : State) :
    Option (State × KonvaNode) :=
  match st.selectedElement with
  | some sel =>
    if strictEq (getProp sel "type") (some (.str "rectangle")) then
      handleRectangleEdgeDrag sel edge target st
    else some (st, target)
  | none => some (st, target)

/-- A run of edge-handle drag events, each with its edge and reported position. -/
def edgeHandleDrags : List (Edge × Pos) → State → Option State
  | [], st => some st
  | (edge, p) :: rest, st => do
    let r ← edgeHandleDragMove edge { position := p } st
    edgeHandleDrags rest r.1

/-! ## Export and import -/

/-- The `exportData` of `exportToJSON`: every element, images without `src`. -/
def exportData (elements : List Obj) : List Obj :=
  elements.map fun element =>
    if strictEq (getProp element "type") (some (.str "image")) then delProp element "src"
    else element

/-- The value `exportToJSON` serialises. -/
def exportToJSON (st : State) : JSValue :=
  .arr ((exportData st.elements).map JSValue.obj)

/-- A file picked in the import dialog: its MIME type and what `JSON.parse`
returns for its text (`none` when it throws). -/
structure UploadedFile where
  type : String
  parsed : Option JSValue

/-- The `if (element.type === 'image')` block of the import callback, applied
to `newElement`: placeholder payload and names, default dimensions. -/
def withPlaceholder (questionSignImage : String) (newElement : Obj) : Obj :=
  let e1 := setProp newElement "src" (.str questionSignImage)
  let e2 := setProp e1 "filename" (.str "question-sign.png")
  let e3 := setProp e2 "filepath" (.str "question-sign.png")
  let e4 := if !truthy (getProp e3 "width") then setProp e3 "width" (.num 100) else e3
  if !truthy (getProp e4 "height") then setProp e4 "height" (.num 100) else e4

/-- The callback of `importedData.map` in `handleJSONFileUpload`, with the id
that `generateId()` returns for it; `none` is the `TypeError` of `element.type`
on `null`. -/
def processElement (questionSignImage : String) (id : String) (element : JSValue) :
    Option Obj := do
  let newElement := setProp (spreadValue element) "id" (.str id)
  let type ← readProp element "type"
  if strictEq type (some (.str "image")) then
    pure (withPlaceholder questionSignImage newElement)
  else
    pure newElement

/-- The `processedElements` of `handleJSONFileUpload`: record number `i` gets the
id made from draw number `i` of the clock and the random source. -/
def processElements (questionSignImage : String) (entropy : ℕ → ℕ × String) :
    ℕ → List JSValue → Option (List Obj)
  | _, [] => some []
  | i, element :: rest => do
    let e ← processElement questionSignImage
      (generateId (entropy i).1 (entropy i).2) element
    let es ← processElements questionSignImage entropy (i + 1) rest
    pure (e :: es)

/-- `handleJSONFileUpload`: the new state and the text of the alert shown.
`questionSignImage` is the URL of the bundled placeholder asset. -/
def handleJSONFileUpload (questionSignImage : String) (entropy : ℕ → ℕ × String)
    (file : Option UploadedFile) (st : State) : State × String :=
  match file with
  | some f =>
    if f.type = "application/json" then
      match f.parsed with
      | none => (st, "Error parsing JSON file. Please check the file format.")
      | some (.arr importedData) =>
        match processElements questionSignImage entropy 0 importedData with
        | some processedElements =>
          ({ st with elements := st.elements ++ processedElements },
            "Successfully imported " ++ toString processedElements.length ++ " elements")
        | none => (st, "Error parsing JSON file. Please check the file format.")
      | some _ => (st, "Invalid JSON format. Expected an array of elements.")
    else (st, "Please select a valid JSON file")
  | none => (st, "Please select a valid JSON file")

/-- The click handler of the export button as a step: `exportToJSON` calls no
state setter and builds its records as new objects, so the state it leaves is
the state it was given; the second component is the document. -/
def exportToJSONClick (st : State) : State × JSValue :=
  (st, exportToJSON st)

/-! ## Bounds -/

/-- The box `{ x, y, width, height }` returned by `getElementBounds`; a field
copied from the element is the property read as it is. -/
structure Bounds where
  x : Option JSValue
  y : Option JSValue
  width : Option JSValue
  height : Option JSValue

/-- The `length` of a JavaScript string: its number of UTF-16 code units. -/
def utf16Length (s : String) : ℕ :=
  s.toList.foldl (fun n c => n + (if c.val < 0x10000 then 1 else 2)) 0

/-- The position of the drag target when `element` is the dragged element
(`isDragged`), and `none` otherwise. -/
def dragPosition (draggedElement : Option DragSession) (element : Obj) : Option Pos :=
  match draggedElement with
  | some d =>
    if strictEq (getProp d.element "id") (getProp element "id") then some d.target.position
    else none
  | none => none

/-- `getElementBounds(element)`, reading `draggedElement`; `none` when the text
of a text element is not a string or an endpoint of a line is not a number. -/
def getElementBounds (draggedElement : Option DragSession) (element : Obj) : Option Bounds :=
  let dragPos := dragPosition draggedElement element
  let currentX : Option JSValue :=
    match dragPos with
    | some p => some (.num p.x)
    | none => getProp element "x"
  let currentY : Option JSValue :=
    match dragPos with
    | some p => some (.num p.y)
    | none => getProp element "y"
  if strictEq (getProp element "type") (some (.str "text")) then
    match getProp element "text" with
    | some (.str text) =>
      some { x := currentX, y := currentY, width := some (.num (jsMul (utf16Length text) 18)),
             height := some (.num 36) }
    | _ => none
  else if strictEq (getProp element "type") (some (.str "rectangle")) then
    some { x := currentX, y := currentY, width := getProp element "width",
           height := getProp element "height" }
  else if strictEq (getProp element "type") (some (.str "line")) then do
    let x1 ← numProp element "x1"
    let y1 ← numProp element "y1"
    let x2 ← numProp element "x2"
    let y2 ← numProp element "y2"
    match dragPos with
    | some p =>
      let newX1 := jsAdd x1 p.x
      let newY1 := jsAdd y1 p.y
      let newX2 := jsAdd x2 p.x
      let newY2 := jsAdd y2 p.y
      let minX := min newX1 newX2
      let maxX := max newX1 newX2
      let minY := min newY1 newY2
      let maxY := max newY1 newY2
      pure { x := some (.num (jsSub minX 2)), y := some (.num (jsSub minY 2)),
             width := some (.num (jsAdd (jsSub maxX minX) 4)),
             height := some (.num (jsAdd (jsSub maxY minY) 4)) }
    | none =>
      let minX := min x1 x2
      let maxX := max x1 x2
      let minY := min y1 y2
      let maxY := max y1 y2
      pure { x := some (.num (jsSub minX 2)), y := some (.num (jsSub minY 2)),
             width := some (.num (jsAdd (jsSub maxX minX) 4)),
             height := some (.num (jsAdd (jsSub maxY minY) 4)) }
  else if strictEq (getProp element "type") (some (.str "image")) then
    some { x := currentX, y := currentY, width := getProp element "width",
           height := getProp element "height" }
  else
    some { x := some (.num 0), y := some (.num 0), width := some (.num 0),
           height := some (.num 0) }

/-- The `x`, `y` props of the edge handle of `selectedElement` as rendered (an
8 by 8 `Rect`, so this is its top-left corner); `none` when a property used in
the arithmetic is not a number. -/
def renderedEdgeHandle (draggedElement : Option DragSession) (selectedElement : Obj)
    (edge : Edge) : Option Pos := do
  let currentX ←
    match dragPosition draggedElement selectedElement with
    | some p => some p.x
    | none => numProp selectedElement "x"
  let currentY ←
    match dragPosition draggedElement selectedElement with
    | some p => some p.y
    | none => numProp selectedElement "y"
  match edge with
  | .top => do
    let width ← numProp selectedElement "width"
    pure { x := jsSub (jsAdd currentX (jsDiv width 2)) 4, y := jsSub currentY 4 }
  | .bottom => do
    let width ← numProp selectedElement "width"
    let height ← numProp selectedElement "height"
    pure { x := jsSub (jsAdd currentX (jsDiv width 2)) 4,
           y := jsSub (jsAdd currentY height) 4 }
  | .left => do
    let height ← numProp selectedElement "height"
    pure { x := jsSub currentX 4, y := jsSub (jsAdd currentY (jsDiv height 2)) 4 }
  | .right => do
    let width ← numProp selectedElement "width"
    let height ← numProp selectedElement "height"
    pure { x := jsSub (jsAdd currentX width) 4,
           y := jsSub (jsAdd currentY (jsDiv height 2)) 4 }

/-! ## Events -/

/-- The events of an editing session.  An event on a rendered shape names the
shape by its index in `elements`; the handles pass `selectedElement`. -/
inductive Event where
  | setTool (tool : Option String)
  | imageUpload (upload : ImageUpload)
  | stageClick (now : ℕ) (rnd : String) (pos : Option Pos)
  | update (elementId : Option JSValue) (updates : Obj)
  | delete (elementId : Option JSValue)
  | click (index : ℕ)
  | mouseEnter (index : ℕ)
  | mouseLeave
  | jsonUpload (questionSignImage : String) (entropy : ℕ → ℕ × String)
      (file : Option UploadedFile)
  | dragStart (index : ℕ) (target : KonvaNode)
  | dragMove (index : ℕ) (target : KonvaNode)
  | dragEnd (index : ℕ) (target : KonvaNode)
  | endpointDrag (isStart : Bool) (target : KonvaNode)
  | edgeDrag (edge : Edge) (target : KonvaNode)
  | imageReplacement
  | imageReplacementLoad (upload : ImageUpload)

/-- An event is a delete. -/
def Event.isDelete : Event → Bool
  | .delete _ => true
  | _ => false

/-- An event is the load of a replacement image. -/
def Event.isReplacementLoad : Event → Bool
  | .imageReplacementLoad _ => true
  | _ => false

/-- No key of the object is `id`. -/
def withoutId (updates : Obj) : Bool :=
  updates.all fun kv => kv.1 != "id"

/-- The state after one event; `none` when the event cannot occur in the state
(no shape at the index, no selected line or rectangle for a handle, an update
that names `id`, an image load with no replacement under way) or when the
handler model does not answer.  A handler called by an event belongs to the
latest render, so the `selectedElement` it closes over is that of `st`. -/
def dispatch (ev : Event) (st : State) : Option State :=
  match ev with
  | .setTool tool => some { st with tool := tool }
  | .imageUpload upload => some (handleImageUpload upload st)
  | .stageClick now rnd pos => some (handleStageClick now rnd pos st)
  | .update elementId updates =>
    if withoutId updates then some (updateElement st.selectedElement elementId updates st)
    else none
  | .delete elementId => some (deleteElement elementId st)
  | .click index => (st.elements[index]?).map fun element => handleElementClick element st
  | .mouseEnter index =>
    (st.elements[index]?).map fun element => handleElementMouseEnter element st
  | .mouseLeave => some (handleElementMouseLeave st)
  | .jsonUpload questionSignImage entropy file =>
    some (handleJSONFileUpload questionSignImage entropy file st).1
  | .dragStart index target =>
    (st.elements[index]?).map fun element => handleElementDragStart element target st
  | .dragMove index target =>
    (st.elements[index]?).map fun element => handleElementDragMove element target st
  | .dragEnd index target =>
    (st.elements[index]?).bind fun element =>
      (handleElementDragEnd element target st).map Prod.fst
  | .endpointDrag isStart target =>
    match st.selectedElement with
    | some sel =>
      if strictEq (getProp sel "type") (some (.str "line")) then
        some (handleLineEndpointDrag sel isStart target st)
      else none
    | none => none
  | .edgeDrag edge target =>
    match st.selectedElement with
    | some sel =>
      if strictEq (getProp sel "type") (some (.str "rectangle")) then
        (handleRectangleEdgeDrag sel edge target st).map Prod.fst
      else none
    | none => none
  | .imageReplacement => some (handleImageReplacement st)
  | .imageReplacementLoad upload =>
    match st.pendingReplacement with
    | some _ => some (imageReplacementLoaded upload st)
    | none => none

/-- The state after a run of events, from `st`. -/
def run : List Event → State → Option State
  | [], st => some st
  | ev :: rest, st => (dispatch ev st).bind (run rest)

/-- A state the editor can be in: the result of some run of events from the
freshly mounted component. -/
def Reachable (st : State) : Prop :=
  ∃ events, run events State.init = some st

/-- A run of drag-move events, each with the moved element and its target. -/
def dragMoves (moves : List (Obj × KonvaNode)) (st : State) : State :=
  moves.foldl (fun s m => handleElementDragMove m.1 m.2 s) st

/-! ## Predicates used in the statements -/

/-- Width and height are numbers above the minimum of 5. -/
def BigBox (e : Obj) : Prop :=
  ∃ w h : ℚ, getProp e "width" = some (.num w) ∧ 5 < w ∧
    getProp e "height" = some (.num h) ∧ 5 < h

/-- The four box properties are numbers. -/
def NumericBox (e : Obj) : Prop :=
  ∃ x y w h : ℚ, getProp e "x" = some (.num x) ∧ getProp e "y" = some (.num y) ∧
    getProp e "width" = some (.num w) ∧ getProp e "height" = some (.num h)

/-- Every `width` or `height` among the updates is a number above 5. -/
def DimsAboveMinimum (updates : Obj) : Prop :=
  ∀ k v, (k, v) ∈ updates → k = "width" ∨ k = "height" → ∃ q : ℚ, v = .num q ∧ 5 < q

/-- The shapes of `updates` an edge drag can commit. -/
def EdgeCommit (updates : Obj) : Prop :=
  (∃ y h : ℚ, 5 < h ∧ updates = [("y", .num y), ("height", .num h)]) ∨
  (∃ h : ℚ, 5 < h ∧ updates = [("height", .num h)]) ∨
  (∃ x w : ℚ, 5 < w ∧ updates = [("x", .num x), ("width", .num w)]) ∨
  (∃ w : ℚ, 5 < w ∧ updates = [("width", .num w)])

/-- The invariant of a run of edge drags: a selected rectangle has numeric box
properties. -/
def SelectedRectNumeric (st : State) : Prop :=
  ∀ sel, st.selectedElement = some sel →
    getProp sel "type" = some (.str "rectangle") → NumericBox sel

/-- A place succeeds: the tool is one of the three shape tools, or the image
tool with an upload staged. -/
def Placeable (st : State) : Prop :=
  st.tool = some "text" ∨ st.tool = some "rectangle" ∨ st.tool = some "line" ∨
    (st.tool = some "image" ∧ st.imageUpload ≠ none)

/-- The number a list of decimal digit characters denotes. -/
def decimalValue (cs : List Char) : ℕ :=
  cs.foldl (fun a c => 10 * a + (c.toNat - 48)) 0

/-- The selection, when set, is an element of the scene, and every element of
the scene carries a string id. -/
def SelectionInScene (st : State) : Prop :=
  (∀ sel, st.selectedElement = some sel → sel ∈ st.elements) ∧
  (∀ e ∈ st.elements, ∃ s : String, getProp e "id" = some (.str s))

/-- The scene contains an element with the id of the hovered element, when
hover is set. -/
def HoverInScene (st : State) : Prop :=
  ∀ h, st.hoveredElement = some h → ∃ e ∈ st.elements, getProp e "id" = getProp h "id"

/-- None of the results is rounded: each is a double. -/
def Unrounded (results : List ℚ) : Prop :=
  ∀ q ∈ results, toDouble q = q

/-- No two different elements of the scene carry the same id. -/
def UniqueIds (elements : List Obj) : Prop :=
  ∀ a ∈ elements, ∀ b ∈ elements, strictEq (getProp a "id") (getProp b "id") = true → a = b

/-! ## The rules in the words of the specification -/

/-- The dimension an edge drag proposes, in the words of the specification; the
arithmetic is that of JavaScript numbers. -/
def specProposedDimension (x y width height : ℚ) (edge : Edge) (p : Pos) : ℚ :=
  match edge with
  | .top => jsAdd height (jsSub y p.y)
  | .bottom => jsSub p.y y
  | .left => jsAdd width (jsSub x p.x)
  | .right => jsSub p.x x

/-- The fields an accepted edge drag commits, in the words of the specification. -/
def specEdgeCommit (x y width height : ℚ) (edge : Edge) (p : Pos) : Obj :=
  match edge with
  | .top => [("y", .num p.y), ("height", .num (jsAdd height (jsSub y p.y)))]
  | .bottom => [("height", .num (jsSub p.y y))]
  | .left => [("x", .num p.x), ("width", .num (jsAdd width (jsSub x p.x)))]
  | .right => [("width", .num (jsSub p.x x))]

/-- Where the handle of a rejected edge drag is pinned, in the words of the
specification read as JavaScript expressions: `y + height - 5`, `y + 5`,
`x + width - 5`, `x + 5`, at the midpoint of the edge. -/
def specRejectedHandle (x y width height : ℚ) (edge : Edge) : Pos :=
  match edge with
  | .top => { x := jsAdd x (jsDiv width 2), y := jsSub (jsAdd y height) 5 }
  | .bottom => { x := jsAdd x (jsDiv width 2), y := jsAdd y 5 }
  | .left => { x := jsSub (jsAdd x width) 5, y := jsAdd y (jsDiv height 2) }
  | .right => { x := jsAdd x 5, y := jsAdd y (jsDiv height 2) }

/-- The same words read in exact arithmetic: the coordinate at which the
dimension would be exactly 5, at the exact midpoint of the edge. -/
def exactRejectedHandle (x y width height : ℚ) (edge : Edge) : Pos :=
  match edge with
  | .top => { x := x + width / 2, y := y + height - 5 }
  | .bottom => { x := x + width / 2, y := y + 5 }
  | .left => { x := x + width - 5, y := y + height / 2 }
  | .right => { x := x + 5, y := y + height / 2 }

/-- Where the handle of a rejected edge drag is pinned, with the top and left
coordinates written `y - (5 - height)` and `x - (5 - width)`. -/
def specPinnedHandle (x y width height : ℚ) (edge : Edge) : Pos :=
  match edge with
  | .top => { x := jsAdd x (jsDiv width 2), y := jsSub y (jsSub 5 height) }
  | .bottom => { x := jsAdd x (jsDiv width 2), y := jsAdd y 5 }
  | .left => { x := jsSub x (jsSub 5 width), y := jsAdd y (jsDiv height 2) }
  | .right => { x := jsAdd x 5, y := jsAdd y (jsDiv height 2) }

/-- The exact results of the operations that compute `specPinnedHandle`. -/
def pinnedArithmetic (x y width height : ℚ) (edge : Edge) : List ℚ :=
  match edge with
  | .top => [width / 2, x + width / 2, 5 - height, y - (5 - height)]
  | .bottom => [width / 2, x + width / 2, y + 5]
  | .left => [5 - width, x - (5 - width), height / 2, y + height / 2]
  | .right => [x + 5, height / 2, y + height / 2]

/-- The fields a whole-body drag of a line commits, in the words of the
specification: every endpoint coordinate moved by the offset. -/
def specLineDragCommit (x1 y1 x2 y2 : ℚ) (offset : Pos) : Obj :=
  [("x1", .num (jsAdd x1 offset.x)), ("y1", .num (jsAdd y1 offset.y)),
    ("x2", .num (jsAdd x2 offset.x)), ("y2", .num (jsAdd y2 offset.y))]

/-- The exact results of the additions of two successive whole-body drags of a
line, by `a` and then by `b`. -/
def twoDragsArithmetic (x1 y1 x2 y2 : ℚ) (a b : Pos) : List ℚ :=
  [x1 + a.x, x1 + a.x + b.x, y1 + a.y, y1 + a.y + b.y,
    x2 + a.x, x2 + a.x + b.x, y2 + a.y, y2 + a.y + b.y]

/-- The exact results of the operations that compute the bounds of a line, at
rest and with its endpoints moved by `p`. -/
def lineBoundsArithmetic (x1 y1 x2 y2 : ℚ) (p : Pos) : List ℚ :=
  [x1 + p.x, x2 + p.x, y1 + p.y, y2 + p.y, min x1 x2 - 2, min y1 y2 - 2,
    min x1 x2 + p.x - 2, min y1 y2 + p.y - 2]

/-- Where an edge handle is rendered, in the words of the specification: the
midpoint of the edge minus `(4, 4)`. -/
def specRenderedHandle (x y width height : ℚ) (edge : Edge) : Pos :=
  match edge with
  | .top => { x := jsSub (jsAdd x (jsDiv width 2)) 4, y := jsSub y 4 }
  | .bottom => { x := jsSub (jsAdd x (jsDiv width 2)) 4, y := jsSub (jsAdd y height) 4 }
  | .left => { x := jsSub x 4, y := jsSub (jsAdd y (jsDiv height 2)) 4 }
  | .right => { x := jsSub (jsAdd x width) 4, y := jsSub (jsAdd y (jsDiv height 2)) 4 }

/-- The dimension an edge drag proposes when the reported position is the
rendered position of the handle, in the words of the specification read in
exact arithmetic. -/
def specUnmovedDimension (width height : ℚ) (edge : Edge) : ℚ :=
  match edge with
  | .top => height + 4
  | .bottom => height - 4
  | .left => width + 4
  | .right => width - 4

/-- The fields an edge drag commits when the reported position is the rendered
position of the handle, in the words of the specification read in exact
arithmetic. -/
def specUnmovedCommit (x y width height : ℚ) (edge : Edge) : Obj :=
  match edge with
  | .top => [("y", .num (y - 4)), ("height", .num (height + 4))]
  | .bottom => [("height", .num (height - 4))]
  | .left => [("x", .num (x - 4)), ("width", .num (width + 4))]
  | .right => [("width", .num (width - 4))]

/-- The exact results of the operations of an edge drag that reports the
rendered position of its handle. -/
def unmovedArithmetic (x y width height : ℚ) (edge : Edge) : List ℚ :=
  match edge with
  | .top => [y - 4, height + 4]
  | .bottom => [y + height, y + height - 4, height - 4]
  | .left => [x - 4, width + 4]
  | .right => [x + width, x + width - 4, width - 4]

/-- The position an accepted edge drag assigns to its handle: the reported
coordinate on the dragged axis, the midpoint of the edge on the other. -/
def specAcceptedHandle (x y width height : ℚ) (edge : Edge) (p : Pos) : Pos :=
  match edge with
  | .top => { x := jsAdd x (jsDiv width 2), y := p.y }
  | .bottom => { x := jsAdd x (jsDiv width 2), y := p.y }
  | .left => { x := p.x, y := jsAdd y (jsDiv height 2) }
  | .right => { x := p.x, y := jsAdd y (jsDiv height 2) }

/-- Where the handle is rendered for the rectangle as an accepted edge drag to
`p` has updated it. -/
def rerenderedHandle (x y width height : ℚ) (edge : Edge) (p : Pos) : Pos :=
  match edge with
  | .top => specRenderedHandle x p.y width (jsAdd height (jsSub y p.y)) .top
  | .bottom => specRenderedHandle x y width (jsSub p.y y) .bottom
  | .left => specRenderedHandle p.x y (jsAdd width (jsSub x p.x)) height .left
  | .right => specRenderedHandle x y (jsSub p.x x) height .right

/-- The exact results of the operations that render the handle of the rectangle
as an accepted edge drag to `p` has updated it. -/
def offsetArithmetic (x y width height : ℚ) (edge : Edge) (p : Pos) : List ℚ :=
  match edge with
  | .top => [jsAdd x (jsDiv width 2) - 4, p.y - 4]
  | .bottom => [jsAdd x (jsDiv width 2) - 4, p.y - y, p.y, p.y - 4]
  | .left => [p.x - 4, jsAdd y (jsDiv height 2) - 4]
  | .right => [p.x - x, p.x, p.x - 4, jsAdd y (jsDiv height 2) - 4]

/-! ## Sample scenes, documents and draws -/

/-- The rectangle of `rectangleScene`. -/
def sampleRectangle : Obj :=
  [("id", .str "element_1700000000000_4fzyo82mv"), ("type", .str "rectangle"),
    ("x", .num 50), ("y", .num 50), ("width", .num 100), ("height", .num 50),
    ("cornerRadius", .num 0), ("borderWidth", .num 1), ("startTime", .num 0),
    ("endTime", .num 10)]

/-- A scene with one selected rectangle, as placed by a click at `(50, 50)`. -/
def rectangleScene : State :=
  handleStageClick 1700000000000 "0.4fzyo82mvyr" (some { x := 50, y := 50 })
    { State.init with tool := some "rectangle" }

/-- A rectangle whose `y` is `0.1` and whose height is `64.8`, as typed into
the attribute panel. -/
def fractionalRectangle : Obj :=
  [("id", .str "element_1700000000000_4fzyo82mv"), ("type", .str "rectangle"),
    ("x", .num 50), ("y", .num (toDouble (1 / 10))), ("width", .num 100),
    ("height", .num (toDouble (648 / 10))), ("cornerRadius", .num 0), ("borderWidth", .num 1),
    ("startTime", .num 0), ("endTime", .num 10)]

/-- A rectangle whose `x` is `1.1`. -/
def offsetRectangle : Obj :=
  [("id", .str "element_1700000000000_4fzyo82mv"), ("type", .str "rectangle"),
    ("x", .num (toDouble (11 / 10))), ("y", .num 50), ("width", .num 100),
    ("height", .num 50), ("cornerRadius", .num 0), ("borderWidth", .num 1),
    ("startTime", .num 0), ("endTime", .num 10)]

/-- A line from `(0.1, 10)` to `(50.1, 60)`. -/
def fractionalLine : Obj :=
  [("id", .str "element_1700000000000_4fzyo82mv"), ("type", .str "line"),
    ("x1", .num (toDouble (1 / 10))), ("y1", .num 10), ("x2", .num (toDouble (501 / 10))),
    ("y2", .num 60), ("width", .num 2), ("startTime", .num 0), ("endTime", .num 10)]

/-- A line as placed by a click at `(10, 10)`. -/
def sampleLine : Obj :=
  [("id", .str "element_1700000000000_4fzyo82mv"), ("type", .str "line"),
    ("x1", .num 10), ("y1", .num 10), ("x2", .num 60), ("y2", .num 60), ("width", .num 2),
    ("startTime", .num 0), ("endTime", .num 10)]

/-- A scene with one selected line. -/
def lineScene : State :=
  { State.init with elements := [sampleLine], selectedElement := some sampleLine }

/-- A scene with one text element, and the text tool chosen again. -/
def textSceneWithTool : State :=
  { handleStageClick 1700000000000 "0.4fzyo82mvyr" (some { x := 10, y := 10 })
      { State.init with tool := some "text" } with tool := some "text" }

/-- A scene with the one selected line `fractionalLine`. -/
def fractionalLineScene : State :=
  { State.init with elements := [fractionalLine], selectedElement := some fractionalLine }

/-- The text element of `textSceneWithTool`, placed by a click at `(10, 10)`. -/
def firstText : Obj :=
  [("id", .str "element_1700000000000_4fzyo82mv"), ("type", .str "text"),
    ("text", .str "Sample Text"), ("x", .num 10), ("y", .num 10), ("alignment", .str "left"),
    ("startTime", .num 0), ("endTime", .num 10)]

/-- A text element placed by a click at `(200, 100)` that drew the clock reading
and the random digits of `firstText`. -/
def collidingText : Obj :=
  [("id", .str "element_1700000000000_4fzyo82mv"), ("type", .str "text"),
    ("text", .str "Sample Text"), ("x", .num 200), ("y", .num 100), ("alignment", .str "left"),
    ("startTime", .num 0), ("endTime", .num 10)]

/-- A picked file of JSON type whose text parses to `v`. -/
def jsonFile (v : JSValue) : UploadedFile :=
  { type := "application/json", parsed := some v }

/-- The import document of the specification scenario: one image record
without payload or size. -/
def imageRecordDocument : JSValue :=
  .arr [.obj [("type", .str "image"), ("x", .num 0), ("y", .num 0)]]

/-- The import document of the specification scenario whose top-level value is
an object. -/
def objectDocument : JSValue :=
  .obj [("type", .str "text")]

/-- An import document with two text records, the second carrying an id. -/
def twoTextRecords : List JSValue :=
  [.obj [("type", .str "text"), ("text", .str "a"), ("x", .num 1), ("y", .num 2)],
    .obj [("id", .str "mine"), ("type", .str "text"), ("text", .str "b"), ("x", .num 3),
      ("y", .num 4)]]

/-- Draws on successive clock readings. -/
def tickingDraws : ℕ → ℕ × String :=
  fun i => (1700000000000 + i, "0.4fzyo82mvyr")

/-- What importing `twoTextRecords` on `tickingDraws` makes of them. -/
def tickingProcessed : List Obj :=
  [[("type", .str "text"), ("text", .str "a"), ("x", .num 1), ("y", .num 2),
      ("id", .str "element_1700000000000_4fzyo82mv")],
    [("id", .str "element_1700000000001_4fzyo82mv"), ("type", .str "text"),
      ("text", .str "b"), ("x", .num 3), ("y", .num 4)]]

/-- Draws on one clock reading whose random renderings differ only after the
ninth digit. -/
def collidingDraws : ℕ → ℕ × String :=
  fun i => (1700000000000, if i = 0 then "0.4fzyo82mvyr" else "0.4fzyo82mv3k")

/-- What importing `twoTextRecords` on `collidingDraws` makes of them. -/
def collidingProcessed : List Obj :=
  [[("type", .str "text"), ("text", .str "a"), ("x", .num 1), ("y", .num 2),
      ("id", .str "element_1700000000000_4fzyo82mv")],
    [("id", .str "element_1700000000000_4fzyo82mv"), ("type", .str "text"),
      ("text", .str "b"), ("x", .num 3), ("y", .num 4)]]

/-- An upload whose image has no natural size (`naturalWidth` and
`naturalHeight` are 0, as for an SVG without intrinsic dimensions). -/
def zeroSizeUpload : ImageUpload :=
  { src := "data:image/svg+xml;base64,PHN2Zy8+", width := 0, height := 0,
    filename := "mark.svg", filepath := "mark.svg" }

/-- The scene after uploading `zeroSizeUpload` and placing it at `(10, 10)`. -/
def zeroSizeScene : State :=
  handleStageClick 1700000000000 "0.4fzyo82mvyr" (some { x := 10, y := 10 })
    (handleImageUpload zeroSizeUpload State.init)

/-- A drag session on `sampleLine` whose target reports `(5, 7)`. -/
def lineDragSession : DragSession :=
  { element := sampleLine, target := { position := { x := 5, y := 7 } } }

/-- A drag session on `fractionalLine` whose target reports `(0.2, 0)`. -/
def fractionalLineDragSession : DragSession :=
  { element := fractionalLine, target := { position := { x := toDouble (2 / 10), y := 0 } } }

/-- A drag session on `sampleRectangle` whose target reports `(80, 90)`. -/
def rectangleDragSession : DragSession :=
  { element := sampleRectangle, target := { position := { x := 80, y := 90 } } }

/-- A state with the image tool chosen and no upload staged. -/
def imageToolNoUpload : State :=
  { State.init with tool := some "image" }

/-- The freshly mounted component with the rectangle tool chosen. -/
def rectangleToolState : State :=
  { State.init with tool := some "rectangle" }

/-- The events that lead to `rectangleScene`: choose the rectangle tool, click
the stage at `(50, 50)`. -/
def placeRectangle : List Event :=
  [.setTool (some "rectangle"),
    .stageClick 1700000000000 "0.4fzyo82mvyr" (some { x := 50, y := 50 })]

/-- Place a rectangle, move the pointer onto it, delete it. -/
def hoverThenDelete : List Event :=
  placeRectangle ++
    [.mouseEnter 0, .delete (some (.str "element_1700000000000_4fzyo82mv"))]

/-- The scene `rectangleScene` with the pointer on its rectangle. -/
def hoveredRectangleScene : State :=
  handleElementMouseEnter sampleRectangle rectangleScene

/-- A text element as placed by a click at `(200, 100)` one millisecond later. -/
def sampleText : Obj :=
  [("id", .str "element_1700000000001_4fzyo82mv"), ("type", .str "text"),
    ("text", .str "Sample Text"), ("x", .num 200), ("y", .num 100), ("alignment", .str "left"),
    ("startTime", .num 0), ("endTime", .num 10)]

/-- An uploaded image of 64 by 48 pixels. -/
def photoUpload : ImageUpload :=
  { src := "data:image/png;base64,cGhvdG8=", width := 64, height := 48,
    filename := "photo.png", filepath := "photo.png" }

/-- The image picked to replace it, of 32 by 32 pixels. -/
def iconUpload : ImageUpload :=
  { src := "data:image/png;base64,aWNvbg==", width := 32, height := 32,
    filename := "icon.png", filepath := "icon.png" }

/-- The image element placed from `photoUpload` by a click at `(200, 100)`, one
millisecond after `sampleRectangle`. -/
def sampleImage : Obj :=
  [("id", .str "element_1700000000001_4fzyo82mv"), ("type", .str "image"),
    ("x", .num 200), ("y", .num 100), ("src", .str "data:image/png;base64,cGhvdG8="),
    ("width", .num 64), ("height", .num 48), ("filename", .str "photo.png"),
    ("filepath", .str "photo.png"), ("startTime", .num 0), ("endTime", .num 10)]

/-- The fields the load of `iconUpload` hands to `updateElement`. -/
def iconFields : Obj :=
  [("src", .str "data:image/png;base64,aWNvbg=="), ("width", .num 32), ("height", .num 32),
    ("filename", .str "icon.png"), ("filepath", .str "icon.png")]

/-- `sampleImage` with the fields of `iconUpload`. -/
def replacedImage : Obj :=
  [("id", .str "element_1700000000001_4fzyo82mv"), ("type", .str "image"),
    ("x", .num 200), ("y", .num 100), ("src", .str "data:image/png;base64,aWNvbg=="),
    ("width", .num 32), ("height", .num 32), ("filename", .str "icon.png"),
    ("filepath", .str "icon.png"), ("startTime", .num 0), ("endTime", .num 10)]

/-- `sampleRectangle` with the fields of `iconUpload` merged into it. -/
def rectangleWithIconFields : Obj :=
  [("id", .str "element_1700000000000_4fzyo82mv"), ("type", .str "rectangle"),
    ("x", .num 50), ("y", .num 50), ("width", .num 32), ("height", .num 32),
    ("cornerRadius", .num 0), ("borderWidth", .num 1), ("startTime", .num 0),
    ("endTime", .num 10), ("src", .str "data:image/png;base64,aWNvbg=="),
    ("filename", .str "icon.png"), ("filepath", .str "icon.png")]

/-- Place a rectangle, upload and place an image, pick a file to replace the
image, and click the rectangle before the picked image has loaded. -/
def replacementThenSelectRectangle : List Event :=
  placeRectangle ++
    [.imageUpload photoUpload,
      .stageClick 1700000000001 "0.4fzyo82mvyr" (some { x := 200, y := 100 }),
      .imageReplacement, .click 0]

/-- The state `replacementThenSelectRectangle` leads to: the rectangle is
selected and the replacement of the image is under way. -/
def replacementPendingScene : State :=
  { State.init with
    elements := [sampleRectangle, sampleImage], selectedElement := some sampleRectangle,
    pendingReplacement := some sampleImage }

/-- Upload and place an image, pick a file to replace it, click the empty stage
before the picked image has loaded, and then the image loads. -/
def staleReplacementAfterDeselect : List Event :=
  [.imageUpload photoUpload,
    .stageClick 1700000000001 "0.4fzyo82mvyr" (some { x := 200, y := 100 }),
    .imageReplacement,
    .stageClick 1700000000002 "0.4fzyo82mvyr" (some { x := 300, y := 300 }),
    .imageReplacementLoad iconUpload]

/-- The state `staleReplacementAfterDeselect` leads to. -/
def staleSelectionScene : State :=
  { State.init with elements := [replacedImage], selectedElement := some iconFields }

/-- A scene with `sampleRectangle` and `sampleText`. -/
def twoElementScene : State :=
  { State.init with elements := [sampleRectangle, sampleText] }

/-! ## Rounding -/

theorem roundMagnitude_nonneg (n d : ℕ) : 0 ≤ roundMagnitude n d := by
  unfold roundMagnitude
  simp only
  split_ifs <;> positivity

/-- Rounding is symmetric about zero. -/
theorem toDouble_neg (q : ℚ) : toDouble (-q) = - toDouble q := by
  unfold toDouble
  by_cases h0 : q = 0
  · simp [h0]
  · rcases lt_or_gt_of_ne h0 with h | h
    · have h1 : ¬ (0 < q) := not_lt.mpr h.le
      simp [h0, h, h1]
    · have h1 : ¬ (q < 0) := not_lt.mpr h.le
      simp [h0, h, h1]

theorem toDouble_nonneg {q : ℚ} (h : 0 ≤ q) : 0 ≤ toDouble q := by
  unfold toDouble
  split_ifs with h0 h1
  · exact le_refl _
  · exact roundMagnitude_nonneg _ _
  · exact absurd (lt_of_le_of_ne h (Ne.symm h0)) h1

theorem toDouble_abs (q : ℚ) : toDouble |q| = |toDouble q| := by
  rcases le_total 0 q with h | h
  · rw [abs_of_nonneg h, abs_of_nonneg (toDouble_nonneg h)]
  · have h' : 0 ≤ -q := neg_nonneg.mpr h
    have := toDouble_nonneg h'
    rw [toDouble_neg] at this
    rw [abs_of_nonpos h, abs_of_nonpos (neg_nonneg.mp this), toDouble_neg]

/-- `Math.max(a, b) - Math.min(a, b)` is `Math.abs(b - a)`, also after rounding. -/
theorem jsSub_max_min (a b : ℚ) : jsSub (max a b) (min a b) = |jsSub b a| := by
  unfold jsSub
  rw [max_sub_min_eq_abs, ← toDouble_abs]

theorem toDouble_four : toDouble 4 = 4 := by decide!

theorem Unrounded.of_mem {results : List ℚ} (h : Unrounded results) {q : ℚ}
    (hq : q ∈ results) : toDouble q = q :=
  h q hq

/-! ## Properties of objects -/

theorem getProp_setProp (o : Obj) (k k' : String) (v : JSValue) :
    getProp (setProp o k v) k' = if k = k' then some v else getProp o k' := by
  induction o with
  | nil => simp [setProp, getProp]
  | cons p rest ih =>
    obtain ⟨a, b⟩ := p
    simp only [setProp, getProp]
    split_ifs <;> simp_all [getProp]

theorem getProp_setProp_same (o : Obj) (k : String) (v : JSValue) :
    getProp (setProp o k v) k = some v := by
  simp [getProp_setProp]

theorem getProp_setProp_ne (o : Obj) {k k' : String} (v : JSValue) (h : k ≠ k') :
    getProp (setProp o k v) k' = getProp o k' := by
  simp [getProp_setProp, h]

theorem getProp_delProp (o : Obj) (k k' : String) :
    getProp (delProp o k) k' = if k = k' then none else getProp o k' := by
  induction o with
  | nil => simp [delProp, getProp]
  | cons p rest ih =>
    obtain ⟨a, b⟩ := p
    simp only [delProp, getProp]
    split_ifs <;> simp_all [getProp]

theorem strictEq_str (v : Option JSValue) (s : String) :
    strictEq v (some (.str s)) = true ↔ v = some (.str s) := by
  cases v with
  | none => simp [strictEq]
  | some j => cases j <;> simp [strictEq]

/-! ## Rectangle edge handles: resize and its minimum -/

theorem numProp_eq_some {o : Obj} {k : String} {q : ℚ} :
    numProp o k = some q ↔ getProp o k = some (.num q) := by
  unfold numProp
  split <;> simp_all

/-- What `rectangleEdgeDrag` hands to `updateElement`, edge by edge. -/
theorem rectangleEdgeDrag_updates {element : Obj} {edge : Edge} {newPos : Pos} {d : EdgeDrag}
    {updates : Obj} (hd : rectangleEdgeDrag element edge newPos = some d)
    (hu : d.updates = some updates) : EdgeCommit updates := by
  cases edge <;>
    simp only [rectangleEdgeDrag, Option.bind_eq_bind, Option.bind_eq_some, Option.pure_def,
      Option.some.injEq] at hd
  · obtain ⟨h, -, y, -, x, -, w, -, rfl⟩ := hd
    simp only at hu
    split_ifs at hu with hc
    exact Or.inl ⟨_, _, hc, (Option.some.inj hu).symm⟩
  · obtain ⟨y, -, x, -, w, -, rfl⟩ := hd
    simp only at hu
    split_ifs at hu with hc
    exact Or.inr (Or.inl ⟨_, hc, (Option.some.inj hu).symm⟩)
  · obtain ⟨w, -, x, -, y, -, h, -, rfl⟩ := hd
    simp only at hu
    split_ifs at hu with hc
    exact Or.inr (Or.inr (Or.inl ⟨_, _, hc, (Option.some.inj hu).symm⟩))
  · obtain ⟨x, -, y, -, h, -, rfl⟩ := hd
    simp only at hu
    split_ifs at hu with hc
    exact Or.inr (Or.inr (Or.inr ⟨_, hc, (Option.some.inj hu).symm⟩))

/-- Merging an edge-drag commit keeps a big box big. -/
theorem BigBox_assign_of_updates {e updates : Obj} (hb : BigBox e)
    (hu : EdgeCommit updates) :
    BigBox (assign e updates) := by
  obtain ⟨w0, h0, hw, hw5, hh, hh5⟩ := hb
  rcases hu with ⟨y, h, h5, rfl⟩ | ⟨h, h5, rfl⟩ | ⟨x, w, w5, rfl⟩ | ⟨w, w5, rfl⟩
  · exact ⟨w0, h, by simp [assign, getProp_setProp, hw], hw5,
      by simp [assign, getProp_setProp], h5⟩
  · exact ⟨w0, h, by simp [assign, getProp_setProp, hw], hw5,
      by simp [assign, getProp_setProp], h5⟩
  · exact ⟨w, h0, by simp [assign, getProp_setProp], w5,
      by simp [assign, getProp_setProp, hh], hh5⟩
  · exact ⟨w, h0, by simp [assign, getProp_setProp], w5,
      by simp [assign, getProp_setProp, hh], hh5⟩

/-- Merging an edge-drag commit keeps the box properties numeric. -/
theorem NumericBox_assign_of_updates {e updates : Obj} (hb : NumericBox e)
    (hu : EdgeCommit updates) :
    NumericBox (assign e updates) := by
  obtain ⟨x0, y0, w0, h0, hx, hy, hw, hh⟩ := hb
  rcases hu with ⟨y, h, -, rfl⟩ | ⟨h, -, rfl⟩ | ⟨x, w, -, rfl⟩ | ⟨w, -, rfl⟩
  · exact ⟨x0, y, w0, h, by simp [assign, getProp_setProp, hx],
      by simp [assign, getProp_setProp], by simp [assign, getProp_setProp, hw],
      by simp [assign, getProp_setProp]⟩
  · exact ⟨x0, y0, w0, h, by simp [assign, getProp_setProp, hx],
      by simp [assign, getProp_setProp, hy], by simp [assign, getProp_setProp, hw],
      by simp [assign, getProp_setProp]⟩
  · exact ⟨x, y0, w, h0, by simp [assign, getProp_setProp],
      by simp [assign, getProp_setProp, hy], by simp [assign, getProp_setProp],
      by simp [assign, getProp_setProp, hh]⟩
  · exact ⟨x0, y0, w, h0, by simp [assign, getProp_setProp, hx],
      by simp [assign, getProp_setProp, hy], by simp [assign, getProp_setProp],
      by simp [assign, getProp_setProp, hh]⟩

/-- With numeric box properties the edge-drag computation always answers. -/
theorem rectangleEdgeDrag_isSome {element : Obj} (hb : NumericBox element) (edge : Edge)
    (newPos : Pos) : ∃ d, rectangleEdgeDrag element edge newPos = some d := by
  obtain ⟨x0, y0, w0, h0, hx, hy, hw, hh⟩ := hb
  rw [← numProp_eq_some] at hx hy hw hh
  cases edge <;> simp [rectangleEdgeDrag, hx, hy, hw, hh]

theorem EdgeCommit.dimsAboveMinimum {updates : Obj} (hu : EdgeCommit updates) :
    DimsAboveMinimum updates := by
  intro k v hmem hk
  rcases hu with ⟨y, h, h5, rfl⟩ | ⟨h, h5, rfl⟩ | ⟨x, w, w5, rfl⟩ | ⟨w, w5, rfl⟩ <;>
    simp only [List.mem_cons, Prod.mk.injEq, List.mem_singleton, List.not_mem_nil,
      or_false] at hmem
  · rcases hmem with ⟨rfl, rfl⟩ | ⟨rfl, rfl⟩
    · simp at hk
    · exact ⟨h, rfl, h5⟩
  · obtain ⟨rfl, rfl⟩ := hmem
    exact ⟨h, rfl, h5⟩
  · rcases hmem with ⟨rfl, rfl⟩ | ⟨rfl, rfl⟩
    · simp at hk
    · exact ⟨w, rfl, w5⟩
  · obtain ⟨rfl, rfl⟩ := hmem
    exact ⟨w, rfl, w5⟩

theorem EdgeCommit.getProp_type {updates : Obj} (hu : EdgeCommit updates) (e : Obj) :
    getProp (assign e updates) "type" = getProp e "type" := by
  rcases hu with ⟨y, h, -, rfl⟩ | ⟨h, -, rfl⟩ | ⟨x, w, -, rfl⟩ | ⟨w, -, rfl⟩ <;>
    simp [assign, getProp_setProp]

/-- One edge-handle event answers, keeps the invariant, keeps the length of the
scene and keeps every big box big. -/
theorem edgeHandleDragMove_step (edge : Edge) (target : KonvaNode) (st : State)
    (hnum : SelectedRectNumeric st) :
    ∃ r, edgeHandleDragMove edge target st = some r ∧ SelectedRectNumeric r.1 ∧
      (∀ (i : ℕ) (e : Obj), st.elements[i]? = some e → BigBox e →
        ∃ e', r.1.elements[i]? = some e' ∧ BigBox e') ∧
      (∀ sel, st.selectedElement = some sel → BigBox sel →
        ∃ sel', r.1.selectedElement = some sel' ∧ BigBox sel') := by
  have hsame : ∃ r, some (st, target) = some r ∧ SelectedRectNumeric r.1 ∧
      (∀ (i : ℕ) (e : Obj), st.elements[i]? = some e → BigBox e →
        ∃ e', r.1.elements[i]? = some e' ∧ BigBox e') ∧
      (∀ sel, st.selectedElement = some sel → BigBox sel →
        ∃ sel', r.1.selectedElement = some sel' ∧ BigBox sel') :=
    ⟨(st, target), rfl, hnum, fun i e he hb => ⟨e, he, hb⟩, fun sel hs hb => ⟨sel, hs, hb⟩⟩
  unfold edgeHandleDragMove
  cases hsel : st.selectedElement with
  | none => simpa [hsel] using hsame
  | some sel =>
    simp only
    split_ifs with hty
    · rw [strictEq_str] at hty
      have hnb := hnum sel hsel hty
      obtain ⟨d, hd⟩ := rectangleEdgeDrag_isSome hnb edge target.position
      simp only [handleRectangleEdgeDrag, hd, Option.bind_eq_bind, Option.some_bind,
        Option.pure_def]
      refine ⟨_, rfl, ?_⟩
      cases hu : d.updates with
      | none =>
        simp only
        exact ⟨hnum, fun i e he hb => ⟨e, he, hb⟩, fun s hs hb => ⟨s, hsel.trans hs, hb⟩⟩
      | some updates =>
        have hc : EdgeCommit updates := rectangleEdgeDrag_updates hd hu
        simp only [updateElement, hsel]
        refine ⟨?_, ?_, ?_⟩
        · intro s hs hts
          split_ifs at hs with hid
          · obtain rfl := Option.some.inj hs
            rw [hc.getProp_type] at hts
            exact NumericBox_assign_of_updates (hnum sel hsel hts) hc
          · obtain rfl := Option.some.inj hs
            exact hnum sel hsel hts
        · intro i e he hb
          simp only [List.getElem?_map, he, Option.map_some']
          split_ifs
          · exact ⟨_, rfl, BigBox_assign_of_updates hb hc⟩
          · exact ⟨_, rfl, hb⟩
        · intro s hs hb
          obtain rfl := Option.some.inj hs
          split_ifs
          · exact ⟨_, rfl, BigBox_assign_of_updates hb hc⟩
          · exact ⟨_, rfl, hb⟩
    · simpa [hsel] using hsame

/-- C1. Rectangle resize never commits a width or height of 5 or less: whatever
`handleRectangleEdgeDrag` hands to `updateElement` for `width` or `height` is a
number above 5, and any run of edge-handle drags answers and leaves every
element (and the selection) that had width and height above 5 with width and
height above 5. -/
theorem C1_resize_keeps_minimum (events : List (Edge × Pos)) (st : State)
    (hnum : SelectedRectNumeric st) :
    (∀ element edge newPos d updates, rectangleEdgeDrag element edge newPos = some d →
      d.updates = some updates → DimsAboveMinimum updates) ∧
    ∃ st', edgeHandleDrags events st = some st' ∧
      (∀ (i : ℕ) (e : Obj), st.elements[i]? = some e → BigBox e →
        ∃ e', st'.elements[i]? = some e' ∧ BigBox e') ∧
      (∀ sel, st.selectedElement = some sel → BigBox sel →
        ∃ sel', st'.selectedElement = some sel' ∧ BigBox sel') := by
  refine ⟨fun element edge newPos d updates hd hu =>
    EdgeCommit.dimsAboveMinimum (rectangleEdgeDrag_updates hd hu), ?_⟩
  induction events generalizing st with
  | nil => exact ⟨st, rfl, fun i e he hb => ⟨e, he, hb⟩, fun s hs hb => ⟨s, hs, hb⟩⟩
  | cons ev rest ih =>
    obtain ⟨edge, p⟩ := ev
    obtain ⟨r, hr, hinv, hel, hsl⟩ := edgeHandleDragMove_step edge { position := p } st hnum
    obtain ⟨st', hst', hel', hsl'⟩ := ih r.1 hinv
    refine ⟨st', by simp [edgeHandleDrags, hr, hst'], ?_, ?_⟩
    · intro i e he hb
      obtain ⟨e1, he1, hb1⟩ := hel i e he hb
      exact hel' i e1 he1 hb1
    · intro s hs hb
      obtain ⟨s1, hs1, hb1⟩ := hsl s hs hb
      exact hsl' s1 hs1 hb1

/-- C3. Edge-drag commit rule: with numeric `x`, `y`, `width`, `height`, the
handler answers; the state it leaves is `updateElement` applied to the commit of
the specification exactly when the proposed dimension is above 5 and the old
state otherwise; merging the commit sets the committed fields and changes no
other field, of the scene's rectangle as of the selection's copy. -/
theorem C3_edge_drag_commit_rule (element : Obj) (x y width height : ℚ)
    (hx : getProp element "x" = some (.num x)) (hy : getProp element "y" = some (.num y))
    (hw : getProp element "width" = some (.num width))
    (hh : getProp element "height" = some (.num height))
    (edge : Edge) (target : KonvaNode) (st : State) :
    (∃ node, handleRectangleEdgeDrag element edge target st =
      some (if 5 < specProposedDimension x y width height edge target.position then
          updateElement st.selectedElement (getProp element "id")
            (specEdgeCommit x y width height edge target.position) st
        else st, node)) ∧
    (∀ (o : Obj) k v, (k, v) ∈ specEdgeCommit x y width height edge target.position →
      getProp (assign o (specEdgeCommit x y width height edge target.position)) k
        = some v) ∧
    (∀ (o : Obj) k, (∀ v, (k, v) ∉ specEdgeCommit x y width height edge target.position) →
      getProp (assign o (specEdgeCommit x y width height edge target.position)) k
        = getProp o k) := by
  rw [← numProp_eq_some] at hx hy hw hh
  refine ⟨?_, ?_, ?_⟩
  · cases edge <;>
      simp only [handleRectangleEdgeDrag, rectangleEdgeDrag, hx, hy, hw, hh,
        specProposedDimension, specEdgeCommit, Option.bind_eq_bind, Option.some_bind,
        Option.pure_def, gt_iff_lt] <;>
      split_ifs <;> exact ⟨_, rfl⟩
  · intro o k v hmem
    cases edge <;>
      simp only [specEdgeCommit, List.mem_cons, Prod.mk.injEq, List.mem_singleton,
        List.not_mem_nil, or_false] at hmem ⊢
    · rcases hmem with ⟨rfl, rfl⟩ | ⟨rfl, rfl⟩ <;> simp [assign, getProp_setProp]
    · obtain ⟨rfl, rfl⟩ := hmem
      simp [assign, getProp_setProp]
    · rcases hmem with ⟨rfl, rfl⟩ | ⟨rfl, rfl⟩ <;> simp [assign, getProp_setProp]
    · obtain ⟨rfl, rfl⟩ := hmem
      simp [assign, getProp_setProp]
  · intro o k hk
    cases edge <;>
      simp only [specEdgeCommit, List.mem_cons, Prod.mk.injEq, List.mem_singleton,
        List.not_mem_nil, or_false, not_or, not_and] at hk ⊢
    · have h1 : ¬ "y" = k := fun h => (hk (.num target.position.y)).1 h.symm rfl
      have h2 : ¬ "height" = k := fun h =>
        (hk (.num (jsAdd height (jsSub y target.position.y)))).2 h.symm rfl
      simp [assign, getProp_setProp, h1, h2]
    · have h2 : ¬ "height" = k := fun h => hk (.num (jsSub target.position.y y)) h.symm rfl
      simp [assign, getProp_setProp, h2]
    · have h1 : ¬ "x" = k := fun h => (hk (.num target.position.x)).1 h.symm rfl
      have h2 : ¬ "width" = k := fun h =>
        (hk (.num (jsAdd width (jsSub x target.position.x)))).2 h.symm rfl
      simp [assign, getProp_setProp, h1, h2]
    · have h2 : ¬ "width" = k := fun h => hk (.num (jsSub target.position.x x)) h.symm rfl
      simp [assign, getProp_setProp, h2]

/-- A rejected edge drag, evaluated: nothing is handed to `updateElement`, the
state is returned as it was, and the handle is pinned. -/
theorem rectangleEdgeDrag_rejected {element : Obj} {x y width height : ℚ}
    (hx : getProp element "x" = some (.num x)) (hy : getProp element "y" = some (.num y))
    (hw : getProp element "width" = some (.num width))
    (hh : getProp element "height" = some (.num height))
    (edge : Edge) (target : KonvaNode) (st : State)
    (hrej : specProposedDimension x y width height edge target.position ≤ 5) :
    rectangleEdgeDrag element edge target.position =
      some { updates := none, handle := specPinnedHandle x y width height edge } ∧
    handleRectangleEdgeDrag element edge target st =
      some (st, { position := specPinnedHandle x y width height edge }) := by
  rw [← numProp_eq_some] at hx hy hw hh
  cases edge <;>
    simp only [specProposedDimension] at hrej <;>
    simp [handleRectangleEdgeDrag, rectangleEdgeDrag, hx, hy, hw, hh, specPinnedHandle,
      not_lt.mpr hrej]

/-- Without rounding the pinned position is the coordinate at which the
dimension would be exactly 5, at the exact midpoint of the edge. -/
theorem specPinnedHandle_exact (x y width height : ℚ) (edge : Edge)
    (hex : Unrounded (pinnedArithmetic x y width height edge)) :
    specPinnedHandle x y width height edge = exactRejectedHandle x y width height edge := by
  cases edge <;>
    simp only [Unrounded, pinnedArithmetic, List.mem_cons, List.mem_singleton,
      List.not_mem_nil, or_false, forall_eq_or_imp, forall_eq] at hex
  · obtain ⟨h1, h2, h3, h4⟩ := hex
    simp only [specPinnedHandle, exactRejectedHandle, jsAdd, jsSub, jsDiv, h1, h2, h3, h4,
      Pos.mk.injEq, true_and]
    ring
  · obtain ⟨h1, h2, h3⟩ := hex
    simp only [specPinnedHandle, exactRejectedHandle, jsAdd, jsSub, jsDiv, h1, h2, h3]
  · obtain ⟨h1, h2, h3, h4⟩ := hex
    simp only [specPinnedHandle, exactRejectedHandle, jsAdd, jsSub, jsDiv, h1, h2, h3, h4,
      Pos.mk.injEq, and_true]
    ring
  · obtain ⟨h1, h2, h3⟩ := hex
    simp only [specPinnedHandle, exactRejectedHandle, jsAdd, jsSub, jsDiv, h1, h2, h3]

/-- C4 (as amended). Rejected resize: when the proposed dimension is 5 or less
the handler hands nothing to `updateElement` and returns the state it was given;
it pins the handle, in JavaScript arithmetic, at `y - (5 - height)` (top),
`y + 5` (bottom), `x - (5 - width)` (left), `x + 5` (right) on the dragged axis
and at the midpoint of the edge on the other; when none of these operations
rounds, that is the coordinate at which the dimension would be exactly 5
(`y + height - 5`, `x + width - 5`) at the exact midpoint. -/
theorem C4_rejected_resize (element : Obj) (x y width height : ℚ)
    (hx : getProp element "x" = some (.num x)) (hy : getProp element "y" = some (.num y))
    (hw : getProp element "width" = some (.num width))
    (hh : getProp element "height" = some (.num height))
    (edge : Edge) (target : KonvaNode) (st : State)
    (hrej : specProposedDimension x y width height edge target.position ≤ 5) :
    rectangleEdgeDrag element edge target.position =
      some { updates := none, handle := specPinnedHandle x y width height edge } ∧
    handleRectangleEdgeDrag element edge target st =
      some (st, { position := specPinnedHandle x y width height edge }) ∧
    (Unrounded (pinnedArithmetic x y width height edge) →
      specPinnedHandle x y width height edge = exactRejectedHandle x y width height edge) :=
  ⟨(rectangleEdgeDrag_rejected hx hy hw hh edge target st hrej).1,
    (rectangleEdgeDrag_rejected hx hy hw hh edge target st hrej).2,
    specPinnedHandle_exact x y width height edge⟩

theorem generateId_sample :
    generateId 1700000000000 "0.4fzyo82mvyr" = "element_1700000000000_4fzyo82mv" := by
  decide

theorem rectangleScene_eq :
    rectangleScene =
      { State.init with
        elements := [sampleRectangle], selectedElement := some sampleRectangle } := by
  simp [rectangleScene, handleStageClick, newElementFor, State.init, sampleRectangle,
    generateId_sample]

theorem rectangleScene_numeric : SelectedRectNumeric rectangleScene := by
  intro sel hsel _
  rw [rectangleScene_eq] at hsel
  obtain rfl := Option.some.inj hsel
  exact ⟨50, 50, 100, 50, by simp [sampleRectangle, getProp], by simp [sampleRectangle, getProp],
    by simp [sampleRectangle, getProp], by simp [sampleRectangle, getProp]⟩

theorem C1_resize_keeps_minimum_witness :
    SelectedRectNumeric rectangleScene ∧
    ∃ st', edgeHandleDrags
        [(Edge.right, { x := 52, y := 75 }), (Edge.right, { x := 500, y := 75 }),
          (Edge.top, { x := 100, y := 200 })] rectangleScene = some st' ∧
      (∀ (i : ℕ) (e : Obj), rectangleScene.elements[i]? = some e → BigBox e →
        ∃ e', st'.elements[i]? = some e' ∧ BigBox e') ∧
      (∀ sel, rectangleScene.selectedElement = some sel → BigBox sel →
        ∃ sel', st'.selectedElement = some sel' ∧ BigBox sel') :=
  ⟨rectangleScene_numeric, (C1_resize_keeps_minimum _ rectangleScene rectangleScene_numeric).2⟩

theorem sampleRectangle_x : getProp sampleRectangle "x" = some (.num 50) := by
  simp [sampleRectangle, getProp]

theorem sampleRectangle_y : getProp sampleRectangle "y" = some (.num 50) := by
  simp [sampleRectangle, getProp]

theorem sampleRectangle_width : getProp sampleRectangle "width" = some (.num 100) := by
  simp [sampleRectangle, getProp]

theorem sampleRectangle_height : getProp sampleRectangle "height" = some (.num 50) := by
  simp [sampleRectangle, getProp]

theorem C3_edge_drag_commit_rule_witness :
    (∃ node, handleRectangleEdgeDrag sampleRectangle Edge.right
        { position := { x := 500, y := 75 } } rectangleScene =
      some (updateElement rectangleScene.selectedElement (getProp sampleRectangle "id")
          [("width", .num 450)] rectangleScene,
        node)) ∧
    (∃ node, handleRectangleEdgeDrag sampleRectangle Edge.right
        { position := { x := 52, y := 75 } } rectangleScene = some (rectangleScene, node)) := by
  have h1 := (C3_edge_drag_commit_rule sampleRectangle 50 50 100 50 sampleRectangle_x
    sampleRectangle_y sampleRectangle_width sampleRectangle_height Edge.right
    { position := { x := 500, y := 75 } } rectangleScene).1
  have h2 := (C3_edge_drag_commit_rule sampleRectangle 50 50 100 50 sampleRectangle_x
    sampleRectangle_y sampleRectangle_width sampleRectangle_height Edge.right
    { position := { x := 52, y := 75 } } rectangleScene).1
  have e1 : jsSub 500 50 = 450 := by decide!
  have e2 : jsSub 52 50 = 2 := by decide!
  simp only [specProposedDimension, specEdgeCommit, e1, e2] at h1 h2
  norm_num at h1 h2
  exact ⟨h1, h2⟩

theorem C4_rejected_resize_witness :
    rectangleEdgeDrag sampleRectangle Edge.right { x := 52, y := 75 } =
      some { updates := none, handle := { x := 55, y := 75 } } ∧
    handleRectangleEdgeDrag sampleRectangle Edge.right { position := { x := 52, y := 75 } }
      rectangleScene = some (rectangleScene, { position := { x := 55, y := 75 } }) ∧
    Unrounded (pinnedArithmetic 50 50 100 50 Edge.right) ∧
    specPinnedHandle 50 50 100 50 Edge.right = exactRejectedHandle 50 50 100 50 Edge.right := by
  have e1 : jsSub 52 50 = 2 := by decide!
  have e2 : jsAdd 50 5 = 55 := by decide!
  have e3 : jsAdd 50 (jsDiv 50 2) = 75 := by decide!
  have hex : Unrounded (pinnedArithmetic 50 50 100 50 Edge.right) := by
    intro q hq
    simp only [pinnedArithmetic, List.mem_cons, List.mem_singleton, List.not_mem_nil,
      or_false] at hq
    rcases hq with rfl | rfl | rfl <;> decide!
  have h := C4_rejected_resize sampleRectangle 50 50 100 50 sampleRectangle_x
    sampleRectangle_y sampleRectangle_width sampleRectangle_height Edge.right
    { position := { x := 52, y := 75 } } rectangleScene
    (by simp only [specProposedDimension, e1]; norm_num)
  simp only [specPinnedHandle, e2, e3] at h
  exact ⟨h.1, h.2.1, hex, by simp only [specPinnedHandle, e2, e3]; exact h.2.2 hex⟩

/-- The doubles of the decimal literals used below. -/
theorem toDouble_literals :
    toDouble (1 / 10) = 3602879701896397 / 36028797018963968 ∧
    toDouble (2 / 10) = 3602879701896397 / 18014398509481984 ∧
    toDouble (3 / 10) = 5404319552844595 / 18014398509481984 ∧
    toDouble (11 / 10) = 2476979795053773 / 2251799813685248 ∧
    toDouble (501 / 10) = 7050948166601933 / 140737488355328 ∧
    toDouble (648 / 10) = 4559894622712627 / 70368744177664 ∧
    toDouble (7242857142857143 / 1000000000000000) = 8154732182417291 / 1125899906842624 := by
  decide!

/-- The rejected top-edge drag of `fractionalRectangle`, evaluated: the handle is
pinned at the double `59.9`; `y + height - 5` evaluates to `59.89999999999999`. -/
theorem fractionalRectangle_pinned :
    specPinnedHandle 50 (toDouble (1 / 10)) 100 (toDouble (648 / 10)) Edge.top =
      { x := 100, y := 8430175552484147 / 140737488355328 } ∧
    specRejectedHandle 50 (toDouble (1 / 10)) 100 (toDouble (648 / 10)) Edge.top =
      { x := 100, y := 4215087776242073 / 70368744177664 } := by
  simp only [specPinnedHandle, specRejectedHandle, Pos.mk.injEq]
  decide!

/-- C4 as stated fails: for the rectangle at `y = 0.1` with height `64.8`, a
top-edge drag to `y = 70` is rejected and the handle is pinned at
`0.1 - (5 - 64.8)`, the double `59.9`, which is neither `0.1 + 64.8 - 5` as
JavaScript computes it (`59.89999999999999`) nor that sum in exact arithmetic. -/
theorem C4_rejected_resize_counterexample :
    (¬ ∀ (element : Obj) (x y width height : ℚ), getProp element "x" = some (.num x) →
      getProp element "y" = some (.num y) → getProp element "width" = some (.num width) →
      getProp element "height" = some (.num height) → ∀ (edge : Edge) (target : KonvaNode),
      specProposedDimension x y width height edge target.position ≤ 5 →
      rectangleEdgeDrag element edge target.position =
        some { updates := none, handle := specRejectedHandle x y width height edge }) ∧
    (¬ ∀ (element : Obj) (x y width height : ℚ), getProp element "x" = some (.num x) →
      getProp element "y" = some (.num y) → getProp element "width" = some (.num width) →
      getProp element "height" = some (.num height) → ∀ (edge : Edge) (target : KonvaNode),
      specProposedDimension x y width height edge target.position ≤ 5 →
      rectangleEdgeDrag element edge target.position =
        some { updates := none, handle := exactRejectedHandle x y width height edge }) := by
  have hx : getProp fractionalRectangle "x" = some (.num 50) := by
    simp [fractionalRectangle, getProp]
  have hy : getProp fractionalRectangle "y" = some (.num (toDouble (1 / 10))) := by
    simp [fractionalRectangle, getProp]
  have hw : getProp fractionalRectangle "width" = some (.num 100) := by
    simp [fractionalRectangle, getProp]
  have hh : getProp fractionalRectangle "height" = some (.num (toDouble (648 / 10))) := by
    simp [fractionalRectangle, getProp]
  have hrej : specProposedDimension 50 (toDouble (1 / 10)) 100 (toDouble (648 / 10)) Edge.top
      ({ position := { x := 100, y := 70 } } : KonvaNode).position ≤ 5 := by
    simp only [specProposedDimension]
    decide!
  have hcode := (rectangleEdgeDrag_rejected hx hy hw hh Edge.top
    { position := { x := 100, y := 70 } } State.init hrej).1
  refine ⟨?_, ?_⟩
  · intro h
    have h1 := h fractionalRectangle _ _ _ _ hx hy hw hh Edge.top
      { position := { x := 100, y := 70 } } hrej
    rw [hcode] at h1
    simp only [specPinnedHandle, specRejectedHandle, Option.some.injEq, EdgeDrag.mk.injEq,
      Pos.mk.injEq, true_and] at h1
    revert h1
    decide!
  · intro h
    have h1 := h fractionalRectangle _ _ _ _ hx hy hw hh Edge.top
      { position := { x := 100, y := 70 } } hrej
    rw [hcode] at h1
    simp only [specPinnedHandle, exactRejectedHandle, Option.some.injEq, EdgeDrag.mk.injEq,
      Pos.mk.injEq, true_and] at h1
    revert h1
    decide!

/-! ## Whole-body drag of a line -/

theorem setProp_setProp_same (o : Obj) (k : String) (v w : JSValue) :
    setProp (setProp o k v) k w = setProp o k w := by
  induction o with
  | nil => simp [setProp]
  | cons p rest ih =>
    obtain ⟨a, b⟩ := p
    by_cases h : a = k <;> simp [setProp, h, ih]

theorem setProp_comm (o : Obj) {k k' : String} (v w : JSValue) (hne : k ≠ k')
    (hk : getProp o k ≠ none) :
    setProp (setProp o k' w) k v = setProp (setProp o k v) k' w := by
  induction o with
  | nil => simp [getProp] at hk
  | cons p rest ih =>
    obtain ⟨a, b⟩ := p
    by_cases h : a = k
    · subst h
      simp [setProp, hne]
    · by_cases h' : a = k'
      · subst h'
        simp [setProp, h]
      · have hk' : getProp rest k ≠ none := by simpa [getProp, h] using hk
        simp [setProp, h, h', ih hk']

/-- Merging a second line-drag commit over a first one leaves what merging the
second alone would. -/
theorem assign_lineCommit_twice (o : Obj) (a b c d a' b' c' d' : JSValue) :
    assign (assign o [("x1", a), ("y1", b), ("x2", c), ("y2", d)])
        [("x1", a'), ("y1", b'), ("x2", c'), ("y2", d')] =
      assign o [("x1", a'), ("y1", b'), ("x2", c'), ("y2", d')] := by
  simp only [assign, List.foldl]
  rw [setProp_comm _ a' d (by decide) (by simp [getProp_setProp]),
    setProp_comm _ a' c (by decide) (by simp [getProp_setProp]),
    setProp_comm _ a' b (by decide) (by simp [getProp_setProp]),
    setProp_setProp_same,
    setProp_comm _ b' d (by decide) (by simp [getProp_setProp]),
    setProp_comm _ b' c (by decide) (by simp [getProp_setProp]),
    setProp_setProp_same,
    setProp_comm _ c' d (by decide) (by simp [getProp_setProp]),
    setProp_setProp_same, setProp_setProp_same]

/-- A whole-body drag end of a line with numeric endpoints, evaluated. -/
theorem handleElementDragEnd_line {element : Obj} {x1 y1 x2 y2 : ℚ}
    (hty : getProp element "type" = some (.str "line"))
    (h1 : getProp element "x1" = some (.num x1)) (h2 : getProp element "y1" = some (.num y1))
    (h3 : getProp element "x2" = some (.num x2)) (h4 : getProp element "y2" = some (.num y2))
    (target : KonvaNode) (st : State) :
    handleElementDragEnd element target st =
      some ({ updateElement st.selectedElement (getProp element "id")
                (specLineDragCommit x1 y1 x2 y2 target.position) st with
              draggedElement := none, cursor := "default" },
        { position := { x := 0, y := 0 } }) := by
  rw [← numProp_eq_some] at h1 h2 h3 h4
  simp [handleElementDragEnd, dragEndUpdates, hty, strictEq, h1, h2, h3, h4,
    specLineDragCommit]

theorem getProp_assign_lineCommit (o : Obj) (x1 y1 x2 y2 : ℚ) (offset : Pos) (k : String) :
    getProp (assign o (specLineDragCommit x1 y1 x2 y2 offset)) k =
      if k = "y2" then some (.num (jsAdd y2 offset.y))
      else if k = "x2" then some (.num (jsAdd x2 offset.x))
      else if k = "y1" then some (.num (jsAdd y1 offset.y))
      else if k = "x1" then some (.num (jsAdd x1 offset.x))
      else getProp o k := by
  simp only [assign, specLineDragCommit, List.foldl, getProp_setProp, eq_comm]

/-- When the sums of a first drag by `a` are not rounded, a second drag by `b`
commits what a single drag by `a + b` commits. -/
theorem specLineDragCommit_twice (x1 y1 x2 y2 : ℚ) (a b : Pos)
    (hex : Unrounded [x1 + a.x, y1 + a.y, x2 + a.x, y2 + a.y]) :
    specLineDragCommit (jsAdd x1 a.x) (jsAdd y1 a.y) (jsAdd x2 a.x) (jsAdd y2 a.y) b =
      specLineDragCommit x1 y1 x2 y2 { x := a.x + b.x, y := a.y + b.y } := by
  simp only [Unrounded, List.mem_cons, List.mem_singleton, List.not_mem_nil, or_false,
    forall_eq_or_imp, forall_eq] at hex
  obtain ⟨e1, e2, e3, e4⟩ := hex
  simp only [specLineDragCommit, jsAdd, e1, e2, e3, e4, add_assoc]

/-- Two successive drag ends of a line whose first sums are not rounded leave
the state a single drag end by the sum of the two positions leaves. -/
theorem handleElementDragEnd_line_twice {element : Obj} {x1 y1 x2 y2 : ℚ}
    (hty : getProp element "type" = some (.str "line"))
    (h1 : getProp element "x1" = some (.num x1)) (h2 : getProp element "y1" = some (.num y1))
    (h3 : getProp element "x2" = some (.num x2)) (h4 : getProp element "y2" = some (.num y2))
    (target target2 : KonvaNode) (st : State)
    (hex : Unrounded [x1 + target.position.x, y1 + target.position.y,
      x2 + target.position.x, y2 + target.position.y]) :
    (handleElementDragEnd element target st).bind
        (fun r => handleElementDragEnd
          (assign element (specLineDragCommit x1 y1 x2 y2 target.position)) target2 r.1) =
      handleElementDragEnd element
        { position := { x := target.position.x + target2.position.x,
                        y := target.position.y + target2.position.y } } st := by
  have hid : ∀ (o : Obj) (p : Pos),
      getProp (assign o (specLineDragCommit x1 y1 x2 y2 p)) "id" = getProp o "id" := by
    intro o p
    simp [getProp_assign_lineCommit]
  have hsecond := @handleElementDragEnd_line
    (assign element (specLineDragCommit x1 y1 x2 y2 target.position))
    (jsAdd x1 target.position.x) (jsAdd y1 target.position.y)
    (jsAdd x2 target.position.x) (jsAdd y2 target.position.y)
    (by simpa [getProp_assign_lineCommit] using hty)
    (by simp [getProp_assign_lineCommit]) (by simp [getProp_assign_lineCommit])
    (by simp [getProp_assign_lineCommit]) (by simp [getProp_assign_lineCommit])
  rw [handleElementDragEnd_line hty h1 h2 h3 h4 target st,
    handleElementDragEnd_line hty h1 h2 h3 h4 _ st]
  simp only [Option.some_bind, hsecond, hid]
  have hmerge : ∀ o : Obj,
      assign (assign o (specLineDragCommit x1 y1 x2 y2 target.position))
          (specLineDragCommit (jsAdd x1 target.position.x) (jsAdd y1 target.position.y)
            (jsAdd x2 target.position.x) (jsAdd y2 target.position.y) target2.position) =
        assign o (specLineDragCommit x1 y1 x2 y2
          { x := target.position.x + target2.position.x,
            y := target.position.y + target2.position.y }) := by
    intro o
    rw [specLineDragCommit_twice x1 y1 x2 y2 target.position target2.position hex]
    simp only [specLineDragCommit, assign_lineCommit_twice]
  simp only [updateElement, List.map_map]
  congr 2
  · congr 1
    · apply List.map_congr_left
      intro el _
      simp only [Function.comp]
      by_cases hm : strictEq (getProp el "id") (getProp element "id") = true
      · simp [hm, hid, hmerge]
      · simp [hm]
    · cases st.selectedElement with
      | none => rfl
      | some sel =>
        by_cases hm : strictEq (getProp sel "id") (getProp element "id") = true
        · simp [hm, hid, hmerge]
        · simp [hm]

/-- C5 (as amended). Whole-body drag of a line: the drag end commits every
endpoint coordinate plus the reported position, each sum in JavaScript
arithmetic, and no other field (of any object the commit is merged into), and
resets the drag target to the origin; when the four sums are not rounded the
differences `x2 - x1` and `y2 - y1` are preserved, and a drag by `d1` followed
by a drag by `d2` leaves the state a single drag by `d1 + d2` leaves. -/
theorem C5_line_drag_offset_additive (element : Obj) (x1 y1 x2 y2 : ℚ)
    (hty : getProp element "type" = some (.str "line"))
    (h1 : getProp element "x1" = some (.num x1)) (h2 : getProp element "y1" = some (.num y1))
    (h3 : getProp element "x2" = some (.num x2)) (h4 : getProp element "y2" = some (.num y2))
    (target target2 : KonvaNode) (st : State) :
    handleElementDragEnd element target st =
      some ({ updateElement st.selectedElement (getProp element "id")
                (specLineDragCommit x1 y1 x2 y2 target.position) st with
              draggedElement := none, cursor := "default" },
        { position := { x := 0, y := 0 } }) ∧
    (∀ o : Obj,
      getProp (assign o (specLineDragCommit x1 y1 x2 y2 target.position)) "x1"
        = some (.num (jsAdd x1 target.position.x)) ∧
      getProp (assign o (specLineDragCommit x1 y1 x2 y2 target.position)) "y1"
        = some (.num (jsAdd y1 target.position.y)) ∧
      getProp (assign o (specLineDragCommit x1 y1 x2 y2 target.position)) "x2"
        = some (.num (jsAdd x2 target.position.x)) ∧
      getProp (assign o (specLineDragCommit x1 y1 x2 y2 target.position)) "y2"
        = some (.num (jsAdd y2 target.position.y)) ∧
      ∀ k, k ≠ "x1" → k ≠ "y1" → k ≠ "x2" → k ≠ "y2" →
        getProp (assign o (specLineDragCommit x1 y1 x2 y2 target.position)) k
          = getProp o k) ∧
    (Unrounded [x1 + target.position.x, y1 + target.position.y,
        x2 + target.position.x, y2 + target.position.y] →
      jsAdd x2 target.position.x - jsAdd x1 target.position.x = x2 - x1 ∧
      jsAdd y2 target.position.y - jsAdd y1 target.position.y = y2 - y1 ∧
      (handleElementDragEnd element target st).bind
          (fun r => handleElementDragEnd
            (assign element (specLineDragCommit x1 y1 x2 y2 target.position)) target2 r.1) =
        handleElementDragEnd element
          { position := { x := target.position.x + target2.position.x,
                          y := target.position.y + target2.position.y } } st) := by
  refine ⟨handleElementDragEnd_line hty h1 h2 h3 h4 target st, ?_, ?_⟩
  · intro o
    refine ⟨?_, ?_, ?_, ?_, ?_⟩
    · simp [getProp_assign_lineCommit]
    · simp [getProp_assign_lineCommit]
    · simp [getProp_assign_lineCommit]
    · simp [getProp_assign_lineCommit]
    · intro k k1 k2 k3 k4
      simp [getProp_assign_lineCommit, k1, k2, k3, k4]
  · intro hex
    refine ⟨?_, ?_, handleElementDragEnd_line_twice hty h1 h2 h3 h4 target target2 st hex⟩
    · rw [jsAdd, jsAdd, hex.of_mem (by simp), hex.of_mem (by simp)]
      ring
    · rw [jsAdd, jsAdd, hex.of_mem (by simp), hex.of_mem (by simp)]
      ring

theorem C5_line_drag_offset_additive_witness :
    Unrounded [(10 : ℚ) + 5, 10 + 7, 60 + 5, 60 + 7] ∧
    handleElementDragEnd sampleLine { position := { x := 5, y := 7 } } lineScene =
      some ({ updateElement lineScene.selectedElement (getProp sampleLine "id")
                (specLineDragCommit 10 10 60 60 { x := 5, y := 7 }) lineScene with
              draggedElement := none, cursor := "default" },
        { position := { x := 0, y := 0 } }) ∧
    (handleElementDragEnd sampleLine { position := { x := 5, y := 7 } } lineScene).bind
        (fun r => handleElementDragEnd
          (assign sampleLine (specLineDragCommit 10 10 60 60 { x := 5, y := 7 }))
          { position := { x := 1, y := 2 } } r.1) =
      handleElementDragEnd sampleLine { position := { x := 5 + 1, y := 7 + 2 } } lineScene :=
  have hex : Unrounded [(10 : ℚ) + 5, 10 + 7, 60 + 5, 60 + 7] := by
    intro q hq
    simp only [List.mem_cons, List.mem_singleton, List.not_mem_nil, or_false] at hq
    rcases hq with rfl | rfl | rfl | rfl <;> decide!
  have h := C5_line_drag_offset_additive sampleLine 10 10 60 60
    (by simp [sampleLine, getProp]) (by simp [sampleLine, getProp])
    (by simp [sampleLine, getProp]) (by simp [sampleLine, getProp])
    (by simp [sampleLine, getProp]) { position := { x := 5, y := 7 } }
    { position := { x := 1, y := 2 } } lineScene
  ⟨hex, h.1, (h.2.2 hex).2.2⟩

/-- The drag of `fractionalLine` by `(0.2, 0)`, evaluated: it commits
`x1 = 0.30000000000000004` and `x2 = 50.300000000000004`. -/
theorem fractionalLine_dragEnd :
    dragEndUpdates fractionalLine { x := toDouble (2 / 10), y := 0 } =
      some (specLineDragCommit (toDouble (1 / 10)) 10 (toDouble (501 / 10)) 60
        { x := toDouble (2 / 10), y := 0 }) ∧
    specLineDragCommit (toDouble (1 / 10)) 10 (toDouble (501 / 10)) 60
        { x := toDouble (2 / 10), y := 0 } =
      [("x1", .num (1351079888211149 / 4503599627370496)), ("y1", .num 10),
        ("x2", .num (7079095664272999 / 140737488355328)), ("y2", .num 60)] := by
  refine ⟨?_, ?_⟩
  · simp [dragEndUpdates, numProp, fractionalLine, getProp, strictEq, specLineDragCommit]
  · have e1 : jsAdd (toDouble (1 / 10)) (toDouble (2 / 10)) =
        1351079888211149 / 4503599627370496 := by decide!
    have e2 : jsAdd (toDouble (501 / 10)) (toDouble (2 / 10)) =
        7079095664272999 / 140737488355328 := by decide!
    have e3 : jsAdd 10 0 = 10 := by decide!
    have e4 : jsAdd 60 0 = 60 := by decide!
    simp only [specLineDragCommit, e1, e2, e3, e4]

/-- C5 as stated fails: dragging the line from `(0.1, 10)` to `(50.1, 60)` by
`(0.2, 0)` commits `x1 = 0.30000000000000004` and `x2 = 50.300000000000004`,
whose difference is not `50.1 - 0.1`; and dragging it by `(0.2, 0)` and then by
`(0.3, 0)` commits `x1 = 0.6000000000000001`, a single drag by `(0.5, 0)`
commits `x1 = 0.6`. -/
theorem C5_line_drag_offset_additive_counterexample :
    (¬ ∀ (element : Obj) (x1 y1 x2 y2 : ℚ), getProp element "type" = some (.str "line") →
      getProp element "x1" = some (.num x1) → getProp element "y1" = some (.num y1) →
      getProp element "x2" = some (.num x2) → getProp element "y2" = some (.num y2) →
      ∀ (p : Pos) (updates : Obj) (a b : ℚ), dragEndUpdates element p = some updates →
        getProp updates "x1" = some (.num a) → getProp updates "x2" = some (.num b) →
        b - a = x2 - x1) ∧
    (¬ ∀ (element : Obj) (x1 y1 x2 y2 : ℚ), getProp element "type" = some (.str "line") →
      getProp element "x1" = some (.num x1) → getProp element "y1" = some (.num y1) →
      getProp element "x2" = some (.num x2) → getProp element "y2" = some (.num y2) →
      ∀ (target target2 : KonvaNode) (st : State),
        (handleElementDragEnd element target st).bind
            (fun r => handleElementDragEnd
              (assign element (specLineDragCommit x1 y1 x2 y2 target.position)) target2 r.1) =
          handleElementDragEnd element
            { position := { x := target.position.x + target2.position.x,
                            y := target.position.y + target2.position.y } } st) := by
  have hty : getProp fractionalLine "type" = some (.str "line") := by
    simp [fractionalLine, getProp]
  have h1 : getProp fractionalLine "x1" = some (.num (toDouble (1 / 10))) := by
    simp [fractionalLine, getProp]
  have h2 : getProp fractionalLine "y1" = some (.num 10) := by
    simp [fractionalLine, getProp]
  have h3 : getProp fractionalLine "x2" = some (.num (toDouble (501 / 10))) := by
    simp [fractionalLine, getProp]
  have h4 : getProp fractionalLine "y2" = some (.num 60) := by
    simp [fractionalLine, getProp]
  refine ⟨?_, ?_⟩
  · intro h
    have hu : dragEndUpdates fractionalLine { x := toDouble (2 / 10), y := 0 } =
        some (specLineDragCommit (toDouble (1 / 10)) 10 (toDouble (501 / 10)) 60
          { x := toDouble (2 / 10), y := 0 }) := by
      rw [← numProp_eq_some] at h1 h2 h3 h4
      simp [dragEndUpdates, hty, strictEq, h1, h2, h3, h4, specLineDragCommit]
    have hd := h fractionalLine _ _ _ _ hty h1 h2 h3 h4 _ _
      (jsAdd (toDouble (1 / 10)) (toDouble (2 / 10)))
      (jsAdd (toDouble (501 / 10)) (toDouble (2 / 10))) hu
      (by simp [specLineDragCommit, getProp]) (by simp [specLineDragCommit, getProp])
    revert hd
    decide!
  · intro h
    have hd := h fractionalLine _ _ _ _ hty h1 h2 h3 h4
      { position := { x := toDouble (2 / 10), y := 0 } }
      { position := { x := toDouble (3 / 10), y := 0 } } fractionalLineScene
    rw [handleElementDragEnd_line hty h1 h2 h3 h4,
      handleElementDragEnd_line hty h1 h2 h3 h4] at hd
    have hsecond := @handleElementDragEnd_line
      (assign fractionalLine (specLineDragCommit (toDouble (1 / 10)) 10 (toDouble (501 / 10)) 60
        { x := toDouble (2 / 10), y := 0 }))
      (jsAdd (toDouble (1 / 10)) (toDouble (2 / 10))) (jsAdd 10 0)
      (jsAdd (toDouble (501 / 10)) (toDouble (2 / 10))) (jsAdd 60 0)
      (by simpa [getProp_assign_lineCommit] using hty)
      (by simp [getProp_assign_lineCommit]) (by simp [getProp_assign_lineCommit])
      (by simp [getProp_assign_lineCommit]) (by simp [getProp_assign_lineCommit])
    simp only [Option.some_bind, hsecond] at hd
    have hx := congrArg
      (fun r => r.bind fun v => (v.1.elements.head?).bind fun e => numProp e "x1") hd
    simp only [Option.some_bind, updateElement, fractionalLineScene, State.init,
      List.map_cons, List.map_nil, List.head?_cons, getProp_assign_lineCommit] at hx
    simp [numProp, getProp_assign_lineCommit, fractionalLine, getProp, strictEq] at hx
    revert hx
    decide!

/-! ## Place then delete -/

theorem newElementFor_id {tool id : String} {p : Pos} {up : Option ImageUpload}
    {newElement : Obj} (h : newElementFor tool id p up = some newElement) :
    getProp newElement "id" = some (.str id) := by
  unfold newElementFor at h
  split_ifs at h
  · obtain rfl := Option.some.inj h
    simp [getProp]
  · obtain rfl := Option.some.inj h
    simp [getProp]
  · obtain rfl := Option.some.inj h
    simp [getProp]
  · cases up with
    | none => simp at h
    | some u =>
      obtain rfl := Option.some.inj h
      simp [getProp]

theorem handleStageClick_of_new {now : ℕ} {rnd tool : String} {p : Pos} {st : State}
    {newElement : Obj} (htool : st.tool = some tool) (hne : tool ≠ "")
    (h : newElementFor tool (generateId now rnd) p st.imageUpload = some newElement) :
    handleStageClick now rnd (some p) st =
      { st with
        elements := st.elements ++ [newElement]
        selectedElement := some newElement
        tool := none
        imageUpload := if tool = "image" then none else st.imageUpload } := by
  simp [handleStageClick, htool, hne, h]

theorem Placeable.newElement {st : State} (hplace : Placeable st) (id : String) (p : Pos) :
    ∃ tool newElement, st.tool = some tool ∧ tool ≠ "" ∧
      newElementFor tool id p st.imageUpload = some newElement := by
  rcases hplace with h | h | h | ⟨h, hup⟩
  · exact ⟨"text", _, h, by decide, by simp [newElementFor]; rfl⟩
  · exact ⟨"rectangle", _, h, by decide, by simp [newElementFor]; rfl⟩
  · exact ⟨"line", _, h, by decide, by simp [newElementFor]; rfl⟩
  · obtain ⟨up, hup'⟩ := Option.ne_none_iff_exists'.mp hup
    exact ⟨"image", _, h, by decide, by simp [newElementFor, hup']; rfl⟩

/-- A successful place appends one element carrying the generated id and selects it. -/
theorem handleStageClick_place (now : ℕ) (rnd : String) (p : Pos) (st : State)
    (hplace : Placeable st) :
    ∃ newElement,
      getProp newElement "id" = some (.str (generateId now rnd)) ∧
      (handleStageClick now rnd (some p) st).elements = st.elements ++ [newElement] ∧
      (handleStageClick now rnd (some p) st).selectedElement = some newElement ∧
      (handleStageClick now rnd (some p) st).tool = none := by
  obtain ⟨tool, newElement, htool, hne, hnew⟩ := hplace.newElement (generateId now rnd) p
  refine ⟨newElement, newElementFor_id hnew, ?_, ?_, ?_⟩ <;>
    rw [handleStageClick_of_new htool hne hnew]

/-- Place then delete with a fresh id: when no element of the scene already
carries the id generated for the new element, deleting the id of the element
just placed gives back the element sequence from before the place, and the
selection is empty. -/
theorem place_then_delete_of_fresh (now : ℕ) (rnd : String) (p : Pos) (st : State)
    (hplace : Placeable st)
    (hfresh : ∀ e ∈ st.elements, getProp e "id" ≠ some (.str (generateId now rnd))) :
    ∃ newElement,
      (handleStageClick now rnd (some p) st).elements = st.elements ++ [newElement] ∧
      (handleStageClick now rnd (some p) st).selectedElement = some newElement ∧
      (deleteElement (getProp newElement "id")
        (handleStageClick now rnd (some p) st)).elements = st.elements ∧
      (deleteElement (getProp newElement "id")
        (handleStageClick now rnd (some p) st)).selectedElement = none := by
  obtain ⟨newElement, hid, hel, hsel, -⟩ := handleStageClick_place now rnd p st hplace
  refine ⟨newElement, hel, hsel, ?_, rfl⟩
  simp only [deleteElement, hel, hid, List.filter_append, List.filter_cons, List.filter_nil]
  have hnew : strictEq (getProp newElement "id") (some (.str (generateId now rnd))) = true :=
    (strictEq_str _ _).mpr hid
  have hold : st.elements.filter
      (fun el => !strictEq (getProp el "id") (some (.str (generateId now rnd)))) =
      st.elements := by
    rw [List.filter_eq_self]
    intro e he
    have := hfresh e he
    rw [Ne, ← strictEq_str] at this
    simpa using this
  rw [hid] at hnew
  simp [hnew, hold]

/-- C6 at a second place that draws the clock reading and the random digits of
the first: the scene holds one text element and the text tool is chosen again;
the place appends a second element with the id of the first and selects it;
deleting the id of the element just placed removes both, so the element
sequence is empty and not the sequence before the place. -/
theorem C6_place_then_delete :
    Placeable textSceneWithTool ∧
    textSceneWithTool.elements = [firstText] ∧
    (handleStageClick 1700000000000 "0.4fzyo82mvyr" (some { x := 200, y := 100 })
      textSceneWithTool).elements = [firstText, collidingText] ∧
    (handleStageClick 1700000000000 "0.4fzyo82mvyr" (some { x := 200, y := 100 })
      textSceneWithTool).selectedElement = some collidingText ∧
    getProp collidingText "id" = getProp firstText "id" ∧
    (deleteElement (getProp collidingText "id")
      (handleStageClick 1700000000000 "0.4fzyo82mvyr" (some { x := 200, y := 100 })
        textSceneWithTool)).elements = [] := by
  refine ⟨Or.inl rfl, rfl, rfl, rfl, rfl, rfl⟩

/-! ## Identifiers are determined by the draw -/

theorem digitChar_ne_underscore : ∀ m, m < 10 → Nat.digitChar m ≠ '_' := by decide

theorem digitChar_value : ∀ m, m < 10 → (Nat.digitChar m).toNat - 48 = m := by decide

theorem foldl_toDigitsCore (fuel : ℕ) : ∀ (n : ℕ) (ds : List Char), n < fuel →
    (Nat.toDigitsCore 10 fuel n ds).foldl (fun a c => 10 * a + (c.toNat - 48)) 0 =
      ds.foldl (fun a c => 10 * a + (c.toNat - 48)) n := by
  induction fuel with
  | zero => intro n ds h; omega
  | succ fuel ih =>
    intro n ds h
    simp only [Nat.toDigitsCore]
    split_ifs with h0
    · have hn : n < 10 := by omega
      have hv := digitChar_value n hn
      simp only [List.foldl, Nat.mul_zero, Nat.zero_add, Nat.mod_eq_of_lt hn, hv]
    · have hlt : n / 10 < fuel := by omega
      rw [ih (n / 10) _ hlt]
      simp only [List.foldl, digitChar_value _ (Nat.mod_lt n (by norm_num))]
      congr 1
      omega

theorem decimalValue_toDigits (n : ℕ) : decimalValue (Nat.toDigits 10 n) = n := by
  simp [decimalValue, Nat.toDigits, foldl_toDigitsCore (n + 1) n [] (by omega)]

theorem toString_nat_injective {n m : ℕ} (h : toString n = toString m) : n = m := by
  have h' : Nat.toDigits 10 n = Nat.toDigits 10 m := by
    have := congrArg String.data h
    simpa [toString, Nat.repr, List.asString] using this
  rw [← decimalValue_toDigits n, ← decimalValue_toDigits m, h']

theorem underscore_not_mem_toDigitsCore (fuel : ℕ) : ∀ (n : ℕ) (ds : List Char),
    '_' ∉ ds → '_' ∉ Nat.toDigitsCore 10 fuel n ds := by
  induction fuel with
  | zero => intro n ds h; simpa [Nat.toDigitsCore] using h
  | succ fuel ih =>
    intro n ds h
    have hd : '_' ≠ Nat.digitChar (n % 10) :=
      (digitChar_ne_underscore _ (Nat.mod_lt n (by norm_num))).symm
    simp only [Nat.toDigitsCore]
    split_ifs
    · simp [hd, h]
    · exact ih _ _ (by simp [hd, h])

theorem append_cons_cancel {α : Type} {c : α} : ∀ {a b s t : List α}, c ∉ a → c ∉ b →
    a ++ c :: s = b ++ c :: t → a = b ∧ s = t := by
  intro a
  induction a with
  | nil =>
    intro b s t _ hb h
    cases b with
    | nil => simpa using h
    | cons x b =>
      simp only [List.nil_append, List.cons_append, List.cons.injEq] at h
      exact absurd (h.1 ▸ List.mem_cons_self _ _) hb
  | cons y a ih =>
    intro b s t ha hb h
    cases b with
    | nil =>
      simp only [List.nil_append, List.cons_append, List.cons.injEq] at h
      exact absurd (h.1 ▸ List.mem_cons_self _ _) ha
    | cons x b =>
      simp only [List.cons_append, List.cons.injEq] at h
      obtain ⟨hab, hst⟩ := ih (fun hm => ha (List.mem_cons_of_mem _ hm))
        (fun hm => hb (List.mem_cons_of_mem _ hm)) h.2
      exact ⟨by rw [h.1, hab], hst⟩

/-- Two generated ids agree exactly when the clock readings and the random
suffixes agree. -/
theorem generateId_inj {n m : ℕ} {r t : String} :
    generateId n r = generateId m t ↔ n = m ∧ randomSuffix r = randomSuffix t := by
  constructor
  · intro h
    have h' := congrArg String.data h
    simp only [generateId, String.data_append] at h'
    have hp : ("element_" : String).data = ['e','l','e','m','e','n','t','_'] := rfl
    have hu : ("_" : String).data = ['_'] := rfl
    simp only [List.append_assoc, List.cons_append, List.nil_append, List.cons.injEq, true_and,
      List.singleton_append] at h'
    have hn : ∀ k : ℕ, (toString k).data = Nat.toDigits 10 k := fun k => rfl
    rw [hn, hn] at h'
    obtain ⟨h1, h2⟩ := append_cons_cancel
      (underscore_not_mem_toDigitsCore _ _ _ (by simp))
      (underscore_not_mem_toDigitsCore _ _ _ (by simp)) h'
    refine ⟨?_, String.ext h2⟩
    have h1' : Nat.toDigits 10 n = Nat.toDigits 10 m := h1
    rw [← decimalValue_toDigits n, ← decimalValue_toDigits m, h1']
  · rintro ⟨rfl, h⟩
    simp [generateId, h]

/-! ## Import -/

theorem readProp_of_ne_null {r : JSValue} (h : r ≠ .null) (k : String) :
    ∃ ty, readProp r k = some ty := by
  cases r <;> simp [readProp] at h ⊢

/-- Every property of an element after the placeholder block. -/
theorem getProp_withPlaceholder (q : String) (o : Obj) (k : String) :
    getProp (withPlaceholder q o) k =
      if k = "height" then
        (if truthy (getProp o "height") then getProp o "height" else some (.num 100))
      else if k = "width" then
        (if truthy (getProp o "width") then getProp o "width" else some (.num 100))
      else if k = "filepath" then some (.str "question-sign.png")
      else if k = "filename" then some (.str "question-sign.png")
      else if k = "src" then some (.str q)
      else getProp o k := by
  by_cases hw : truthy (getProp o "width") = true <;>
    by_cases hh : truthy (getProp o "height") = true <;>
    simp only [withPlaceholder, getProp_setProp, hw, hh, Bool.not_true, Bool.not_false,
      if_true, if_false, Bool.false_eq_true, String.reduceEq, eq_comm (a := k),
      Bool.not_eq_true] <;>
    split_ifs <;> subst_vars <;> simp_all

/-- An imported image record: the copy with the new id, after the placeholder
block. -/
theorem processElement_image {q id : String} {r : JSValue} {ty : Option JSValue}
    (hty : readProp r "type" = some ty) (himg : strictEq ty (some (.str "image")) = true) :
    processElement q id r =
      some (withPlaceholder q (setProp (spreadValue r) "id" (.str id))) := by
  simp [processElement, hty, himg]

/-- An imported record of any other type: the copy with the new id. -/
theorem processElement_other {q id : String} {r : JSValue} {ty : Option JSValue}
    (hty : readProp r "type" = some ty) (himg : strictEq ty (some (.str "image")) = false) :
    processElement q id r = some (setProp (spreadValue r) "id" (.str id)) := by
  simp [processElement, hty, himg]

theorem processElement_of_ne_null (q id : String) {r : JSValue} (h : r ≠ .null) :
    ∃ e, processElement q id r = some e ∧ getProp e "id" = some (.str id) := by
  obtain ⟨ty, hty⟩ := readProp_of_ne_null h "type"
  by_cases himg : strictEq ty (some (.str "image")) = true
  · exact ⟨_, processElement_image hty himg,
      by simp [getProp_withPlaceholder, getProp_setProp]⟩
  · rw [Bool.not_eq_true] at himg
    exact ⟨_, processElement_other hty himg, by simp [getProp_setProp]⟩

theorem processElement_null (q id : String) : processElement q id .null = none := by
  simp [processElement, readProp]

/-- Records without a `null` entry are all processed, one element per record,
in order, record `j` from draw `i + j`. -/
theorem processElements_of_ne_null (q : String) (entropy : ℕ → ℕ × String) :
    ∀ (records : List JSValue) (i : ℕ), (∀ r ∈ records, r ≠ .null) →
      ∃ processed, processElements q entropy i records = some processed ∧
        processed.length = records.length ∧
        ∀ (j : ℕ) (r : JSValue), records[j]? = some r →
          ∃ e, processed[j]? = some e ∧
            processElement q (generateId (entropy (i + j)).1 (entropy (i + j)).2) r = some e := by
  intro records
  induction records with
  | nil => intro i _; exact ⟨[], rfl, rfl, by simp⟩
  | cons r rest ih =>
    intro i h
    obtain ⟨e, he, -⟩ := processElement_of_ne_null q
      (generateId (entropy i).1 (entropy i).2) (h r (List.mem_cons_self _ _))
    obtain ⟨es, hes, hlen, hord⟩ := ih (i + 1) (fun x hx => h x (List.mem_cons_of_mem _ hx))
    refine ⟨e :: es, by simp [processElements, he, hes], by simp [hlen], ?_⟩
    intro j x hx
    cases j with
    | zero =>
      simp only [List.getElem?_cons_zero, Option.some.injEq] at hx
      subst hx
      exact ⟨e, by simp, by simpa using he⟩
    | succ j =>
      simp only [List.getElem?_cons_succ] at hx
      obtain ⟨e', he', hp⟩ := hord j x hx
      refine ⟨e', by simpa using he', ?_⟩
      have hij : i + 1 + j = i + (j + 1) := by omega
      rw [hij] at hp
      exact hp

/-- What a processed list looks like, whatever the records: one element per
record, record `j` from draw `i + j`. -/
theorem processElements_spec (q : String) (entropy : ℕ → ℕ × String) :
    ∀ (records : List JSValue) (i : ℕ) (processed : List Obj),
      processElements q entropy i records = some processed →
        processed.length = records.length ∧
        ∀ (j : ℕ) (e : Obj), processed[j]? = some e →
          ∃ r, records[j]? = some r ∧
            processElement q (generateId (entropy (i + j)).1 (entropy (i + j)).2) r = some e := by
  intro records
  induction records with
  | nil =>
    intro i processed h
    simp only [processElements, Option.some.injEq] at h
    subst h
    simp
  | cons r rest ih =>
    intro i processed h
    simp only [processElements, Option.bind_eq_bind, Option.bind_eq_some, Option.pure_def,
      Option.some.injEq] at h
    obtain ⟨e, he, es, hes, rfl⟩ := h
    obtain ⟨hlen, hord⟩ := ih (i + 1) es hes
    refine ⟨by simp [hlen], ?_⟩
    intro j x hx
    cases j with
    | zero =>
      simp only [List.getElem?_cons_zero, Option.some.injEq] at hx
      subst hx
      exact ⟨r, by simp, by simpa using he⟩
    | succ j =>
      simp only [List.getElem?_cons_succ] at hx
      obtain ⟨r', hr', hp⟩ := hord j x hx
      refine ⟨r', by simpa using hr', ?_⟩
      have hij : i + 1 + j = i + (j + 1) := by omega
      rw [hij] at hp
      exact hp

/-- C7. A document that does not parse, or whose top-level value is not an
array, is rejected: the state is returned unchanged (elements, selection and
hover included) and the alert is one of the error messages. -/
theorem C7_import_rejects_bad_document (q : String) (entropy : ℕ → ℕ × String)
    (f : UploadedFile) (st : State)
    (hbad : f.parsed = none ∨ ∃ v, f.parsed = some v ∧ ∀ items, v ≠ .arr items) :
    handleJSONFileUpload q entropy (some f) st =
      (st,
        if f.type = "application/json" then
          (if f.parsed.isNone then "Error parsing JSON file. Please check the file format."
            else "Invalid JSON format. Expected an array of elements.")
        else "Please select a valid JSON file") := by
  rcases hbad with h | ⟨v, h, hv⟩
  · simp only [handleJSONFileUpload, h]
    split_ifs <;> simp_all
  · simp only [handleJSONFileUpload, h]
    cases v with
    | arr items => exact absurd rfl (hv items)
    | _ => split_ifs <;> simp_all

theorem C7_import_rejects_bad_document_witness :
    handleJSONFileUpload "/assets/question-sign.png" tickingDraws
        (some (jsonFile objectDocument)) rectangleScene =
      (rectangleScene, "Invalid JSON format. Expected an array of elements.") := by
  have h := C7_import_rejects_bad_document "/assets/question-sign.png" tickingDraws
    (jsonFile objectDocument) rectangleScene
    (Or.inr ⟨objectDocument, rfl, fun items h => by simp [objectDocument] at h⟩)
  simpa [jsonFile] using h

/-- An import whose records are all processed, evaluated. -/
theorem handleJSONFileUpload_of_processed {q : String} {entropy : ℕ → ℕ × String}
    {f : UploadedFile} {records : List JSValue} {processed : List Obj} (st : State)
    (hty : f.type = "application/json") (hparsed : f.parsed = some (.arr records))
    (hp : processElements q entropy 0 records = some processed) :
    handleJSONFileUpload q entropy (some f) st =
      ({ st with elements := st.elements ++ processed },
        "Successfully imported " ++ toString processed.length ++ " elements") := by
  simp [handleJSONFileUpload, hty, hparsed, hp]

/-- C8. Import is additive: an array of `n` records without a `null` entry, in
a file of JSON type, leaves the old elements in place and in order, followed by
one new element per record in the order of the records; the alert reports `n`;
nothing else of the state changes. -/
theorem C8_import_additive (q : String) (entropy : ℕ → ℕ × String) (f : UploadedFile)
    (st : State) (records : List JSValue) (hty : f.type = "application/json")
    (hparsed : f.parsed = some (.arr records)) (hrec : ∀ r ∈ records, r ≠ .null) :
    ∃ processed,
      handleJSONFileUpload q entropy (some f) st =
        ({ st with elements := st.elements ++ processed },
          "Successfully imported " ++ toString records.length ++ " elements") ∧
      processed.length = records.length ∧
      (∀ (j : ℕ) (r : JSValue), records[j]? = some r →
        ∃ e, processed[j]? = some e ∧
          processElement q (generateId (entropy j).1 (entropy j).2) r = some e) ∧
      (handleJSONFileUpload q entropy (some f) st).1.selectedElement = st.selectedElement ∧
      (handleJSONFileUpload q entropy (some f) st).1.hoveredElement = st.hoveredElement := by
  obtain ⟨processed, hp, hlen, hord⟩ := processElements_of_ne_null q entropy records 0 hrec
  have hrun := handleJSONFileUpload_of_processed st hty hparsed hp
  rw [hlen] at hrun
  refine ⟨processed, hrun, hlen, ?_, by rw [hrun], by rw [hrun]⟩
  intro j r hr
  simpa using hord j r hr

theorem C8_import_additive_witness :
    ∃ processed,
      handleJSONFileUpload "/assets/question-sign.png" tickingDraws
          (some (jsonFile (.arr twoTextRecords))) rectangleScene =
        ({ rectangleScene with elements := rectangleScene.elements ++ processed },
          "Successfully imported " ++ toString twoTextRecords.length ++ " elements") ∧
      processed.length = twoTextRecords.length ∧
      (∀ (j : ℕ) (r : JSValue), twoTextRecords[j]? = some r →
        ∃ e, processed[j]? = some e ∧
          processElement "/assets/question-sign.png"
            (generateId (tickingDraws j).1 (tickingDraws j).2) r = some e) ∧
      (handleJSONFileUpload "/assets/question-sign.png" tickingDraws
          (some (jsonFile (.arr twoTextRecords))) rectangleScene).1.selectedElement =
        rectangleScene.selectedElement ∧
      (handleJSONFileUpload "/assets/question-sign.png" tickingDraws
          (some (jsonFile (.arr twoTextRecords))) rectangleScene).1.hoveredElement =
        rectangleScene.hoveredElement :=
  C8_import_additive "/assets/question-sign.png" tickingDraws (jsonFile (.arr twoTextRecords))
    rectangleScene twoTextRecords rfl rfl (by
      intro r hr
      simp only [twoTextRecords, List.mem_cons, List.mem_singleton, List.not_mem_nil,
        or_false] at hr
      rcases hr with rfl | rfl <;> simp)

/-- A `null` entry makes the whole import fail: nothing is added. -/
theorem import_null_entry (q : String) (entropy : ℕ → ℕ × String) (st : State) :
    handleJSONFileUpload q entropy (some (jsonFile (.arr [.null]))) st =
      (st, "Error parsing JSON file. Please check the file format.") := by
  simp [handleJSONFileUpload, jsonFile, processElements, processElement_null]

/-- C9. Import of one record whose `type` can be read: the record is processed;
an image record gets the placeholder `src` and `question-sign.png` as `filename`
and `filepath` whatever it carried, gets width and height 100 when it has
neither, and keeps every other field; a record of any other type is the copy
with the new id, so no `src`, `filename`, `filepath`, `width` or `height` is
added or changed. -/
theorem C9_import_image_record (q id : String) (r : JSValue) (ty : Option JSValue)
    (hty : readProp r "type" = some ty) :
    ∃ e, processElement q id r = some e ∧
      (strictEq ty (some (.str "image")) = true →
        getProp e "src" = some (.str q) ∧
        getProp e "filename" = some (.str "question-sign.png") ∧
        getProp e "filepath" = some (.str "question-sign.png") ∧
        (getProp (spreadValue r) "width" = none → getProp (spreadValue r) "height" = none →
          getProp e "width" = some (.num 100) ∧ getProp e "height" = some (.num 100)) ∧
        (∀ k, k ≠ "id" → k ≠ "src" → k ≠ "filename" → k ≠ "filepath" → k ≠ "width" →
          k ≠ "height" → getProp e k = getProp (spreadValue r) k)) ∧
      (strictEq ty (some (.str "image")) = false →
        e = setProp (spreadValue r) "id" (.str id) ∧
        ∀ k, k ≠ "id" → getProp e k = getProp (spreadValue r) k) := by
  by_cases himg : strictEq ty (some (.str "image")) = true
  · refine ⟨_, processElement_image hty himg, fun _ => ⟨?_, ?_, ?_, ?_, ?_⟩,
      fun h => by simp [himg] at h⟩
    · simp [getProp_withPlaceholder]
    · simp [getProp_withPlaceholder]
    · simp [getProp_withPlaceholder]
    · intro hw hh
      simp [getProp_withPlaceholder, getProp_setProp, hw, hh, truthy]
    · intro k k1 k2 k3 k4 k5 k6
      simp [getProp_withPlaceholder, getProp_setProp, k1, k2, k3, k4, k5, k6, Ne.symm k1]
  · rw [Bool.not_eq_true] at himg
    refine ⟨_, processElement_other hty himg, fun h => by simp [himg] at h,
      fun _ => ⟨rfl, ?_⟩⟩
    intro k k1
    simp [getProp_setProp, Ne.symm k1]

theorem C9_import_image_record_witness :
    ∃ e, processElement "/assets/question-sign.png" "element_1700000000000_4fzyo82mv"
        (.obj [("type", .str "image"), ("x", .num 0), ("y", .num 0)]) = some e ∧
      getProp e "src" = some (.str "/assets/question-sign.png") ∧
      getProp e "filename" = some (.str "question-sign.png") ∧
      getProp e "filepath" = some (.str "question-sign.png") ∧
      getProp e "width" = some (.num 100) ∧ getProp e "height" = some (.num 100) ∧
      getProp e "x" = some (.num 0) ∧ getProp e "y" = some (.num 0) := by
  obtain ⟨e, he, himg, -⟩ := C9_import_image_record "/assets/question-sign.png"
    "element_1700000000000_4fzyo82mv"
    (.obj [("type", .str "image"), ("x", .num 0), ("y", .num 0)]) (some (.str "image")) rfl
  obtain ⟨h1, h2, h3, h4, h5⟩ := himg rfl
  refine ⟨e, he, h1, h2, h3, (h4 rfl rfl).1, (h4 rfl rfl).2, ?_, ?_⟩
  · rw [h5 "x" (by decide) (by decide) (by decide) (by decide) (by decide) (by decide)]
    rfl
  · rw [h5 "y" (by decide) (by decide) (by decide) (by decide) (by decide) (by decide)]
    rfl

/-- The scenario of the specification: importing the single image record
without payload or size into the empty scene gives exactly one element. -/
theorem import_imageRecordDocument (q : String) (entropy : ℕ → ℕ × String) :
    handleJSONFileUpload q entropy (some (jsonFile imageRecordDocument)) State.init =
      ({ State.init with
          elements :=
            [[("type", .str "image"), ("x", .num 0), ("y", .num 0),
              ("id", .str (generateId (entropy 0).1 (entropy 0).2)), ("src", .str q),
              ("filename", .str "question-sign.png"), ("filepath", .str "question-sign.png"),
              ("width", .num 100), ("height", .num 100)]] },
        "Successfully imported 1 elements") := by
  simp [handleJSONFileUpload, jsonFile, imageRecordDocument, processElements, processElement,
    readProp, getProp, strictEq, withPlaceholder, spreadValue, setProp, truthy, State.init]
  decide

/-- The id of a processed record is the one handed to the callback. -/
theorem processElement_id {q id : String} {r : JSValue} {e : Obj}
    (h : processElement q id r = some e) : getProp e "id" = some (.str id) := by
  have hr : r ≠ .null := by
    rintro rfl
    simp [processElement_null] at h
  obtain ⟨e', he', hid⟩ := processElement_of_ne_null q id hr
  rw [h] at he'
  obtain rfl := Option.some.inj he'
  exact hid

/-- Import assigns generated ids: the id of the element made from record `j` is
`generateId` of draw `j`, whatever id the record carried; two of the new ids are
equal exactly when their draws agree in clock reading and random suffix; and a
new id equals a generated id exactly when it comes from the same clock reading
and random suffix. -/
theorem import_ids_generated (q : String) (entropy : ℕ → ℕ × String) (records : List JSValue)
    (processed : List Obj) (h : processElements q entropy 0 records = some processed) :
    (∀ (j : ℕ) (e : Obj), processed[j]? = some e →
      getProp e "id" = some (.str (generateId (entropy j).1 (entropy j).2))) ∧
    (∀ (i j : ℕ) (ei ej : Obj), processed[i]? = some ei → processed[j]? = some ej →
      (getProp ei "id" = getProp ej "id" ↔
        (entropy i).1 = (entropy j).1 ∧
          randomSuffix (entropy i).2 = randomSuffix (entropy j).2)) ∧
    (∀ (j : ℕ) (ej : Obj) (now : ℕ) (rnd : String), processed[j]? = some ej →
      (getProp ej "id" = some (.str (generateId now rnd)) ↔
        (entropy j).1 = now ∧ randomSuffix (entropy j).2 = randomSuffix rnd)) := by
  have hid : ∀ (j : ℕ) (e : Obj), processed[j]? = some e →
      getProp e "id" = some (.str (generateId (entropy j).1 (entropy j).2)) := by
    intro j e he
    obtain ⟨r, -, hp⟩ := (processElements_spec q entropy records 0 processed h).2 j e he
    simpa using processElement_id hp
  refine ⟨hid, ?_, ?_⟩
  · intro i j ei ej hi hj
    rw [hid i ei hi, hid j ej hj]
    simp only [Option.some.injEq, JSValue.str.injEq]
    exact generateId_inj
  · intro j ej now rnd hj
    rw [hid j ej hj]
    simp only [Option.some.injEq, JSValue.str.injEq]
    exact generateId_inj

theorem import_tickingDraws :
    processElements "/assets/question-sign.png" tickingDraws 0 twoTextRecords
      = some tickingProcessed := by
  rfl

/-- C10 at an import of two records on one clock reading whose random draws
agree in their first nine digits: the id the second record carried is
overwritten, both elements get the same generated id, and the scene holds two
elements with one id after the import. -/
theorem C10_import_ids :
    processElements "/assets/question-sign.png" collidingDraws 0 twoTextRecords
      = some collidingProcessed ∧
    (handleJSONFileUpload "/assets/question-sign.png" collidingDraws
      (some (jsonFile (.arr twoTextRecords))) State.init).1.elements = collidingProcessed ∧
    collidingProcessed[0]?.bind (fun e => getProp e "id")
      = some (.str "element_1700000000000_4fzyo82mv") ∧
    collidingProcessed[1]?.bind (fun e => getProp e "id")
      = some (.str "element_1700000000000_4fzyo82mv") ∧
    ¬ UniqueIds collidingProcessed := by
  refine ⟨rfl, rfl, rfl, rfl, ?_⟩
  intro h
  have h1 := h _ (List.mem_cons_self _ _) _ (List.mem_cons_of_mem _ (List.mem_cons_self _ _))
    (by decide)
  have h2 := congrArg (fun o => getProp o "text") h1
  simp [getProp] at h2

/-! ## Export then import -/

/-- C2 at a scene holding an image without natural size: the placed element has
width 0 and height 0, and importing the exported document into the empty scene
gives an element with width 100 and height 100. -/
theorem C2_round_trip_zero_size_image :
    zeroSizeScene.elements =
      [[("id", .str "element_1700000000000_4fzyo82mv"), ("type", .str "image"),
        ("x", .num 10), ("y", .num 10), ("src", .str "data:image/svg+xml;base64,PHN2Zy8+"),
        ("width", .num 0), ("height", .num 0), ("filename", .str "mark.svg"),
        ("filepath", .str "mark.svg"), ("startTime", .num 0), ("endTime", .num 10)]] ∧
    (handleJSONFileUpload "/assets/question-sign.png" tickingDraws
        (some (jsonFile (exportToJSON zeroSizeScene))) State.init).1.elements =
      [[("id", .str "element_1700000000000_4fzyo82mv"), ("type", .str "image"),
        ("x", .num 10), ("y", .num 10), ("width", .num 100), ("height", .num 100),
        ("filename", .str "question-sign.png"), ("filepath", .str "question-sign.png"),
        ("startTime", .num 0), ("endTime", .num 10),
        ("src", .str "/assets/question-sign.png")]] := by
  constructor <;> rfl

/-- Export then import into the empty scene, field by field: one new element per
element of the scene, in order; a non-image element comes back equal in every
field but `id`; an image element comes back equal in every field but `id`,
`src`, `filename`, `filepath`, and but a `width` or `height` that is falsy. -/
theorem export_import_fields (q : String) (entropy : ℕ → ℕ × String) (st : State) :
    ∃ processed,
      handleJSONFileUpload q entropy (some (jsonFile (exportToJSON st))) State.init =
        ({ State.init with elements := processed },
          "Successfully imported " ++ toString st.elements.length ++ " elements") ∧
      processed.length = st.elements.length ∧
      ∀ (j : ℕ) (e : Obj), st.elements[j]? = some e →
        ∃ e', processed[j]? = some e' ∧
          (strictEq (getProp e "type") (some (.str "image")) = false →
            ∀ k, k ≠ "id" → getProp e' k = getProp e k) ∧
          (strictEq (getProp e "type") (some (.str "image")) = true →
            ∀ k, k ≠ "id" → k ≠ "src" → k ≠ "filename" → k ≠ "filepath" →
              (k = "width" ∨ k = "height" → truthy (getProp e k) = true) →
              getProp e' k = getProp e k) := by
  have hnn : ∀ r ∈ (exportData st.elements).map JSValue.obj, r ≠ .null := by
    intro r hr
    obtain ⟨o, -, rfl⟩ := List.mem_map.mp hr
    simp
  obtain ⟨processed, hp, hlen, hord'⟩ := processElements_of_ne_null q entropy _ 0 hnn
  have hord : ∀ (j : ℕ) (r : JSValue),
      (List.map JSValue.obj (exportData st.elements))[j]? = some r →
        ∃ e, processed[j]? = some e ∧
          processElement q (generateId (entropy j).1 (entropy j).2) r = some e := by
    intro j r hr
    simpa using hord' j r hr
  have hrun := handleJSONFileUpload_of_processed (f := jsonFile (exportToJSON st))
    State.init rfl rfl hp
  rw [hlen] at hrun
  simp only [List.length_map, exportData] at hlen hrun
  refine ⟨processed, by simpa [State.init] using hrun, hlen, ?_⟩
  intro j e he
  have hrec : (List.map JSValue.obj (exportData st.elements))[j]? =
      some (.obj (if strictEq (getProp e "type") (some (.str "image")) = true then
        delProp e "src" else e)) := by
    simp only [exportData, List.getElem?_map, he, Option.map_some']
  obtain ⟨e', he', hp⟩ := hord j _ hrec
  refine ⟨e', he', ?_, ?_⟩
  · intro hty k k1
    simp only [hty, Bool.false_eq_true, if_false] at hp
    rw [@processElement_other _ _ (.obj e) (getProp e "type") rfl hty] at hp
    obtain rfl := Option.some.inj hp
    simp [getProp_setProp, Ne.symm k1, spreadValue]
  · intro hty k k1 k2 k3 k4 hdim
    simp only [hty, if_true] at hp
    have hty' : strictEq (getProp (delProp e "src") "type") (some (.str "image")) = true := by
      simpa [getProp_delProp] using hty
    rw [@processElement_image _ _ (.obj (delProp e "src"))
      (getProp (delProp e "src") "type") rfl hty'] at hp
    obtain rfl := Option.some.inj hp
    rw [getProp_withPlaceholder]
    by_cases kh : k = "height"
    · subst kh
      have := hdim (Or.inr rfl)
      simp [getProp_setProp, getProp_delProp, spreadValue, this]
    · by_cases kw : k = "width"
      · subst kw
        have := hdim (Or.inl rfl)
        simp [getProp_setProp, getProp_delProp, spreadValue, this]
      · simp [getProp_setProp, getProp_delProp, spreadValue, kh, kw, k2, k3, k4,
          Ne.symm k1, Ne.symm k2]

/-! ## Export -/

/-- C11. Export strips only the image payload: the exported array has one
record per element, in scene order; the record of an element that is not an
image is the element; the record of an image has no `src` and every other field
of the element; the export step leaves the state as it was. -/
theorem C11_export_strips_payload (st : State) :
    (exportToJSONClick st).1 = st ∧
    (exportToJSONClick st).2 = .arr ((exportData st.elements).map JSValue.obj) ∧
    (exportData st.elements).length = st.elements.length ∧
    ∀ (j : ℕ) (e : Obj), st.elements[j]? = some e →
      ∃ record, (exportData st.elements)[j]? = some record ∧
        (strictEq (getProp e "type") (some (.str "image")) = false → record = e) ∧
        (strictEq (getProp e "type") (some (.str "image")) = true →
          getProp record "src" = none ∧ ∀ k, k ≠ "src" → getProp record k = getProp e k) := by
  refine ⟨rfl, rfl, by simp [exportData], ?_⟩
  intro j e he
  refine ⟨if strictEq (getProp e "type") (some (.str "image")) = true then delProp e "src"
    else e, by simp only [exportData, List.getElem?_map, he, Option.map_some'], ?_, ?_⟩
  · intro h
    simp [h]
  · intro h
    simp only [h, if_true]
    refine ⟨by simp [getProp_delProp], ?_⟩
    intro k hk
    simp [getProp_delProp, Ne.symm hk]

/-! ## Line endpoint handles -/

/-- C12. Line endpoint handles: a move of the end handle is `updateElement`
with `x2`, `y2` set to the reported position, a move of the start handle with
`x1`, `y1`; nothing gates the commit, and merging it changes no other field.
The scenario: the end handle of the line (10,10)-(60,60) dragged to (100,100). -/
theorem C12_line_endpoint_handles (element : Obj) (target : KonvaNode) (st : State) :
    handleLineEndpointDrag element false target st =
      updateElement st.selectedElement (getProp element "id")
        [("x2", .num target.position.x), ("y2", .num target.position.y)] st ∧
    handleLineEndpointDrag element true target st =
      updateElement st.selectedElement (getProp element "id")
        [("x1", .num target.position.x), ("y1", .num target.position.y)] st ∧
    (∀ o : Obj,
      getProp (assign o [("x2", .num target.position.x), ("y2", .num target.position.y)]) "x2"
        = some (.num target.position.x) ∧
      getProp (assign o [("x2", .num target.position.x), ("y2", .num target.position.y)]) "y2"
        = some (.num target.position.y) ∧
      ∀ k, k ≠ "x2" → k ≠ "y2" →
        getProp (assign o [("x2", .num target.position.x), ("y2", .num target.position.y)]) k
          = getProp o k) ∧
    (∀ o : Obj,
      getProp (assign o [("x1", .num target.position.x), ("y1", .num target.position.y)]) "x1"
        = some (.num target.position.x) ∧
      getProp (assign o [("x1", .num target.position.x), ("y1", .num target.position.y)]) "y1"
        = some (.num target.position.y) ∧
      ∀ k, k ≠ "x1" → k ≠ "y1" →
        getProp (assign o [("x1", .num target.position.x), ("y1", .num target.position.y)]) k
          = getProp o k) ∧
    (handleLineEndpointDrag sampleLine false { position := { x := 100, y := 100 } }
        lineScene).elements =
      [[("id", .str "element_1700000000000_4fzyo82mv"), ("type", .str "line"),
        ("x1", .num 10), ("y1", .num 10), ("x2", .num 100), ("y2", .num 100),
        ("width", .num 2), ("startTime", .num 0), ("endTime", .num 10)]] := by
  refine ⟨rfl, rfl, ?_, ?_, rfl⟩
  · intro o
    refine ⟨by simp [assign, getProp_setProp], by simp [assign, getProp_setProp], ?_⟩
    intro k k1 k2
    simp [assign, getProp_setProp, Ne.symm k1, Ne.symm k2]
  · intro o
    refine ⟨by simp [assign, getProp_setProp], by simp [assign, getProp_setProp], ?_⟩
    intro k k1 k2
    simp [assign, getProp_setProp, Ne.symm k1, Ne.symm k2]

/-! ## Update and delete -/

/-- Reading a merged object: the last entry of the updates for the key, else
the property of the object. -/
theorem getProp_assign (updates : Obj) : ∀ (o : Obj) (k : String),
    getProp (assign o updates) k =
      match getProp updates.reverse k with
      | some v => some v
      | none => getProp o k := by
  induction updates with
  | nil => intro o k; simp [assign, getProp]
  | cons kv rest ih =>
    intro o k
    obtain ⟨a, b⟩ := kv
    have hstep : assign o ((a, b) :: rest) = assign (setProp o a b) rest := rfl
    rw [hstep, ih]
    have hrev : ∀ (l : Obj), getProp (l ++ [(a, b)]) k =
        match getProp l k with
        | some v => some v
        | none => if a = k then some b else none := by
      intro l
      induction l with
      | nil => simp [getProp]
      | cons p l ihl =>
        obtain ⟨c, d⟩ := p
        by_cases hc : c = k <;> simp [getProp, hc, ihl]
    rw [List.reverse_cons, hrev]
    cases getProp rest.reverse k with
    | some v => rfl
    | none => by_cases hak : a = k <;> simp [getProp_setProp, hak]

/-- Updates that do not name `id` leave the id. -/
theorem getProp_assign_id {updates : Obj} (h : withoutId updates = true) (o : Obj) :
    getProp (assign o updates) "id" = getProp o "id" := by
  induction updates generalizing o with
  | nil => rfl
  | cons kv rest ih =>
    obtain ⟨a, b⟩ := kv
    simp only [withoutId, List.all_cons, Bool.and_eq_true, bne_iff_ne, ne_eq] at h
    have hstep : assign o ((a, b) :: rest) = assign (setProp o a b) rest := rfl
    rw [hstep, ih (by simpa [withoutId] using h.2), getProp_setProp, if_neg h.1]

/-- `updateElement(id, updates)` from a closure over `captured`: the element
sequence keeps its length and order; an element whose id is not `id` is
unchanged and one whose id is `id` becomes the merge, in which the given fields
override and the other fields are kept; with no element of that id the sequence
is unchanged; the updates are merged into the current selection when, and only
when, the id of the captured selection is `id`; nothing else changes. -/
theorem updateElement_spec (captured : Option Obj) (elementId : Option JSValue)
    (updates : Obj) (st : State) :
    (updateElement captured elementId updates st).elements.length = st.elements.length ∧
    (∀ (j : ℕ) (e : Obj), st.elements[j]? = some e →
      (updateElement captured elementId updates st).elements[j]? =
        some (if strictEq (getProp e "id") elementId then assign e updates else e)) ∧
    (∀ (o : Obj) (k : String), getProp (assign o updates) k =
      match getProp updates.reverse k with
      | some v => some v
      | none => getProp o k) ∧
    ((∀ e ∈ st.elements, strictEq (getProp e "id") elementId = false) →
      (updateElement captured elementId updates st).elements = st.elements) ∧
    (updateElement captured elementId updates st).selectedElement =
      (match captured with
       | some c =>
         if strictEq (getProp c "id") elementId then
           some (assign (st.selectedElement.getD []) updates)
         else st.selectedElement
       | none => st.selectedElement) ∧
    (updateElement captured elementId updates st).hoveredElement = st.hoveredElement ∧
    (updateElement captured elementId updates st).draggedElement = st.draggedElement ∧
    (updateElement captured elementId updates st).tool = st.tool := by
  refine ⟨by simp [updateElement], ?_, getProp_assign updates, ?_, ?_, rfl, rfl, rfl⟩
  · intro j e he
    simp [updateElement, List.getElem?_map, he]
  · intro h
    simp only [updateElement]
    conv_rhs => rw [← List.map_id st.elements]
    apply List.map_congr_left
    intro e he
    simp [h e he]
  · simp only [updateElement]
    cases captured with
    | none => rfl
    | some c =>
      simp only
      split_ifs
      · cases st.selectedElement <;> rfl
      · rfl

/-- Called by a handler of the latest render, `updateElement` merges the updates
into the selection's copy when, and only when, the selected id is `id`. -/
theorem updateElement_selection_current (elementId : Option JSValue) (updates : Obj)
    (st : State) :
    (updateElement st.selectedElement elementId updates st).selectedElement =
      st.selectedElement.map
        (fun sel => if strictEq (getProp sel "id") elementId then assign sel updates else sel) := by
  simp only [updateElement]
  cases st.selectedElement with
  | none => rfl
  | some sel =>
    simp only [Option.map_some']
    split_ifs <;> rfl

/-- C16 (as amended). `deleteElement(id)` removes the elements with that id and
keeps all others in their order, clears the selection in every case, and changes
nothing else; with no element of that id the element sequence is unchanged (and
the selection is still cleared). -/
theorem C16_delete_element (elementId : Option JSValue) (st : State) :
    (deleteElement elementId st).elements.Sublist st.elements ∧
    (∀ e, e ∈ (deleteElement elementId st).elements ↔
      e ∈ st.elements ∧ strictEq (getProp e "id") elementId = false) ∧
    (deleteElement elementId st).selectedElement = none ∧
    (deleteElement elementId st).hoveredElement = st.hoveredElement ∧
    (deleteElement elementId st).draggedElement = st.draggedElement ∧
    (deleteElement elementId st).tool = st.tool ∧
    ((∀ e ∈ st.elements, strictEq (getProp e "id") elementId = false) →
      (deleteElement elementId st).elements = st.elements) := by
  refine ⟨List.filter_sublist _, ?_, rfl, rfl, rfl, rfl, ?_⟩
  · intro e
    simp [deleteElement, List.mem_filter]
  · intro h
    simp only [deleteElement]
    rw [List.filter_eq_self]
    intro e he
    simp [h e he]

/-! ## Bounds -/

/-- The bounds of a line with numeric endpoints, for either value of
`dragPosition`. -/
theorem getElementBounds_line {element : Obj} {x1 y1 x2 y2 : ℚ}
    (hty : getProp element "type" = some (.str "line"))
    (h1 : getProp element "x1" = some (.num x1)) (h2 : getProp element "y1" = some (.num y1))
    (h3 : getProp element "x2" = some (.num x2)) (h4 : getProp element "y2" = some (.num y2))
    (draggedElement : Option DragSession) :
    getElementBounds draggedElement element =
      match dragPosition draggedElement element with
      | some p =>
        some { x := some (.num (jsSub (min (jsAdd x1 p.x) (jsAdd x2 p.x)) 2)),
               y := some (.num (jsSub (min (jsAdd y1 p.y) (jsAdd y2 p.y)) 2)),
               width := some (.num (jsAdd |jsSub (jsAdd x2 p.x) (jsAdd x1 p.x)| 4)),
               height := some (.num (jsAdd |jsSub (jsAdd y2 p.y) (jsAdd y1 p.y)| 4)) }
      | none =>
        some { x := some (.num (jsSub (min x1 x2) 2)), y := some (.num (jsSub (min y1 y2) 2)),
               width := some (.num (jsAdd |jsSub x2 x1| 4)),
               height := some (.num (jsAdd |jsSub y2 y1| 4)) } := by
  rw [← numProp_eq_some] at h1 h2 h3 h4
  simp only [getElementBounds, hty, strictEq, h1, h2, h3, h4, Option.bind_eq_bind,
    Option.some_bind, Option.pure_def, jsSub_max_min]
  cases dragPosition draggedElement element <;> simp

/-- C13 (as amended). Line bounds, in JavaScript arithmetic: for a line with
numeric endpoints that is not the dragged element the box is `min - 2` with
sides `|difference| + 4`; when it is the dragged element the box is that of the
endpoints moved by the live position, which is the box returned with no drag
session for the line as the drag end commits it, and, when the sums and the
corner coordinates are not rounded, the box at rest moved by the live position
with the same sides; swapping the two endpoints gives the same box. -/
theorem C13_line_bounds (element : Obj) (x1 y1 x2 y2 : ℚ)
    (hty : getProp element "type" = some (.str "line"))
    (h1 : getProp element "x1" = some (.num x1)) (h2 : getProp element "y1" = some (.num y1))
    (h3 : getProp element "x2" = some (.num x2)) (h4 : getProp element "y2" = some (.num y2))
    (draggedElement : Option DragSession) :
    (dragPosition draggedElement element = none →
      getElementBounds draggedElement element =
        some { x := some (.num (jsSub (min x1 x2) 2)), y := some (.num (jsSub (min y1 y2) 2)),
               width := some (.num (jsAdd |jsSub x2 x1| 4)),
               height := some (.num (jsAdd |jsSub y2 y1| 4)) }) ∧
    (∀ p : Pos, dragPosition draggedElement element = some p →
      getElementBounds draggedElement element =
        some { x := some (.num (jsSub (min (jsAdd x1 p.x) (jsAdd x2 p.x)) 2)),
               y := some (.num (jsSub (min (jsAdd y1 p.y) (jsAdd y2 p.y)) 2)),
               width := some (.num (jsAdd |jsSub (jsAdd x2 p.x) (jsAdd x1 p.x)| 4)),
               height := some (.num (jsAdd |jsSub (jsAdd y2 p.y) (jsAdd y1 p.y)| 4)) } ∧
      getElementBounds none (assign element (specLineDragCommit x1 y1 x2 y2 p)) =
        getElementBounds draggedElement element ∧
      (Unrounded (lineBoundsArithmetic x1 y1 x2 y2 p) →
        getElementBounds draggedElement element =
          some { x := some (.num (jsSub (min x1 x2) 2 + p.x)),
                 y := some (.num (jsSub (min y1 y2) 2 + p.y)),
                 width := some (.num (jsAdd |jsSub x2 x1| 4)),
                 height := some (.num (jsAdd |jsSub y2 y1| 4)) })) ∧
    (∀ swapped : Obj, getProp swapped "type" = some (.str "line") →
      getProp swapped "x1" = some (.num x2) → getProp swapped "y1" = some (.num y2) →
      getProp swapped "x2" = some (.num x1) → getProp swapped "y2" = some (.num y1) →
      dragPosition draggedElement swapped = dragPosition draggedElement element →
      getElementBounds draggedElement swapped = getElementBounds draggedElement element) := by
  refine ⟨?_, ?_, ?_⟩
  · intro hd
    rw [getElementBounds_line hty h1 h2 h3 h4, hd]
  · intro p hd
    have hb := getElementBounds_line hty h1 h2 h3 h4 draggedElement
    rw [hd] at hb
    refine ⟨hb, ?_, ?_⟩
    · rw [hb, @getElementBounds_line
        (assign element (specLineDragCommit x1 y1 x2 y2 p))
        (jsAdd x1 p.x) (jsAdd y1 p.y) (jsAdd x2 p.x) (jsAdd y2 p.y)
        (by simpa [getProp_assign_lineCommit] using hty)
        (by simp [getProp_assign_lineCommit]) (by simp [getProp_assign_lineCommit])
        (by simp [getProp_assign_lineCommit]) (by simp [getProp_assign_lineCommit]) none]
      rfl
    · intro hex
      simp only [Unrounded, lineBoundsArithmetic, List.mem_cons, List.mem_singleton,
        List.not_mem_nil, or_false, forall_eq_or_imp, forall_eq] at hex
      obtain ⟨e1, e2, e3, e4, e5, e6, e7, e8⟩ := hex
      rw [hb]
      simp only [jsAdd, jsSub, e1, e2, e3, e4, e5, e6, min_add_add_right, e7, e8,
        add_sub_add_right_eq_sub, Option.some.injEq, Bounds.mk.injEq, JSValue.num.injEq,
        and_true]
      exact ⟨by ring, by ring⟩
  · intro swapped sty s1 s2 s3 s4 hd
    rw [getElementBounds_line hty h1 h2 h3 h4, getElementBounds_line sty s1 s2 s3 s4, hd]
    have hsym : ∀ a b : ℚ, |jsSub a b| = |jsSub b a| := by
      intro a b
      rw [← jsSub_max_min, ← jsSub_max_min, max_comm, min_comm]
    cases dragPosition draggedElement element <;>
      simp only [min_comm x2, min_comm y2, min_comm (jsAdd x2 _), min_comm (jsAdd y2 _),
        hsym x1, hsym y1, hsym (jsAdd x1 _), hsym (jsAdd y1 _)]

theorem C13_line_bounds_witness :
    getElementBounds none sampleLine =
      some { x := some (.num (jsSub (min 10 60) 2)), y := some (.num (jsSub (min 10 60) 2)),
             width := some (.num (jsAdd |jsSub 60 10| 4)),
             height := some (.num (jsAdd |jsSub 60 10| 4)) } ∧
    Unrounded (lineBoundsArithmetic 10 10 60 60 { x := 5, y := 7 }) ∧
    getElementBounds (some lineDragSession) sampleLine =
      some { x := some (.num (jsSub (min 10 60) 2 + 5)),
             y := some (.num (jsSub (min 10 60) 2 + 7)),
             width := some (.num (jsAdd |jsSub 60 10| 4)),
             height := some (.num (jsAdd |jsSub 60 10| 4)) } :=
  have hex : Unrounded (lineBoundsArithmetic 10 10 60 60 { x := 5, y := 7 }) := by
    intro q hq
    simp only [lineBoundsArithmetic, List.mem_cons, List.mem_singleton, List.not_mem_nil,
      or_false] at hq
    rcases hq with rfl | rfl | rfl | rfl | rfl | rfl | rfl | rfl <;> decide!
  ⟨(C13_line_bounds sampleLine 10 10 60 60 (by simp [sampleLine, getProp])
      (by simp [sampleLine, getProp]) (by simp [sampleLine, getProp])
      (by simp [sampleLine, getProp]) (by simp [sampleLine, getProp]) none).1 rfl,
    hex,
    ((C13_line_bounds sampleLine 10 10 60 60 (by simp [sampleLine, getProp])
      (by simp [sampleLine, getProp]) (by simp [sampleLine, getProp])
      (by simp [sampleLine, getProp]) (by simp [sampleLine, getProp])
      (some lineDragSession)).2.1 { x := 5, y := 7 } (by
        simp [dragPosition, lineDragSession, sampleLine, getProp, strictEq])).2.2 hex⟩

/-- The widths of the box of `fractionalLine`, evaluated: `54` at rest and
`54.00000000000001` with the live offset `(0.2, 0)`. -/
theorem fractionalLine_widths :
    jsAdd |jsSub (toDouble (501 / 10)) (toDouble (1 / 10))| 4 = 54 ∧
    jsAdd |jsSub (jsAdd (toDouble (501 / 10)) (toDouble (2 / 10)))
        (jsAdd (toDouble (1 / 10)) (toDouble (2 / 10)))| 4 =
      7599824371187713 / 140737488355328 := by
  decide!

/-- C13 as stated fails: the line from `(0.1, 10)` to `(50.1, 60)` has a box of
width `54` at rest and of width `54.00000000000001` while it is dragged with
live offset `(0.2, 0)`. -/
theorem C13_line_bounds_counterexample :
    ¬ ∀ (element : Obj) (x1 y1 x2 y2 : ℚ), getProp element "type" = some (.str "line") →
      getProp element "x1" = some (.num x1) → getProp element "y1" = some (.num y1) →
      getProp element "x2" = some (.num x2) → getProp element "y2" = some (.num y2) →
      ∀ (draggedElement : Option DragSession) (p : Pos),
        dragPosition draggedElement element = some p →
        ∃ dragged atRest, getElementBounds draggedElement element = some dragged ∧
          getElementBounds none element = some atRest ∧ dragged.width = atRest.width := by
  intro h
  have hty : getProp fractionalLine "type" = some (.str "line") := by
    simp [fractionalLine, getProp]
  have h1 : getProp fractionalLine "x1" = some (.num (toDouble (1 / 10))) := by
    simp [fractionalLine, getProp]
  have h2 : getProp fractionalLine "y1" = some (.num 10) := by
    simp [fractionalLine, getProp]
  have h3 : getProp fractionalLine "x2" = some (.num (toDouble (501 / 10))) := by
    simp [fractionalLine, getProp]
  have h4 : getProp fractionalLine "y2" = some (.num 60) := by
    simp [fractionalLine, getProp]
  have hd : dragPosition (some fractionalLineDragSession) fractionalLine =
      some { x := toDouble (2 / 10), y := 0 } := by
    simp [dragPosition, fractionalLineDragSession, fractionalLine, getProp, strictEq]
  obtain ⟨dragged, atRest, hb, hb0, hw⟩ := h fractionalLine _ _ _ _ hty h1 h2 h3 h4
    (some fractionalLineDragSession) _ hd
  rw [getElementBounds_line hty h1 h2 h3 h4, hd] at hb
  rw [getElementBounds_line hty h1 h2 h3 h4] at hb0
  simp only [dragPosition, Option.some.injEq] at hb hb0
  subst hb
  subst hb0
  simp only [Option.some.injEq, JSValue.num.injEq] at hw
  revert hw
  decide!

/-- The drag end of an element that is not a line, evaluated. -/
theorem handleElementDragEnd_box {element : Obj}
    (hty : strictEq (getProp element "type") (some (.str "line")) = false)
    (target : KonvaNode) (st : State) :
    handleElementDragEnd element target st =
      some ({ updateElement st.selectedElement (getProp element "id")
                [("x", .num target.position.x), ("y", .num target.position.y)] st with
              draggedElement := none, cursor := "default" }, target) := by
  simp [handleElementDragEnd, dragEndUpdates, hty]

/-- C14. Rectangle and image bounds: outside the drag session the box is the
element's `x`, `y`, `width`, `height`; for the dragged element `x`, `y` are the
live position of the drag target and `width`, `height` the element's, which is
the box returned with no drag session for the element as `handleElementDragEnd`
commits it at that position. -/
theorem C14_box_bounds (element : Obj)
    (hty : getProp element "type" = some (.str "rectangle") ∨
      getProp element "type" = some (.str "image"))
    (draggedElement : Option DragSession) (st : State) :
    (dragPosition draggedElement element = none →
      getElementBounds draggedElement element =
        some { x := getProp element "x", y := getProp element "y",
               width := getProp element "width", height := getProp element "height" }) ∧
    (∀ p : Pos, dragPosition draggedElement element = some p →
      getElementBounds draggedElement element =
        some { x := some (.num p.x), y := some (.num p.y),
               width := getProp element "width", height := getProp element "height" } ∧
      handleElementDragEnd element { position := p } st =
        some ({ updateElement st.selectedElement (getProp element "id")
                  [("x", .num p.x), ("y", .num p.y)] st with
                draggedElement := none, cursor := "default" }, { position := p }) ∧
      getElementBounds none (assign element [("x", .num p.x), ("y", .num p.y)]) =
        getElementBounds draggedElement element) := by
  refine ⟨?_, ?_⟩
  · intro hd
    rcases hty with h | h <;> simp [getElementBounds, h, hd, strictEq]
  · intro p hd
    have hline : strictEq (getProp element "type") (some (.str "line")) = false := by
      rcases hty with h | h <;> simp [h, strictEq]
    have hb : getElementBounds draggedElement element =
        some { x := some (.num p.x), y := some (.num p.y),
               width := getProp element "width", height := getProp element "height" } := by
      rcases hty with h | h <;> simp [getElementBounds, h, hd, strictEq]
    refine ⟨hb, handleElementDragEnd_box hline _ st, ?_⟩
    rw [hb]
    rcases hty with h | h <;>
      simp [getElementBounds, h, strictEq, dragPosition, assign, getProp_setProp]

theorem C14_box_bounds_witness :
    getElementBounds none sampleRectangle =
      some { x := some (.num 50), y := some (.num 50), width := some (.num 100),
             height := some (.num 50) } ∧
    getElementBounds (some rectangleDragSession) sampleRectangle =
      some { x := some (.num 80), y := some (.num 90), width := some (.num 100),
             height := some (.num 50) } ∧
    getElementBounds none (assign sampleRectangle [("x", .num 80), ("y", .num 90)]) =
      getElementBounds (some rectangleDragSession) sampleRectangle := by
  have h0 := (C14_box_bounds sampleRectangle (Or.inl (by simp [sampleRectangle, getProp]))
    none rectangleScene).1 rfl
  have h1 := (C14_box_bounds sampleRectangle (Or.inl (by simp [sampleRectangle, getProp]))
    (some rectangleDragSession) rectangleScene).2 { x := 80, y := 90 } (by
      simp [dragPosition, rectangleDragSession, sampleRectangle, getProp, strictEq])
  refine ⟨?_, ?_, h1.2.2⟩
  · rw [h0]; rfl
  · rw [h1.1]; rfl

/-! ## Place -/

/-- The fields of the element built for a tool. -/
theorem newElementFor_fields {tool id : String} {p : Pos} {up : Option ImageUpload}
    {newElement : Obj} (h : newElementFor tool id p up = some newElement) :
    getProp newElement "type" = some (.str tool) ∧
    getProp newElement "startTime" = some (.num 0) ∧
    getProp newElement "endTime" = some (.num 10) ∧
    (tool = "line" →
      getProp newElement "x1" = some (.num p.x) ∧ getProp newElement "y1" = some (.num p.y) ∧
      getProp newElement "x2" = some (.num (jsAdd p.x 50)) ∧
      getProp newElement "y2" = some (.num (jsAdd p.y 50))) ∧
    (tool ≠ "line" →
      getProp newElement "x" = some (.num p.x) ∧ getProp newElement "y" = some (.num p.y)) ∧
    (tool = "rectangle" →
      getProp newElement "width" = some (.num 100) ∧
      getProp newElement "height" = some (.num 50) ∧
      getProp newElement "cornerRadius" = some (.num 0) ∧
      getProp newElement "borderWidth" = some (.num 1)) := by
  unfold newElementFor at h
  split_ifs at h with t1 t2 t3 t4
  · obtain rfl := Option.some.inj h
    subst t1
    simp [getProp]
  · obtain rfl := Option.some.inj h
    subst t2
    simp [getProp]
  · obtain rfl := Option.some.inj h
    subst t3
    simp [getProp]
  · cases up with
    | none => simp at h
    | some u =>
      obtain rfl := Option.some.inj h
      subst t4
      simp [getProp]

/-- C19. Place: with the text, rectangle or line tool, or the image tool and a
staged upload, a click at a position appends exactly one element after the
existing ones, selects it and clears the tool; the element carries the generated
id, the type of the tool, the position as its anchor, `startTime` 0 and
`endTime` 10, and for a rectangle width 100, height 50, corner radius 0 and
border width 1.  With the image tool and no staged upload the state is
unchanged. -/
theorem C19_place (now : ℕ) (rnd : String) (p : Pos) (st : State) :
    (Placeable st →
      ∃ tool newElement, st.tool = some tool ∧
        handleStageClick now rnd (some p) st =
          { st with
            elements := st.elements ++ [newElement]
            selectedElement := some newElement
            tool := none
            imageUpload := if tool = "image" then none else st.imageUpload } ∧
        getProp newElement "id" = some (.str (generateId now rnd)) ∧
        getProp newElement "type" = some (.str tool) ∧
        getProp newElement "startTime" = some (.num 0) ∧
        getProp newElement "endTime" = some (.num 10) ∧
        (tool = "line" →
          getProp newElement "x1" = some (.num p.x) ∧
          getProp newElement "y1" = some (.num p.y) ∧
          getProp newElement "x2" = some (.num (jsAdd p.x 50)) ∧
          getProp newElement "y2" = some (.num (jsAdd p.y 50))) ∧
        (tool ≠ "line" →
          getProp newElement "x" = some (.num p.x) ∧
          getProp newElement "y" = some (.num p.y)) ∧
        (tool = "rectangle" →
          getProp newElement "width" = some (.num 100) ∧
          getProp newElement "height" = some (.num 50) ∧
          getProp newElement "cornerRadius" = some (.num 0) ∧
          getProp newElement "borderWidth" = some (.num 1))) ∧
    (st.tool = some "image" → st.imageUpload = none →
      handleStageClick now rnd (some p) st = st) := by
  refine ⟨?_, ?_⟩
  · intro hplace
    obtain ⟨tool, newElement, htool, hne, hnew⟩ := hplace.newElement (generateId now rnd) p
    obtain ⟨f1, f2, f3, f4, f5, f6⟩ := newElementFor_fields hnew
    exact ⟨tool, newElement, htool, handleStageClick_of_new htool hne hnew,
      newElementFor_id hnew, f1, f2, f3, f4, f5, f6⟩
  · intro htool hup
    simp [handleStageClick, htool, hup, newElementFor]

theorem C19_place_witness :
    (∃ tool newElement, rectangleToolState.tool = some tool ∧
      handleStageClick 1700000000000 "0.4fzyo82mvyr" (some { x := 50, y := 50 })
          rectangleToolState =
        { rectangleToolState with
          elements := rectangleToolState.elements ++ [newElement]
          selectedElement := some newElement
          tool := none
          imageUpload := if tool = "image" then none else rectangleToolState.imageUpload } ∧
      getProp newElement "id"
        = some (.str (generateId 1700000000000 "0.4fzyo82mvyr")) ∧
      getProp newElement "type" = some (.str tool)) ∧
    handleStageClick 1700000000000 "0.4fzyo82mvyr" (some { x := 50, y := 50 })
      imageToolNoUpload = imageToolNoUpload := by
  have h := C19_place 1700000000000 "0.4fzyo82mvyr" { x := 50, y := 50 } rectangleToolState
  have h' := C19_place 1700000000000 "0.4fzyo82mvyr" { x := 50, y := 50 } imageToolNoUpload
  obtain ⟨tool, ne, h1, h2, h3, h4, -⟩ := h.1 (Or.inr (Or.inl rfl))
  exact ⟨⟨tool, ne, h1, h2, h3, h4⟩, h'.2 rfl rfl⟩

/-! ## Body drag -/

/-- A drag move changes at most the drag session. -/
theorem handleElementDragMove_frame (element : Obj) (target : KonvaNode) (st : State) :
    (handleElementDragMove element target st).elements = st.elements ∧
    (handleElementDragMove element target st).selectedElement = st.selectedElement ∧
    (handleElementDragMove element target st).hoveredElement = st.hoveredElement := by
  unfold handleElementDragMove
  cases st.draggedElement with
  | none => exact ⟨rfl, rfl, rfl⟩
  | some d =>
    simp only
    split_ifs <;> exact ⟨rfl, rfl, rfl⟩

theorem dragMoves_frame (moves : List (Obj × KonvaNode)) : ∀ st : State,
    (dragMoves moves st).elements = st.elements ∧
    (dragMoves moves st).selectedElement = st.selectedElement := by
  induction moves with
  | nil => intro st; exact ⟨rfl, rfl⟩
  | cons m rest ih =>
    intro st
    have hstep : dragMoves (m :: rest) st
        = dragMoves rest (handleElementDragMove m.1 m.2 st) := rfl
    obtain ⟨h1, h2, -⟩ := handleElementDragMove_frame m.1 m.2 st
    rw [hstep, (ih _).1, (ih _).2, h1, h2]
    exact ⟨rfl, rfl⟩

/-- C20. Body-drag state machine: drag start sets the session to the element
and its target and clears hover, leaving elements and selection; a drag move of
the session's element replaces the live target and nothing else, a move of an
element with another id, or with no session, changes nothing; so a drag start
followed by any drag moves leaves elements and selection as they were; a drag
end answers for every element that is not a line and for every line with
numeric endpoints, and after it there is no drag session. -/
theorem C20_body_drag_state_machine (element : Obj) (target : KonvaNode) (st : State) :
    handleElementDragStart element target st =
      { st with
        draggedElement := some { element := element, target := target }
        hoveredElement := none
        cursor := "grabbing" } ∧
    (∀ d : DragSession, st.draggedElement = some d →
      strictEq (getProp d.element "id") (getProp element "id") = true →
      handleElementDragMove element target st =
        { st with draggedElement := some { element := element, target := target } }) ∧
    (∀ d : DragSession, st.draggedElement = some d → d.element = element →
      strictEq (getProp d.element "id") (getProp element "id") = true →
      handleElementDragMove element target st =
        { st with draggedElement := some { d with target := target } }) ∧
    (∀ d : DragSession, st.draggedElement = some d →
      strictEq (getProp d.element "id") (getProp element "id") = false →
      handleElementDragMove element target st = st) ∧
    (st.draggedElement = none → handleElementDragMove element target st = st) ∧
    (∀ moves : List (Obj × KonvaNode),
      (dragMoves moves (handleElementDragStart element target st)).elements = st.elements ∧
      (dragMoves moves (handleElementDragStart element target st)).selectedElement
        = st.selectedElement) ∧
    (∀ r, handleElementDragEnd element target st = some r → r.1.draggedElement = none) ∧
    (strictEq (getProp element "type") (some (.str "line")) = false →
      ∃ r, handleElementDragEnd element target st = some r) ∧
    (∀ x1 y1 x2 y2 : ℚ, getProp element "type" = some (.str "line") →
      getProp element "x1" = some (.num x1) → getProp element "y1" = some (.num y1) →
      getProp element "x2" = some (.num x2) → getProp element "y2" = some (.num y2) →
      ∃ r, handleElementDragEnd element target st = some r) := by
  refine ⟨rfl, ?_, ?_, ?_, ?_, ?_, ?_, ?_, ?_⟩
  · intro d hd hid
    simp [handleElementDragMove, hd, hid]
  · intro d hd hel hid
    subst hel
    simp [handleElementDragMove, hd, hid]
  · intro d hd hid
    simp [handleElementDragMove, hd, hid]
  · intro hd
    simp [handleElementDragMove, hd]
  · intro moves
    obtain ⟨h1, h2⟩ := dragMoves_frame moves (handleElementDragStart element target st)
    exact ⟨h1, h2⟩
  · intro r hr
    simp only [handleElementDragEnd, Option.bind_eq_bind, Option.bind_eq_some, Option.pure_def,
      Option.some.injEq] at hr
    obtain ⟨u, -, rfl⟩ := hr
    rfl
  · intro hty
    exact ⟨_, handleElementDragEnd_box hty target st⟩
  · intro x1 y1 x2 y2 hty h1 h2 h3 h4
    exact ⟨_, handleElementDragEnd_line hty h1 h2 h3 h4 target st⟩

theorem C20_body_drag_state_machine_witness :
    (∀ moves : List (Obj × KonvaNode),
      (dragMoves moves (handleElementDragStart sampleRectangle
        { position := { x := 80, y := 90 } } rectangleScene)).elements
        = rectangleScene.elements ∧
      (dragMoves moves (handleElementDragStart sampleRectangle
        { position := { x := 80, y := 90 } } rectangleScene)).selectedElement
        = rectangleScene.selectedElement) ∧
    (∃ r, handleElementDragEnd sampleRectangle { position := { x := 80, y := 90 } }
        rectangleScene = some r ∧ r.1.draggedElement = none) := by
  have h := C20_body_drag_state_machine sampleRectangle { position := { x := 80, y := 90 } }
    rectangleScene
  obtain ⟨r, hr⟩ := h.2.2.2.2.2.2.2.1 (by decide)
  exact ⟨h.2.2.2.2.2.1, r, hr, h.2.2.2.2.2.2.1 r hr⟩

/-! ## Reachable states: selection and hover -/

/-- A step that maps every element and the selection through one function that
keeps ids, and leaves hover, keeps both invariants. -/
theorem invariants_of_map {st st' : State} (f : Obj → Obj)
    (hf : ∀ o, getProp (f o) "id" = getProp o "id")
    (hel : st'.elements = st.elements.map f)
    (hsel : st'.selectedElement = st.selectedElement.map f)
    (hhov : st'.hoveredElement = st.hoveredElement) :
    (SelectionInScene st → SelectionInScene st') ∧ (HoverInScene st → HoverInScene st') := by
  refine ⟨?_, ?_⟩
  · rintro ⟨h1, h2⟩
    refine ⟨?_, ?_⟩
    · intro sel hs
      rw [hsel] at hs
      cases hsel0 : st.selectedElement with
      | none => simp [hsel0] at hs
      | some sel0 =>
        simp only [hsel0, Option.map_some', Option.some.injEq] at hs
        subst hs
        rw [hel]
        exact List.mem_map_of_mem f (h1 sel0 hsel0)
    · intro e he
      rw [hel] at he
      obtain ⟨e0, he0, rfl⟩ := List.mem_map.mp he
      rw [hf]
      exact h2 e0 he0
  · intro h hv hhv
    rw [hhov] at hhv
    obtain ⟨e, he, hid⟩ := h hv hhv
    exact ⟨f e, by rw [hel]; exact List.mem_map_of_mem f he, by rw [hf, hid]⟩

/-- A step that maps every element through a function that keeps ids, and
leaves hover, keeps the hover invariant whatever it does to the selection. -/
theorem hoverInScene_of_map {st st' : State} (f : Obj → Obj)
    (hf : ∀ o, getProp (f o) "id" = getProp o "id")
    (hel : st'.elements = st.elements.map f)
    (hhov : st'.hoveredElement = st.hoveredElement) :
    HoverInScene st → HoverInScene st' := by
  intro h hv hhv
  rw [hhov] at hhv
  obtain ⟨e, he, hid⟩ := h hv hhv
  exact ⟨f e, by rw [hel]; exact List.mem_map_of_mem f he, by rw [hf, hid]⟩

/-- A step that appends elements with string ids, leaves the selection or
selects one of the appended elements, and leaves hover, keeps both invariants. -/
theorem invariants_of_append {st st' : State} (extra : List Obj)
    (hextra : ∀ e ∈ extra, ∃ s : String, getProp e "id" = some (.str s))
    (hel : st'.elements = st.elements ++ extra)
    (hsel : st'.selectedElement = st.selectedElement ∨
      ∃ ne ∈ extra, st'.selectedElement = some ne)
    (hhov : st'.hoveredElement = st.hoveredElement) :
    (SelectionInScene st → SelectionInScene st') ∧ (HoverInScene st → HoverInScene st') := by
  refine ⟨?_, ?_⟩
  · rintro ⟨h1, h2⟩
    refine ⟨?_, ?_⟩
    · intro sel hs
      rw [hel]
      rcases hsel with h | ⟨ne, hne, h⟩
      · rw [h] at hs
        exact List.mem_append_left _ (h1 sel hs)
      · rw [h] at hs
        obtain rfl := Option.some.inj hs
        exact List.mem_append_right _ hne
    · intro e he
      rw [hel] at he
      rcases List.mem_append.mp he with h | h
      · exact h2 e h
      · exact hextra e h
  · intro h hv hhv
    rw [hhov] at hhv
    obtain ⟨e, he, hid⟩ := h hv hhv
    exact ⟨e, by rw [hel]; exact List.mem_append_left _ he, hid⟩

/-- `updateElement` with updates that do not name `id` keeps both invariants,
also when the step changes further fields that are neither elements, selection
nor hover. -/
theorem invariants_of_update {st st' : State} (elementId : Option JSValue) {updates : Obj}
    (hu : withoutId updates = true)
    (hel : st'.elements = (updateElement st.selectedElement elementId updates st).elements)
    (hsel : st'.selectedElement =
      (updateElement st.selectedElement elementId updates st).selectedElement)
    (hhov : st'.hoveredElement = st.hoveredElement) :
    (SelectionInScene st → SelectionInScene st') ∧ (HoverInScene st → HoverInScene st') := by
  apply invariants_of_map
    (fun el => if strictEq (getProp el "id") elementId then assign el updates else el)
  · intro o
    by_cases h : strictEq (getProp o "id") elementId = true
    · simp [h, getProp_assign_id hu]
    · simp [h]
  · rw [hel]; rfl
  · rw [hsel]
    simp only [updateElement]
    cases st.selectedElement with
    | none => rfl
    | some sel =>
      simp only [Option.map_some']
      split_ifs <;> rfl
  · exact hhov

/-- A step that leaves the elements, and leaves, clears or sets to an element of
the scene each of selection and hover, keeps both invariants. -/
theorem invariants_of_frame {st st' : State} (hel : st'.elements = st.elements)
    (hsel : st'.selectedElement = st.selectedElement ∨ st'.selectedElement = none ∨
      ∃ e ∈ st.elements, st'.selectedElement = some e)
    (hhov : st'.hoveredElement = st.hoveredElement ∨ st'.hoveredElement = none ∨
      ∃ e ∈ st.elements, st'.hoveredElement = some e) :
    (SelectionInScene st → SelectionInScene st') ∧ (HoverInScene st → HoverInScene st') := by
  refine ⟨?_, ?_⟩
  · rintro ⟨h1, h2⟩
    refine ⟨?_, by rw [hel]; exact h2⟩
    intro sel hs
    rw [hel]
    rcases hsel with h | h | ⟨e, he, h⟩
    · exact h1 sel (h ▸ hs)
    · rw [h] at hs; cases hs
    · rw [h] at hs
      obtain rfl := Option.some.inj hs
      exact he
  · intro h hv hhv
    rw [hel]
    rcases hhov with h' | h' | ⟨e, he, h'⟩
    · exact h hv (h' ▸ hhv)
    · rw [h'] at hhv; cases hhv
    · rw [h'] at hhv
      obtain rfl := Option.some.inj hhv
      exact ⟨e, he, rfl⟩

/-- The three outcomes of a click on the stage. -/
theorem handleStageClick_cases (now : ℕ) (rnd : String) (pos : Option Pos) (st : State) :
    handleStageClick now rnd pos st = st ∨
    handleStageClick now rnd pos st = { st with selectedElement := none } ∨
    ∃ newElement upload, getProp newElement "id" = some (.str (generateId now rnd)) ∧
      handleStageClick now rnd pos st =
        { st with
          elements := st.elements ++ [newElement]
          selectedElement := some newElement
          tool := none
          imageUpload := upload } := by
  unfold handleStageClick
  cases htool : st.tool with
  | none => exact Or.inr (Or.inl rfl)
  | some tool =>
    cases pos with
    | none => exact Or.inr (Or.inl rfl)
    | some p =>
      by_cases h0 : tool = ""
      · right; left
        simp [h0]
      · simp only [h0, if_false]
        cases hnew : newElementFor tool (generateId now rnd) p st.imageUpload with
        | none => exact Or.inl rfl
        | some newElement =>
          exact Or.inr (Or.inr ⟨newElement, _, newElementFor_id hnew, rfl⟩)

/-- An import appends elements with string ids (none when it is rejected) and
changes nothing else. -/
theorem handleJSONFileUpload_appends (q : String) (entropy : ℕ → ℕ × String)
    (file : Option UploadedFile) (st : State) :
    ∃ processed, (∀ e ∈ processed, ∃ s : String, getProp e "id" = some (.str s)) ∧
      (handleJSONFileUpload q entropy file st).1 =
        { st with elements := st.elements ++ processed } := by
  have hnone : ∃ processed, (∀ e ∈ processed, ∃ s : String, getProp e "id" = some (.str s)) ∧
      st = { st with elements := st.elements ++ processed } :=
    ⟨[], by simp, by simp⟩
  unfold handleJSONFileUpload
  cases file with
  | none => exact hnone
  | some f =>
    simp only
    split_ifs
    · cases hparsed : f.parsed with
      | none => exact hnone
      | some v =>
        cases v with
        | arr importedData =>
          simp only
          cases hp : processElements q entropy 0 importedData with
          | none => exact hnone
          | some processed =>
            refine ⟨processed, ?_, rfl⟩
            intro e he
            obtain ⟨j, hj⟩ := List.mem_iff_getElem?.mp he
            obtain ⟨r, -, hr⟩ := (processElements_spec q entropy importedData 0 processed hp).2
              j e hj
            exact ⟨_, processElement_id hr⟩
        | _ => exact hnone
    · exact hnone

theorem dragEndUpdates_withoutId {element : Obj} {p : Pos} {updates : Obj}
    (h : dragEndUpdates element p = some updates) : withoutId updates = true := by
  unfold dragEndUpdates at h
  split_ifs at h
  · simp only [Option.bind_eq_bind, Option.bind_eq_some, Option.pure_def,
      Option.some.injEq] at h
    obtain ⟨x1, -, y1, -, x2, -, y2, -, rfl⟩ := h
    simp [withoutId]
  · obtain rfl := Option.some.inj h
    simp [withoutId]

theorem EdgeCommit.noId {updates : Obj} (h : EdgeCommit updates) :
    withoutId updates = true := by
  rcases h with ⟨y, h, -, rfl⟩ | ⟨h, -, rfl⟩ | ⟨x, w, -, rfl⟩ | ⟨w, -, rfl⟩ <;>
    simp [withoutId]

/-- One event keeps `SelectionInScene` unless it is the load of a replacement
image, and keeps `HoverInScene` unless it is a delete. -/
theorem dispatch_invariants {ev : Event} {st st' : State} (h : dispatch ev st = some st') :
    (ev.isReplacementLoad = false → SelectionInScene st → SelectionInScene st') ∧
    (ev.isDelete = false → HoverInScene st → HoverInScene st') := by
  have wrap : ((SelectionInScene st → SelectionInScene st') ∧
      (HoverInScene st → HoverInScene st')) →
      (ev.isReplacementLoad = false → SelectionInScene st → SelectionInScene st') ∧
      (ev.isDelete = false → HoverInScene st → HoverInScene st') :=
    fun k => ⟨fun _ => k.1, fun _ => k.2⟩
  cases ev with
  | setTool tool =>
    obtain rfl := Option.some.inj h
    exact wrap (invariants_of_frame rfl (Or.inl rfl) (Or.inl rfl))
  | imageUpload upload =>
    obtain rfl := Option.some.inj h
    exact wrap (invariants_of_frame rfl (Or.inl rfl) (Or.inl rfl))
  | stageClick now rnd pos =>
    obtain rfl := Option.some.inj h
    rcases handleStageClick_cases now rnd pos st with hc | hc | ⟨ne, up, hid, hc⟩
    · apply wrap
      rw [hc]
      exact invariants_of_frame rfl (Or.inl rfl) (Or.inl rfl)
    · apply wrap
      rw [hc]
      exact invariants_of_frame rfl (Or.inr (Or.inl rfl)) (Or.inl rfl)
    · apply wrap
      rw [hc]
      exact invariants_of_append [ne]
        (by intro e he; rw [List.mem_singleton.mp he]; exact ⟨_, hid⟩) rfl
        (Or.inr ⟨ne, List.mem_singleton.mpr rfl, rfl⟩) rfl
  | update elementId updates =>
    simp only [dispatch] at h
    split_ifs at h with hu
    obtain rfl := Option.some.inj h
    exact wrap (invariants_of_update elementId hu rfl rfl rfl)
  | delete elementId =>
    obtain rfl := Option.some.inj h
    refine ⟨fun _ => ?_, fun hd => by simp [Event.isDelete] at hd⟩
    rintro ⟨-, h2⟩
    refine ⟨fun sel hs => by simp [deleteElement] at hs, ?_⟩
    intro e he
    exact h2 e (List.mem_of_mem_filter he)
  | click index =>
    simp only [dispatch, Option.map_eq_some'] at h
    obtain ⟨element, hel, rfl⟩ := h
    exact wrap (invariants_of_frame rfl
      (Or.inr (Or.inr ⟨element, List.mem_iff_getElem?.mpr ⟨_, hel⟩, rfl⟩)) (Or.inl rfl))
  | mouseEnter index =>
    simp only [dispatch, Option.map_eq_some'] at h
    obtain ⟨element, hel, rfl⟩ := h
    exact wrap (invariants_of_frame rfl (Or.inl rfl)
      (Or.inr (Or.inr ⟨element, List.mem_iff_getElem?.mpr ⟨_, hel⟩, rfl⟩)))
  | mouseLeave =>
    obtain rfl := Option.some.inj h
    exact wrap (invariants_of_frame rfl (Or.inl rfl) (Or.inr (Or.inl rfl)))
  | jsonUpload q entropy file =>
    obtain rfl := Option.some.inj h
    obtain ⟨processed, hid, heq⟩ := handleJSONFileUpload_appends q entropy file st
    exact wrap (invariants_of_append processed hid (by rw [heq]) (Or.inl (by rw [heq]))
      (by rw [heq]))
  | dragStart index target =>
    simp only [dispatch, Option.map_eq_some'] at h
    obtain ⟨element, -, rfl⟩ := h
    exact wrap (invariants_of_frame rfl (Or.inl rfl) (Or.inr (Or.inl rfl)))
  | dragMove index target =>
    simp only [dispatch, Option.map_eq_some'] at h
    obtain ⟨element, -, rfl⟩ := h
    obtain ⟨h1, h2, h3⟩ := handleElementDragMove_frame element target st
    exact wrap (invariants_of_frame h1 (Or.inl h2) (Or.inl h3))
  | dragEnd index target =>
    simp only [dispatch, Option.bind_eq_some, Option.map_eq_some'] at h
    obtain ⟨element, -, r, hr, rfl⟩ := h
    simp only [handleElementDragEnd, Option.bind_eq_bind, Option.bind_eq_some,
      Option.pure_def, Option.some.injEq] at hr
    obtain ⟨updates, hu, rfl⟩ := hr
    exact wrap (invariants_of_update (getProp element "id") (dragEndUpdates_withoutId hu)
      rfl rfl rfl)
  | endpointDrag isStart target =>
    simp only [dispatch] at h
    cases hsel : st.selectedElement with
    | none => simp [hsel] at h
    | some sel =>
      simp only [hsel] at h
      split_ifs at h
      obtain rfl := Option.some.inj h
      cases isStart
      · exact wrap (invariants_of_update (getProp sel "id") (by simp [withoutId]) rfl rfl rfl)
      · exact wrap (invariants_of_update (getProp sel "id") (by simp [withoutId]) rfl rfl rfl)
  | edgeDrag edge target =>
    simp only [dispatch] at h
    cases hsel : st.selectedElement with
    | none => simp [hsel] at h
    | some sel =>
      simp only [hsel] at h
      split_ifs at h
      simp only [Option.map_eq_some'] at h
      obtain ⟨r, hr, rfl⟩ := h
      simp only [handleRectangleEdgeDrag, Option.bind_eq_bind, Option.bind_eq_some,
        Option.pure_def, Option.some.injEq] at hr
      obtain ⟨d, hd, rfl⟩ := hr
      apply wrap
      cases hu : d.updates with
      | none => exact invariants_of_frame rfl (Or.inl rfl) (Or.inl rfl)
      | some updates =>
        exact invariants_of_update (getProp sel "id")
          (rectangleEdgeDrag_updates hd hu).noId rfl rfl rfl
  | imageReplacement =>
    obtain rfl := Option.some.inj h
    have hframe : (handleImageReplacement st).elements = st.elements ∧
        (handleImageReplacement st).selectedElement = st.selectedElement ∧
        (handleImageReplacement st).hoveredElement = st.hoveredElement := by
      unfold handleImageReplacement
      split
      · split_ifs <;> exact ⟨rfl, rfl, rfl⟩
      · exact ⟨rfl, rfl, rfl⟩
    exact wrap (invariants_of_frame hframe.1 (Or.inl hframe.2.1) (Or.inl hframe.2.2))
  | imageReplacementLoad upload =>
    refine ⟨fun hl => by simp [Event.isReplacementLoad] at hl, fun _ => ?_⟩
    simp only [dispatch] at h
    cases hp : st.pendingReplacement with
    | none => simp [hp] at h
    | some captured =>
      simp only [hp, Option.some.injEq] at h
      subst h
      simp only [imageReplacementLoaded, hp]
      apply hoverInScene_of_map
        (fun el => if strictEq (getProp el "id") (getProp captured "id") then
          assign el [("src", .str upload.src), ("width", .num upload.width),
            ("height", .num upload.height), ("filename", .str upload.filename),
            ("filepath", .str upload.filepath)] else el)
      · intro o
        have hu : withoutId [("src", JSValue.str upload.src),
            ("width", JSValue.num upload.width), ("height", JSValue.num upload.height),
            ("filename", JSValue.str upload.filename),
            ("filepath", JSValue.str upload.filepath)] = true := by
          simp [withoutId]
        by_cases hm : strictEq (getProp o "id") (getProp captured "id") = true
        · simp [hm, getProp_assign_id hu]
        · simp [hm]
      · rfl
      · rfl

/-- A run of events keeps `SelectionInScene` when no event of the run is the
load of a replacement image, and keeps `HoverInScene` when no event of the run
is a delete. -/
theorem run_invariants (events : List Event) : ∀ (st st' : State),
    run events st = some st' →
    ((∀ ev ∈ events, ev.isReplacementLoad = false) →
      SelectionInScene st → SelectionInScene st') ∧
    ((∀ ev ∈ events, ev.isDelete = false) → HoverInScene st → HoverInScene st') := by
  induction events with
  | nil =>
    intro st st' h
    obtain rfl := Option.some.inj h
    exact ⟨fun _ => id, fun _ => id⟩
  | cons ev rest ih =>
    intro st st' h
    simp only [run, Option.bind_eq_some] at h
    obtain ⟨st1, h1, h2⟩ := h
    obtain ⟨a1, b1⟩ := dispatch_invariants h1
    obtain ⟨a2, b2⟩ := ih st1 st' h2
    refine ⟨fun hl hs => ?_, fun hd hh => ?_⟩
    · exact a2 (fun e he => hl e (List.mem_cons_of_mem _ he))
        (a1 (hl ev (List.mem_cons_self _ _)) hs)
    · exact b2 (fun e he => hd e (List.mem_cons_of_mem _ he))
        (b1 (hd ev (List.mem_cons_self _ _)) hh)

theorem init_invariants : SelectionInScene State.init ∧ HoverInScene State.init := by
  refine ⟨⟨fun sel hs => by simp [State.init] at hs, fun e he => by simp [State.init] at he⟩,
    fun h hh => by simp [State.init] at hh⟩

theorem rectangleScene_reachable : Reachable rectangleScene :=
  ⟨placeRectangle, rfl⟩

theorem hoveredRectangleScene_run :
    run (placeRectangle ++ [.mouseEnter 0]) State.init = some hoveredRectangleScene := by
  rfl

theorem hoverThenDelete_run :
    run hoverThenDelete State.init =
      some (deleteElement (some (.str "element_1700000000000_4fzyo82mv"))
        hoveredRectangleScene) := by
  rfl

/-- In every state reached by a run of events in which no replacement image
loads, a set selection is an element of the scene, so the scene contains an
element with the selected id that equals the selection field for field; and
when ids are unique every element with the selected id is the selection. -/
theorem selection_in_scene_of_run (events : List Event) (st : State)
    (hrun : run events State.init = some st)
    (hload : ∀ ev ∈ events, ev.isReplacementLoad = false) (sel : Obj)
    (hsel : st.selectedElement = some sel) :
    sel ∈ st.elements ∧
    (∃ e ∈ st.elements, strictEq (getProp e "id") (getProp sel "id") = true ∧
      ∀ k, getProp e k = getProp sel k) ∧
    (UniqueIds st.elements → ∀ e ∈ st.elements,
      strictEq (getProp e "id") (getProp sel "id") = true → e = sel) := by
  obtain ⟨hmem, hids⟩ := (run_invariants events State.init st hrun).1 hload init_invariants.1
  have hin := hmem sel hsel
  obtain ⟨s, hs⟩ := hids sel hin
  refine ⟨hin, ⟨sel, hin, by simp [hs, strictEq], fun _ => rfl⟩, ?_⟩
  intro huniq e he hid
  exact huniq e he sel hin hid

theorem replacementThenSelectRectangle_run :
    run replacementThenSelectRectangle State.init = some replacementPendingScene := by
  rfl

theorem staleReplacementAfterDeselect_run :
    run staleReplacementAfterDeselect State.init = some staleSelectionScene := by
  rfl

/-- C15 at the load of a replacement image after the selection has moved: the
rectangle is selected while the replacement of the image is under way; the load
calls `updateElement` with the id of the image from the closure in which the
image was selected; the image in the scene is updated, and the fields are also
merged into the selection's copy of the rectangle, whose id is not the id
updated; the rectangle in the scene is unchanged. -/
theorem C15_update_element :
    run replacementThenSelectRectangle State.init = some replacementPendingScene ∧
    replacementPendingScene.selectedElement = some sampleRectangle ∧
    replacementPendingScene.pendingReplacement = some sampleImage ∧
    strictEq (getProp sampleRectangle "id") (getProp sampleImage "id") = false ∧
    imageReplacementLoaded iconUpload replacementPendingScene =
      { updateElement (some sampleImage) (getProp sampleImage "id") iconFields
          replacementPendingScene with pendingReplacement := none } ∧
    (updateElement (some sampleImage) (getProp sampleImage "id") iconFields
      replacementPendingScene).elements = [sampleRectangle, replacedImage] ∧
    (updateElement (some sampleImage) (getProp sampleImage "id") iconFields
      replacementPendingScene).selectedElement = some rectangleWithIconFields := by
  refine ⟨rfl, rfl, rfl, by decide, rfl, rfl, rfl⟩

/-- C17 at the run in which an image is placed, a file is picked to replace it,
the empty stage is clicked, and then the picked image loads: the selection,
cleared by the click, is set again by the load to an object that holds only the
five replacement fields; it has no id and is no element of the scene. -/
theorem C17_selection_in_scene :
    run staleReplacementAfterDeselect State.init = some staleSelectionScene ∧
    staleSelectionScene.elements = [replacedImage] ∧
    staleSelectionScene.selectedElement = some iconFields ∧
    getProp iconFields "id" = none ∧
    iconFields ∉ staleSelectionScene.elements ∧
    (∀ e ∈ staleSelectionScene.elements,
      strictEq (getProp e "id") (getProp iconFields "id") = false) ∧
    ¬ SelectionInScene staleSelectionScene := by
  have hne : iconFields ≠ replacedImage := by
    intro h
    have := congrArg List.length h
    simp [iconFields, replacedImage] at this
  have hnot : iconFields ∉ staleSelectionScene.elements := by
    simp [staleSelectionScene, State.init, hne]
  refine ⟨rfl, rfl, rfl, rfl, hnot, ?_, fun h => hnot (h.1 iconFields rfl)⟩
  intro e he
  simp only [staleSelectionScene, State.init, List.mem_singleton] at he
  subst he
  decide

/-- C16 as stated fails: in the state `staleSelectionScene`, reached by the run
`staleReplacementAfterDeselect`, the selected object has no id and no element of
the scene has its id; the delete button calls `deleteElement` with that id, and
the selection is cleared, so the state is not left unchanged. -/
theorem C16_delete_element_counterexample :
    ¬ ∀ (st : State) (sel : Obj), Reachable st → st.selectedElement = some sel →
        (∀ e ∈ st.elements, strictEq (getProp e "id") (getProp sel "id") = false) →
        deleteElement (getProp sel "id") st = st := by
  intro h
  have h1 := h staleSelectionScene iconFields
    ⟨staleReplacementAfterDeselect, staleReplacementAfterDeselect_run⟩ rfl (by
      intro e he
      simp only [staleSelectionScene, State.init, List.mem_singleton] at he
      subst he
      decide)
  have h2 := congrArg State.selectedElement h1
  simp [deleteElement, staleSelectionScene, State.init] at h2

/-- C18 (as amended). Hover and delete: `deleteElement` leaves hover as it was;
hover is cleared by mouse leave and by drag start; and every state reached by a
run of events without a delete has, when hover is set, an element with the
hovered id in the scene. -/
theorem C18_hover_in_scene (events : List Event) (st : State)
    (hrun : run events State.init = some st) :
    (∀ elementId, (deleteElement elementId st).hoveredElement = st.hoveredElement) ∧
    (handleElementMouseLeave st).hoveredElement = none ∧
    (∀ element target, (handleElementDragStart element target st).hoveredElement = none) ∧
    ((∀ ev ∈ events, ev.isDelete = false) → HoverInScene st) :=
  ⟨fun _ => rfl, rfl, fun _ _ => rfl,
    fun hd => (run_invariants events State.init st hrun).2 hd init_invariants.2⟩

/-- C18 as stated fails: deleting the hovered element leaves hover set, and the
state reached by placing a rectangle, hovering it and deleting it has a hovered
element and an empty scene. -/
theorem C18_hover_in_scene_counterexample :
    (¬ ∀ (st : State) (e : Obj), st.hoveredElement = some e → e ∈ st.elements →
      (deleteElement (getProp e "id") st).hoveredElement = none) ∧
    (¬ ∀ st : State, Reachable st → HoverInScene st) := by
  refine ⟨?_, ?_⟩
  · intro h
    have h1 := h hoveredRectangleScene sampleRectangle rfl (by
      simp [hoveredRectangleScene, handleElementMouseEnter, rectangleScene_eq])
    simp [deleteElement, hoveredRectangleScene, handleElementMouseEnter] at h1
  · intro h
    have h1 := h _ ⟨hoverThenDelete, hoverThenDelete_run⟩ sampleRectangle rfl
    obtain ⟨e, he, -⟩ := h1
    have hempty : (deleteElement (some (.str "element_1700000000000_4fzyo82mv"))
        hoveredRectangleScene).elements = [] := by
      rfl
    rw [hempty] at he
    cases he

theorem C18_hover_in_scene_witness :
    run (placeRectangle ++ [.mouseEnter 0]) State.init = some hoveredRectangleScene ∧
    (∀ elementId, (deleteElement elementId hoveredRectangleScene).hoveredElement
      = hoveredRectangleScene.hoveredElement) ∧
    HoverInScene hoveredRectangleScene :=
  have h := C18_hover_in_scene (placeRectangle ++ [.mouseEnter 0]) hoveredRectangleScene
    hoveredRectangleScene_run
  ⟨hoveredRectangleScene_run, h.1, h.2.2.2 (by
    intro ev hev
    simp only [placeRectangle, List.cons_append, List.nil_append, List.mem_cons,
      List.mem_singleton, List.not_mem_nil, or_false] at hev
    rcases hev with rfl | rfl | rfl <;> rfl)⟩

/-! ## Body drag end of a text, rectangle or image -/

/-- C21. Drag end of a text, rectangle or image element with a string id: the
handler answers and leaves the drag target; in the scene the element becomes
itself with `x`, `y` set to the reported position and every other field kept;
every element with another id is unchanged, and when ids are unique every other
element of the scene is unchanged. -/
theorem C21_body_drag_end_box (element : Obj) (s : String)
    (hid : getProp element "id" = some (.str s))
    (hty : getProp element "type" = some (.str "text") ∨
      getProp element "type" = some (.str "rectangle") ∨
      getProp element "type" = some (.str "image"))
    (target : KonvaNode) (st : State) :
    ∃ st', handleElementDragEnd element target st = some (st', target) ∧
      st'.elements.length = st.elements.length ∧
      (∀ (j : ℕ), st.elements[j]? = some element →
        st'.elements[j]? =
          some (assign element [("x", .num target.position.x), ("y", .num target.position.y)])) ∧
      getProp (assign element [("x", .num target.position.x), ("y", .num target.position.y)]) "x"
        = some (.num target.position.x) ∧
      getProp (assign element [("x", .num target.position.x), ("y", .num target.position.y)]) "y"
        = some (.num target.position.y) ∧
      (∀ k, k ≠ "x" → k ≠ "y" →
        getProp (assign element [("x", .num target.position.x), ("y", .num target.position.y)]) k
          = getProp element k) ∧
      (∀ (j : ℕ) (e : Obj), st.elements[j]? = some e →
        strictEq (getProp e "id") (getProp element "id") = false →
        st'.elements[j]? = some e) ∧
      (UniqueIds st.elements → element ∈ st.elements →
        ∀ (j : ℕ) (e : Obj), st.elements[j]? = some e → e ≠ element →
          st'.elements[j]? = some e) := by
  have hline : strictEq (getProp element "type") (some (.str "line")) = false := by
    rcases hty with h | h | h <;> simp [h, strictEq]
  have hself : strictEq (getProp element "id") (getProp element "id") = true := by
    simp [hid, strictEq]
  have hother : ∀ (j : ℕ) (e : Obj), st.elements[j]? = some e →
      strictEq (getProp e "id") (getProp element "id") = false →
      (updateElement st.selectedElement (getProp element "id")
        [("x", .num target.position.x), ("y", .num target.position.y)] st).elements[j]?
        = some e := by
    intro j e he hne
    simp [updateElement, List.getElem?_map, he, hne]
  refine ⟨_, handleElementDragEnd_box hline target st, by simp [updateElement], ?_, ?_, ?_, ?_,
    hother, ?_⟩
  · intro j hj
    simp [updateElement, List.getElem?_map, hj, hself]
  · simp [assign, getProp_setProp]
  · simp [assign, getProp_setProp]
  · intro k k1 k2
    simp [assign, getProp_setProp, Ne.symm k1, Ne.symm k2]
  · intro huniq hmem j e he hne
    apply hother j e he
    by_contra hc
    rw [Bool.not_eq_false] at hc
    exact hne (huniq e (List.mem_iff_getElem?.mpr ⟨j, he⟩) element hmem hc)

theorem twoElementScene_uniqueIds : UniqueIds twoElementScene.elements := by
  intro a ha b hb hab
  simp only [twoElementScene, State.init, List.mem_cons, List.mem_singleton,
    List.not_mem_nil, or_false] at ha hb
  rcases ha with rfl | rfl <;> rcases hb with rfl | rfl
  · rfl
  · exact absurd hab (by decide)
  · exact absurd hab (by decide)
  · rfl

theorem C21_body_drag_end_box_witness :
    ∃ st', handleElementDragEnd sampleRectangle { position := { x := 80, y := 90 } }
        twoElementScene = some (st', { position := { x := 80, y := 90 } }) ∧
      st'.elements[0]? =
        some (assign sampleRectangle [("x", .num 80), ("y", .num 90)]) ∧
      getProp (assign sampleRectangle [("x", .num 80), ("y", .num 90)]) "width"
        = some (.num 100) ∧
      st'.elements[1]? = some sampleText := by
  obtain ⟨st', h1, -, h3, -, -, h6, -, h8⟩ := C21_body_drag_end_box sampleRectangle
    "element_1700000000000_4fzyo82mv" (by simp [sampleRectangle, getProp])
    (Or.inr (Or.inl (by simp [sampleRectangle, getProp])))
    { position := { x := 80, y := 90 } } twoElementScene
  refine ⟨st', h1, h3 0 rfl, ?_, ?_⟩
  · rw [h6 "width" (by decide) (by decide)]
    exact sampleRectangle_width
  · exact h8 twoElementScene_uniqueIds (by simp [twoElementScene, State.init]) 1 sampleText rfl
      (by
        intro h
        have := congrArg (fun o => getProp o "type") h
        simp [sampleText, sampleRectangle, getProp] at this)

/-! ## Rendered edge handles against the edge-drag handler -/

/-- The rendered handle of a rectangle with numeric box properties that is not
being dragged. -/
theorem renderedEdgeHandle_eq {element : Obj} {x y width height : ℚ}
    (hx : getProp element "x" = some (.num x)) (hy : getProp element "y" = some (.num y))
    (hw : getProp element "width" = some (.num width))
    (hh : getProp element "height" = some (.num height)) (edge : Edge) :
    renderedEdgeHandle none element edge = some (specRenderedHandle x y width height edge) := by
  rw [← numProp_eq_some] at hx hy hw hh
  cases edge <;> simp [renderedEdgeHandle, dragPosition, hx, hy, hw, hh, specRenderedHandle]

/-- An accepted edge drag, evaluated. -/
theorem rectangleEdgeDrag_accepted {element : Obj} {x y width height : ℚ}
    (hx : getProp element "x" = some (.num x)) (hy : getProp element "y" = some (.num y))
    (hw : getProp element "width" = some (.num width))
    (hh : getProp element "height" = some (.num height)) (edge : Edge) (p : Pos)
    (hacc : 5 < specProposedDimension x y width height edge p) :
    rectangleEdgeDrag element edge p =
      some { updates := some (specEdgeCommit x y width height edge p)
             handle := specAcceptedHandle x y width height edge p } := by
  rw [← numProp_eq_some] at hx hy hw hh
  cases edge <;> simp only [specProposedDimension] at hacc <;>
    simp [rectangleEdgeDrag, hx, hy, hw, hh, specEdgeCommit, specAcceptedHandle, hacc]

/-- The rendered handle of the rectangle as an accepted edge drag updates it. -/
theorem renderedEdgeHandle_updated {element : Obj} {x y width height : ℚ}
    (hx : getProp element "x" = some (.num x)) (hy : getProp element "y" = some (.num y))
    (hw : getProp element "width" = some (.num width))
    (hh : getProp element "height" = some (.num height)) (edge : Edge) (p : Pos) :
    renderedEdgeHandle none (assign element (specEdgeCommit x y width height edge p)) edge =
      some (rerenderedHandle x y width height edge p) := by
  cases edge
  · exact @renderedEdgeHandle_eq _ x p.y width (jsAdd height (jsSub y p.y))
      (by simp [specEdgeCommit, assign, getProp_setProp, hx])
      (by simp [specEdgeCommit, assign, getProp_setProp])
      (by simp [specEdgeCommit, assign, getProp_setProp, hw])
      (by simp [specEdgeCommit, assign, getProp_setProp]) Edge.top
  · exact @renderedEdgeHandle_eq _ x y width (jsSub p.y y)
      (by simp [specEdgeCommit, assign, getProp_setProp, hx])
      (by simp [specEdgeCommit, assign, getProp_setProp, hy])
      (by simp [specEdgeCommit, assign, getProp_setProp, hw])
      (by simp [specEdgeCommit, assign, getProp_setProp]) Edge.bottom
  · exact @renderedEdgeHandle_eq _ p.x y (jsAdd width (jsSub x p.x)) height
      (by simp [specEdgeCommit, assign, getProp_setProp])
      (by simp [specEdgeCommit, assign, getProp_setProp, hy])
      (by simp [specEdgeCommit, assign, getProp_setProp])
      (by simp [specEdgeCommit, assign, getProp_setProp, hh]) Edge.left
  · exact @renderedEdgeHandle_eq _ x y (jsSub p.x x) height
      (by simp [specEdgeCommit, assign, getProp_setProp, hx])
      (by simp [specEdgeCommit, assign, getProp_setProp, hy])
      (by simp [specEdgeCommit, assign, getProp_setProp])
      (by simp [specEdgeCommit, assign, getProp_setProp, hh]) Edge.right

/-- Without rounding, an edge drag that reports the rendered position of its
handle proposes the dimension moved by 4. -/
theorem specProposedDimension_unmoved (x y width height : ℚ) (edge : Edge)
    (hex : Unrounded (unmovedArithmetic x y width height edge)) :
    specProposedDimension x y width height edge (specRenderedHandle x y width height edge) =
      specUnmovedDimension width height edge := by
  cases edge <;>
    simp only [Unrounded, unmovedArithmetic, List.mem_cons, List.mem_singleton,
      List.not_mem_nil, or_false, forall_eq_or_imp, forall_eq] at hex
  · obtain ⟨e1, e2⟩ := hex
    simp only [specProposedDimension, specRenderedHandle, specUnmovedDimension, jsAdd, jsSub, e1,
      sub_sub_cancel, toDouble_four, e2]
  · obtain ⟨e1, e2, e3⟩ := hex
    simp only [specProposedDimension, specRenderedHandle, specUnmovedDimension, jsAdd, jsSub, e1,
      e2]
    rw [show y + height - 4 - y = height - 4 by ring, e3]
  · obtain ⟨e1, e2⟩ := hex
    simp only [specProposedDimension, specRenderedHandle, specUnmovedDimension, jsAdd, jsSub, e1,
      sub_sub_cancel, toDouble_four, e2]
  · obtain ⟨e1, e2, e3⟩ := hex
    simp only [specProposedDimension, specRenderedHandle, specUnmovedDimension, jsAdd, jsSub, e1,
      e2]
    rw [show x + width - 4 - x = width - 4 by ring, e3]

/-- Without rounding, an edge drag that reports the rendered position of its
handle commits the edge coordinate and the dimension moved by 4. -/
theorem specEdgeCommit_unmoved (x y width height : ℚ) (edge : Edge)
    (hex : Unrounded (unmovedArithmetic x y width height edge)) :
    specEdgeCommit x y width height edge (specRenderedHandle x y width height edge) =
      specUnmovedCommit x y width height edge := by
  have h := specProposedDimension_unmoved x y width height edge hex
  cases edge <;>
    simp only [Unrounded, unmovedArithmetic, List.mem_cons, List.mem_singleton,
      List.not_mem_nil, or_false, forall_eq_or_imp, forall_eq] at hex <;>
    simp only [specProposedDimension, specRenderedHandle, specUnmovedDimension] at h <;>
    simp only [specEdgeCommit, specRenderedHandle, specUnmovedCommit, h]
  · rw [jsSub, hex.1]
  · rw [jsSub, hex.1]

/-- Without rounding, the position an accepted edge drag assigns to its handle
is the rendered position of the handle of the updated rectangle plus `(4, 4)`. -/
theorem specAcceptedHandle_offset (x y width height : ℚ) (edge : Edge) (p : Pos)
    (hex : Unrounded (offsetArithmetic x y width height edge p)) :
    (specAcceptedHandle x y width height edge p).x - (rerenderedHandle x y width height edge p).x
      = 4 ∧
    (specAcceptedHandle x y width height edge p).y - (rerenderedHandle x y width height edge p).y
      = 4 := by
  cases edge <;>
    simp only [Unrounded, offsetArithmetic, List.mem_cons, List.mem_singleton,
      List.not_mem_nil, or_false, forall_eq_or_imp, forall_eq] at hex
  · obtain ⟨e1, e2⟩ := hex
    simp only [specAcceptedHandle, rerenderedHandle, specRenderedHandle]
    generalize jsAdd x (jsDiv width 2) = m at e1 ⊢
    simp only [jsSub, e1, e2]
    exact ⟨by ring, by ring⟩
  · obtain ⟨e1, e2, e3, e4⟩ := hex
    simp only [specAcceptedHandle, rerenderedHandle, specRenderedHandle]
    generalize jsAdd x (jsDiv width 2) = m at e1 ⊢
    simp only [jsSub, jsAdd, e1, e2, add_sub_cancel, e3, e4]
    exact ⟨by ring, by ring⟩
  · obtain ⟨e1, e2⟩ := hex
    simp only [specAcceptedHandle, rerenderedHandle, specRenderedHandle]
    generalize jsAdd y (jsDiv height 2) = m at e2 ⊢
    simp only [jsSub, e1, e2]
    exact ⟨by ring, by ring⟩
  · obtain ⟨e1, e2, e3, e4⟩ := hex
    simp only [specAcceptedHandle, rerenderedHandle, specRenderedHandle]
    generalize jsAdd y (jsDiv height 2) = m at e4 ⊢
    simp only [jsSub, jsAdd, e1, e2, add_sub_cancel, e3, e4]
    exact ⟨by ring, by ring⟩

/-- C22 (as amended). Rendered handle against drag handler, in JavaScript
arithmetic: the edge handle of a rectangle that is not being dragged is rendered
at the edge midpoint minus `(4, 4)`; an edge drag that reports this rendered
position, when what it proposes is above 5, commits it and assigns the handle
the un-offset position; when the operations involved are not rounded, what it
proposes is height + 4 (top), height - 4 (bottom), width + 4 (left), width - 4
(right) and what it commits (with `y - 4` for top and `x - 4` for left) changes
the rectangle; and after every accepted edge drag the handler assigns the handle
the un-offset position, which, when the operations that render the handle of the
updated rectangle are not rounded, is that rendered position plus exactly
`(4, 4)`. -/
theorem C22_handle_offset (element : Obj) (x y width height : ℚ)
    (hx : getProp element "x" = some (.num x)) (hy : getProp element "y" = some (.num y))
    (hw : getProp element "width" = some (.num width))
    (hh : getProp element "height" = some (.num height)) (edge : Edge) (st : State) :
    renderedEdgeHandle none element edge = some (specRenderedHandle x y width height edge) ∧
    (5 < specProposedDimension x y width height edge (specRenderedHandle x y width height edge) →
      handleRectangleEdgeDrag element edge
          { position := specRenderedHandle x y width height edge } st =
        some (updateElement st.selectedElement (getProp element "id")
            (specEdgeCommit x y width height edge (specRenderedHandle x y width height edge)) st,
          { position := specAcceptedHandle x y width height edge
              (specRenderedHandle x y width height edge) })) ∧
    (Unrounded (unmovedArithmetic x y width height edge) →
      specProposedDimension x y width height edge (specRenderedHandle x y width height edge) =
        specUnmovedDimension width height edge ∧
      specEdgeCommit x y width height edge (specRenderedHandle x y width height edge) =
        specUnmovedCommit x y width height edge ∧
      ∀ k v, (k, v) ∈ specUnmovedCommit x y width height edge → getProp element k ≠ some v) ∧
    (∀ p : Pos, 5 < specProposedDimension x y width height edge p →
      ∃ d, rectangleEdgeDrag element edge p = some d ∧
        d.updates = some (specEdgeCommit x y width height edge p) ∧
        d.handle = specAcceptedHandle x y width height edge p ∧
        renderedEdgeHandle none (assign element (specEdgeCommit x y width height edge p)) edge
          = some (rerenderedHandle x y width height edge p) ∧
        (Unrounded (offsetArithmetic x y width height edge p) →
          d.handle.x - (rerenderedHandle x y width height edge p).x = 4 ∧
          d.handle.y - (rerenderedHandle x y width height edge p).y = 4)) := by
  refine ⟨renderedEdgeHandle_eq hx hy hw hh edge, ?_, ?_, ?_⟩
  · intro hacc
    simp only [handleRectangleEdgeDrag, rectangleEdgeDrag_accepted hx hy hw hh edge _ hacc,
      Option.bind_eq_bind, Option.some_bind, Option.pure_def]
  · intro hex
    refine ⟨specProposedDimension_unmoved x y width height edge hex,
      specEdgeCommit_unmoved x y width height edge hex, ?_⟩
    intro k v hmem
    cases edge <;>
      simp only [specUnmovedCommit, List.mem_cons, Prod.mk.injEq, List.mem_singleton,
        List.not_mem_nil, or_false] at hmem
    · rcases hmem with ⟨rfl, rfl⟩ | ⟨rfl, rfl⟩
      · rw [hy, ne_eq, Option.some.injEq, JSValue.num.injEq]
        intro h; linarith
      · rw [hh, ne_eq, Option.some.injEq, JSValue.num.injEq]
        intro h; linarith
    · obtain ⟨rfl, rfl⟩ := hmem
      rw [hh, ne_eq, Option.some.injEq, JSValue.num.injEq]
      intro h; linarith
    · rcases hmem with ⟨rfl, rfl⟩ | ⟨rfl, rfl⟩
      · rw [hx, ne_eq, Option.some.injEq, JSValue.num.injEq]
        intro h; linarith
      · rw [hw, ne_eq, Option.some.injEq, JSValue.num.injEq]
        intro h; linarith
    · obtain ⟨rfl, rfl⟩ := hmem
      rw [hw, ne_eq, Option.some.injEq, JSValue.num.injEq]
      intro h; linarith
  · intro p hacc
    exact ⟨_, rectangleEdgeDrag_accepted hx hy hw hh edge p hacc, rfl, rfl,
      renderedEdgeHandle_updated hx hy hw hh edge p,
      specAcceptedHandle_offset x y width height edge p⟩

theorem C22_handle_offset_witness :
    renderedEdgeHandle none sampleRectangle Edge.right = some { x := 146, y := 71 } ∧
    5 < specProposedDimension 50 50 100 50 Edge.right { x := 146, y := 71 } ∧
    Unrounded (unmovedArithmetic 50 50 100 50 Edge.right) ∧
    Unrounded (offsetArithmetic 50 50 100 50 Edge.right { x := 146, y := 71 }) ∧
    handleRectangleEdgeDrag sampleRectangle Edge.right { position := { x := 146, y := 71 } }
        rectangleScene =
      some (updateElement rectangleScene.selectedElement (getProp sampleRectangle "id")
          [("width", .num 96)] rectangleScene,
        { position := { x := 146, y := 75 } }) ∧
    specProposedDimension 50 50 100 50 Edge.right { x := 146, y := 71 } = 100 - 4 ∧
    renderedEdgeHandle none (assign sampleRectangle [("width", .num 96)]) Edge.right
      = some { x := 142, y := 71 } ∧
    (∃ d, rectangleEdgeDrag sampleRectangle Edge.right { x := 146, y := 71 } = some d ∧
      d.handle.x - (142 : ℚ) = 4 ∧ d.handle.y - (71 : ℚ) = 4) := by
  have e1 : jsSub (jsAdd 50 100) 4 = 146 := by decide!
  have e2 : jsSub (jsAdd 50 (jsDiv 50 2)) 4 = 71 := by decide!
  have e3 : jsSub 146 50 = 96 := by decide!
  have e4 : jsAdd 50 (jsDiv 50 2) = 75 := by decide!
  have e5 : jsSub (jsAdd 50 96) 4 = 142 := by decide!
  have hr : specRenderedHandle 50 50 100 50 Edge.right = { x := 146, y := 71 } := by
    simp only [specRenderedHandle, e1, e2]
  have hrr : rerenderedHandle 50 50 100 50 Edge.right { x := 146, y := 71 } =
      { x := 142, y := 71 } := by
    simp only [rerenderedHandle, specRenderedHandle, e3, e5, e2]
  have hacc : 5 < specProposedDimension 50 50 100 50 Edge.right { x := 146, y := 71 } := by
    simp only [specProposedDimension, e3]
    norm_num
  have hex1 : Unrounded (unmovedArithmetic 50 50 100 50 Edge.right) := by
    intro q hq
    simp only [unmovedArithmetic, List.mem_cons, List.mem_singleton, List.not_mem_nil,
      or_false] at hq
    rcases hq with rfl | rfl | rfl <;> decide!
  have hex2 : Unrounded (offsetArithmetic 50 50 100 50 Edge.right { x := 146, y := 71 }) := by
    intro q hq
    simp only [offsetArithmetic, List.mem_cons, List.mem_singleton, List.not_mem_nil,
      or_false] at hq
    rcases hq with rfl | rfl | rfl | rfl <;> decide!
  have h := C22_handle_offset sampleRectangle 50 50 100 50 sampleRectangle_x sampleRectangle_y
    sampleRectangle_width sampleRectangle_height Edge.right rectangleScene
  obtain ⟨h1, h2, h3, h4⟩ := h
  rw [hr] at h1 h2 h3
  have h5 := h2 hacc
  have h6 := (h3 hex1).1
  obtain ⟨d, hd, -, -, hq, hoff⟩ := h4 { x := 146, y := 71 } hacc
  have h7 := hoff hex2
  rw [hrr] at hq h7
  simp only [specEdgeCommit, specAcceptedHandle, e3, e4] at h5 hq
  exact ⟨h1, hacc, hex1, hex2, h5, h6, hq, d, hd, h7⟩

/-- The accepted right-edge drag of `offsetRectangle`, evaluated: the width
committed is `6.142857142857142`, the handle of the updated rectangle is
rendered at `x = 3.242857142857142`, and the position assigned to the handle is
that plus `4.000000000000001`. -/
theorem offsetRectangle_offset :
    jsSub (toDouble (7242857142857143 / 1000000000000000)) (toDouble (11 / 10)) =
      1729060571222601 / 281474976710656 ∧
    (rerenderedHandle (toDouble (11 / 10)) 50 100 50 Edge.right
      { x := toDouble (7242857142857143 / 1000000000000000), y := 75 }).x =
      1825566277523397 / 562949953421312 ∧
    toDouble (7242857142857143 / 1000000000000000) - 1825566277523397 / 562949953421312 =
      4503599627370497 / 1125899906842624 := by
  simp only [rerenderedHandle, specRenderedHandle]
  decide!

/-- C22 as stated fails: for the rectangle at `x = 1.1`, a right-edge drag to
`x = 7.242857142857143` is accepted and commits the width `6.142857142857142`;
the handle of the updated rectangle is rendered at `x = 3.242857142857142`, and
the position assigned to the handle minus that is `4.000000000000001`, in exact
arithmetic as in JavaScript arithmetic. -/
theorem C22_handle_offset_counterexample :
    ¬ ∀ (element : Obj) (x y width height : ℚ), getProp element "x" = some (.num x) →
      getProp element "y" = some (.num y) → getProp element "width" = some (.num width) →
      getProp element "height" = some (.num height) → ∀ (edge : Edge) (p : Pos),
      5 < specProposedDimension x y width height edge p →
      ∃ d q, rectangleEdgeDrag element edge p = some d ∧
        renderedEdgeHandle none (assign element (specEdgeCommit x y width height edge p)) edge
          = some q ∧
        (d.handle.x - q.x = 4 ∨ jsSub d.handle.x q.x = 4) := by
  intro h
  have hx : getProp offsetRectangle "x" = some (.num (toDouble (11 / 10))) := by
    simp [offsetRectangle, getProp]
  have hy : getProp offsetRectangle "y" = some (.num 50) := by
    simp [offsetRectangle, getProp]
  have hw : getProp offsetRectangle "width" = some (.num 100) := by
    simp [offsetRectangle, getProp]
  have hh : getProp offsetRectangle "height" = some (.num 50) := by
    simp [offsetRectangle, getProp]
  have hacc : 5 < specProposedDimension (toDouble (11 / 10)) 50 100 50 Edge.right
      { x := toDouble (7242857142857143 / 1000000000000000), y := 75 } := by
    simp only [specProposedDimension]
    decide!
  obtain ⟨d, q, hd, hq, hoff⟩ := h offsetRectangle _ _ _ _ hx hy hw hh Edge.right _ hacc
  rw [rectangleEdgeDrag_accepted hx hy hw hh Edge.right _ hacc] at hd
  rw [renderedEdgeHandle_updated hx hy hw hh Edge.right] at hq
  obtain rfl := Option.some.inj hd
  obtain rfl := Option.some.inj hq
  simp only [specAcceptedHandle, rerenderedHandle, specRenderedHandle] at hoff
  revert hoff
  decide!

end App
